import Mathlib

/-!
# Contribution aggregation and impact scoring (src/src/components/Analysis.jsx)

A shallow embedding of the `Analyze` component's pure logic: `calculateImpact`,
`formatContribution`, `analyzeContributions` and the body of `handleSearch`.

Modelling conventions:
* JSON values are typed records; an optional JSON field is an `Option`.
* JavaScript truthiness of an optional string is `truthy` (present and non-empty).
* Host built-ins whose behaviour is not defined by this repository
  (`String.prototype.toLowerCase`, `String.prototype.trim`, `Date` parsing,
  `Date.prototype.toISOString` and the order `Array.prototype.sort` produces for a
  comparator that is not consistent) are fields of `Host`; every definition that needs
  one takes the host as a parameter. `jsHost` is one concrete host; it sorts as V8 sorts
  an array of fewer than 64 elements.
* `Date.now()` is the parameter `now` (milliseconds since the epoch).
* Counts are `Nat`; sums and products of counts are integers far below 2^53, which a
  Number holds exactly. A quotient, the product of a quotient and the running total of
  the star counts are stored as the nearest double (`toDouble`, IEEE 754 binary64 in
  its normal range, ties to even); `Math.round` is taken over `ℚ`.
* A network call is represented by its outcome (`Settled`).
* A lookup `table[key]` in an object literal finds the own property of that name and,
  failing that, the member of `Object.prototype` of that name (`objectPrototypeKeys`):
  `typeMap[event.type]` and `repoMap[name]` are modelled this way. A value found in
  `repoMap` is seen through the properties the component reads off it (`RepoView`).
-/

namespace Analysis

/-! ## Host built-ins -/

/-- Host built-ins used by the component. `dateParse s` is the time value of
`new Date(s)` in milliseconds, `none` for an Invalid Date; `memberText key` is the text
a template literal renders for the member `Object.prototype[key]`; `sort comparefn arr`
is the array `arr.sort(comparefn)` leaves when `comparefn` (`none` is the result NaN) is
not a consistent comparator, an order ECMAScript leaves to the implementation: all that
is known of it is that the array keeps its elements (`sort_perm`). -/
structure Host where
  toLowerCase : String → String
  trim : String → String
  dateParse : String → Option Int
  toISOString : Int → String
  memberText : String → String
  sort : {α : Type} → (α → α → Option Int) → List α → List α
  sort_perm : ∀ {α : Type} (comparefn : α → α → Option Int) (arr : List α),
    (sort comparefn arr).Perm arr

/-- JavaScript truthiness of an optional string: present and not empty. -/
def truthy : Option String → Bool
  | some s => s != ""
  | none => false

/-- Accumulator loop of `jsSplit`: `acc` holds the current segment reversed. -/
def splitAux (sep : Char) : List Char → List Char → List (List Char)
  | [], acc => [acc.reverse]
  | c :: cs, acc =>
    if c = sep then acc.reverse :: splitAux sep cs [] else splitAux sep cs (c :: acc)

/-- Model of `s.split(sep)` for a one-character separator. -/
def jsSplit (s : String) (sep : Char) : List String :=
  (splitAux sep s.data []).map String.mk

/-- Model of `parts.join(sep)`. -/
def jsJoin (parts : List String) (sep : String) : String :=
  sep.intercalate parts

/-- Model of `arr.slice(-k)`: the last `k` elements, or all of them when fewer. -/
def sliceLast {α : Type} (k : Nat) (arr : List α) : List α :=
  arr.drop (arr.length - k)

/-- Model of `s.includes(sub)`. -/
def includes (s sub : String) : Bool :=
  decide (sub.data <:+: s.data)

/-- Model of `[...new Set(xs)]`: first occurrences, in insertion order. -/
def setToArray : List String → List String
  | [] => []
  | x :: xs => x :: (setToArray xs).filter (fun y => y != x)

/-- Model of `Math.round`: the floor of `x + 1/2`. -/
def mathRound (x : ℚ) : ℤ :=
  ⌊x + 1 / 2⌋

/-- Rounding to the nearest integer, a tie going to the even neighbour. -/
def roundTiesToEven (x : ℚ) : ℤ :=
  if x - ⌊x⌋ < 1 / 2 then ⌊x⌋
  else if 1 / 2 < x - ⌊x⌋ then ⌊x⌋ + 1
  else if ⌊x⌋ % 2 = 0 then ⌊x⌋
  else ⌊x⌋ + 1

/-- The double nearest to a positive rational `q`: with `2^e ≤ q < 2^(e+1)`, the
multiple of `2^(e-52)` nearest to `q` (a significand of 53 bits), ties to even. -/
def nearestDouble (q : ℚ) : ℚ :=
  (roundTiesToEven (q / 2 ^ (Int.log 2 q - 52)) : ℚ) * 2 ^ (Int.log 2 q - 52)

/-- The Number in which the exact result `q` of an arithmetic operation is stored: the
nearest double (exponents outside the normal range of binary64 are not modelled; no
quotient of two array lengths or of a star total and an array length reaches them). -/
def toDouble (q : ℚ) : ℚ :=
  if 0 < q then nearestDouble q else if q < 0 then -nearestDouble (-q) else 0

/-- The property names a plain object inherits from `Object.prototype`. -/
def objectPrototypeKeys : List String :=
  ["constructor", "__defineGetter__", "__defineSetter__", "hasOwnProperty",
    "__lookupGetter__", "__lookupSetter__", "isPrototypeOf", "propertyIsEnumerable",
    "toString", "valueOf", "__proto__", "toLocaleString"]

/-- The `name` property of the member `Object.prototype[key]`: a method is named by its
key, `constructor` is the function `Object`, and `__proto__` reads the prototype object
itself, which has no `name`. -/
def memberName (key : String) : Option String :=
  if key = "__proto__" then none
  else if key = "constructor" then some "Object"
  else some key

/-! ## Data model -/

/-- The `owner` object of a repository. -/
structure Owner where
  login : Option String
  deriving DecidableEq, Repr

/-- Repository metadata as answered by `GET /repos/{owner}/{name}`. Only the
fields read by the components are kept (`pushed_at` is read by Home.jsx). -/
structure Repository where
  full_name : String
  name : String
  owner : Option Owner
  stargazers_count : Option Nat
  forks_count : Option Nat
  updated_at : Option String
  pushed_at : Option String
  deriving DecidableEq, Repr

/-- The value handed to `calculateImpact`, `formatContribution` and the search path as
`repo`, seen through the properties they read off it; a property the value does not
have reads `undefined` (`none`). The value is a hydrated repository or, when
`repoMap[name]` found an inherited member, a function of `Object.prototype`. -/
structure RepoView where
  full_name : Option String
  name : Option String
  owner : Option Owner
  stargazers_count : Option Nat
  forks_count : Option Nat
  updated_at : Option String
  deriving DecidableEq, Repr

/-- A hydrated repository seen through the properties the component reads. -/
def Repository.view (repo : Repository) : RepoView :=
  { full_name := some repo.full_name
    name := some repo.name
    owner := repo.owner
    stargazers_count := repo.stargazers_count
    forks_count := repo.forks_count
    updated_at := repo.updated_at }

instance : Coe Repository RepoView :=
  ⟨Repository.view⟩

/-- The member `Object.prototype[key]` seen through the properties the component reads:
it has a `name` (see `memberName`) and none of the others. -/
def memberView (key : String) : RepoView :=
  { full_name := none
    name := memberName key
    owner := none
    stargazers_count := none
    forks_count := none
    updated_at := none }

/-- The lookup `({})[key]` in an object without own properties: the inherited member,
which is a function or an object and so truthy, or `undefined`. -/
def inheritedMember (key : String) : Option RepoView :=
  if key ∈ objectPrototypeKeys then some (memberView key) else none

/-- A value of a `type` property: a string, or the member `Object.prototype[key]` that
the lookup `typeMap[key]` inherited. -/
inductive Kind where
  | text (value : String)
  | inherited (key : String)
  deriving DecidableEq, Repr

instance : Coe String Kind :=
  ⟨Kind.text⟩

/-- The `payload.pull_request` object of an event. -/
structure PullRequest where
  title : Option String
  merged_at : Option String
  closed_at : Option String
  additions : Option Nat
  deletions : Option Nat
  deriving DecidableEq, Repr

/-- The `payload.issue` object of an event. -/
structure Issue where
  title : Option String
  state : Option String
  closed_at : Option String
  deriving DecidableEq, Repr

/-- The `payload` of an event; `commits` is kept by its length. -/
structure Payload where
  pull_request : Option PullRequest
  issue : Option Issue
  commits : Option Nat
  deriving DecidableEq, Repr

/-- The `repo` reference of an event. -/
structure RepoRef where
  name : Option String
  deriving DecidableEq, Repr

/-- One record of the public event feed. -/
structure RawEvent where
  type : String
  created_at : Option String
  payload : Option Payload
  repo : Option RepoRef
  deriving DecidableEq, Repr

/-- The `pull_request` marker of a search item. -/
structure SearchPR where
  merged_at : Option String
  deriving DecidableEq, Repr

/-- One item of a `/search/issues` answer. -/
structure RawSearchItem where
  title : Option String
  state : Option String
  pull_request : Option SearchPR
  closed_at : Option String
  updated_at : Option String
  created_at : Option String
  repository_url : Option String
  deriving DecidableEq, Repr

/-- The four values `calculateImpact` can return. -/
inductive Impact where
  | Low
  | Medium
  | High
  | Critical
  deriving DecidableEq, Repr

/-- The second argument of `calculateImpact`. -/
structure Outcome where
  type : Kind
  merged_at : Option String
  closed_at : Option String
  deriving DecidableEq, Repr

/-- The normalized record built by `formatContribution` and by the search path. -/
structure Contribution where
  repo : Option String
  type : Kind
  title : Option String
  impact : Impact
  linesChanged : Nat
  stars : Nat
  forks : Nat
  date : String
  status : String
  description : String
  repoOwner : String
  deriving DecidableEq, Repr

/-- The object returned by `analyzeContributions`. -/
structure Stats where
  totalRepos : Nat
  totalContributions : Nat
  highImpactContributions : Nat
  avgStars : Int
  impactScore : Int
  collaborationScore : Int
  deriving DecidableEq, Repr

/-! ## calculateImpact (lines 63-80) -/

/-- Line 76: `repo.updated_at && new Date(repo.updated_at) > new Date(Date.now() - 90 days)`. -/
def isTrending (h : Host) (now : Int) (repo : RepoView) : Bool :=
  match repo.updated_at with
  | none => false
  | some s =>
    if s = "" then false
    else
      match h.dateParse s with
      | none => false
      | some t => decide (t > now - 90 * 24 * 60 * 60 * 1000)

/-- The function `calculateImpact(repo, contribution)`, statement by statement. -/
def calculateImpact (h : Host) (now : Int) (repo : RepoView) (contribution : Outcome) :
    Impact :=
  let stars := repo.stargazers_count.getD 0
  let forks := repo.forks_count.getD 0
  let impactScore : Nat := 0
  let impactScore :=
    if stars > 10000 ∨ forks > 1000 then impactScore + 4
    else if stars > 1000 ∨ forks > 100 then impactScore + 2
    else if stars > 100 then impactScore + 1
    else impactScore
  let impactScore :=
    if contribution.type = Kind.text "PullRequest" ∧ truthy contribution.merged_at = true then
      impactScore + 3
    else if contribution.type = Kind.text "PullRequest" then impactScore + 1
    else if contribution.type = Kind.text "Issue" ∧ truthy contribution.closed_at = true then
      impactScore + 2
    else impactScore
  let impactScore := if isTrending h now repo = true then impactScore + 1 else impactScore
  if impactScore ≥ 6 then Impact.Critical
  else if impactScore ≥ 4 then Impact.High
  else if impactScore ≥ 2 then Impact.Medium
  else Impact.Low

/-! ## formatContribution (lines 82-122) -/

/-- The lookup `typeMap[key]` in the table of lines 83-88: one of its four own
properties, else the member of `Object.prototype` of that name, else `undefined`. -/
def typeMap (key : String) : Option Kind :=
  if key = "PullRequestEvent" then some (Kind.text "Pull Request")
  else if key = "IssuesEvent" then some (Kind.text "Issue")
  else if key = "PushEvent" then some (Kind.text "Push")
  else if key = "CreateEvent" then some (Kind.text "Created")
  else if key ∈ objectPrototypeKeys then some (Kind.inherited key)
  else none

/-- The text a template literal renders for a `type` value. -/
def Kind.render (h : Host) : Kind → String
  | Kind.text value => value
  | Kind.inherited key => h.memberText key

/-- The message of the TypeError raised by reading a property of an undefined
`payload` (lines 95-113). -/
def payloadTypeError : String :=
  "Cannot read properties of undefined"

/-- The part of a timestamp before the first `T`: `ts.split('T')[0]`. -/
def dayOf (ts : String) : String :=
  (jsSplit ts 'T').headD ""

/-- The fallback date `new Date().toISOString().split('T')[0]`. -/
def today (h : Host) (now : Int) : String :=
  dayOf (h.toISOString now)

/-- The function `formatContribution(repo, event)`. It throws exactly when
`event.payload` is missing. A property `repo` does not have reads `undefined`, which the
template literal of line 119 renders as `undefined`. -/
def formatContribution (h : Host) (now : Int) (repo : RepoView) (event : RawEvent) :
    Except String Contribution :=
  let type := (typeMap event.type).getD (Kind.text "Other")
  match event.payload with
  | none => Except.error payloadTypeError
  | some payload =>
    let pr := payload.pull_request
    let fields : Option String × String × Nat :=
      if event.type = "PullRequestEvent" then
        (some (if truthy (pr.bind (·.title)) then (pr.bind (·.title)).getD "" else "Pull Request"),
         (if truthy (pr.bind (·.merged_at)) then "Merged"
          else if truthy (pr.bind (·.closed_at)) then "Closed" else "Open"),
         ((pr.bind (·.additions)).getD 0) + ((pr.bind (·.deletions)).getD 0))
      else if event.type = "IssuesEvent" then
        (some (if truthy (payload.issue.bind (·.title)) then
            (payload.issue.bind (·.title)).getD "" else "Issue"),
         (if payload.issue.bind (·.state) = some "closed" then "Closed" else "Open"),
         0)
      else if event.type = "PushEvent" then
        (some ("Pushed " ++
            toString (if payload.commits.getD 0 = 0 then 1 else payload.commits.getD 0) ++
            " commit(s)"),
         "Pushed", 0)
      else
        (some (type.render h ++ " activity"), "Completed", 0)
    Except.ok
      { repo := repo.full_name
        type := type
        title := fields.1
        impact := calculateImpact h now repo
          { type := type
            merged_at := pr.bind (·.merged_at)
            closed_at := payload.issue.bind (·.closed_at) }
        linesChanged := fields.2.2
        stars := repo.stargazers_count.getD 0
        forks := repo.forks_count.getD 0
        date :=
          (match event.created_at with
           | some ts => if dayOf ts = "" then today h now else dayOf ts
           | none => today h now)
        status := fields.2.1
        description := type.render h ++ " in " ++ repo.name.getD "undefined"
        repoOwner :=
          (if truthy (repo.owner.bind (·.login)) then (repo.owner.bind (·.login)).getD ""
           else "") }

/-! ## analyzeContributions (lines 124-143) -/

/-- Model of `new Set(xs).size`. -/
def setSize {α : Type} [DecidableEq α] (xs : List α) : Nat :=
  xs.dedup.length

/-- Line 131: `['High', 'Critical'].includes(c.impact)`. -/
def isHighImpact (c : Contribution) : Bool :=
  decide (c.impact = Impact.High ∨ c.impact = Impact.Critical)

/-- The function `analyzeContributions(contributions)`. The running total of line 132,
the two quotients and the product by 100 of line 140 are stored as doubles; `|| 0`
leaves the rounded mean as it is. -/
def analyzeContributions (contributions : List Contribution) : Stats :=
  if contributions.length = 0 then
    { totalRepos := 0, totalContributions := 0, highImpactContributions := 0,
      avgStars := 0, impactScore := 0, collaborationScore := 0 }
  else
    let totalRepos := setSize (contributions.map (·.repo))
    let totalContributions := contributions.length
    let highImpactContributions := (contributions.filter isHighImpact).length
    let avgStars :=
      mathRound (toDouble
        (contributions.foldl (fun sum c => toDouble (sum + (c.stars : ℚ))) 0 /
          (contributions.length : ℚ)))
    let collaborationScore :=
      min 100 (mathRound (((totalRepos * 10 + highImpactContributions * 15 : Nat) : ℚ)))
    { totalRepos := totalRepos
      totalContributions := totalContributions
      highImpactContributions := highImpactContributions
      avgStars := avgStars
      impactScore :=
        if totalContributions > 0 then
          mathRound (toDouble
            (toDouble ((highImpactContributions : ℚ) / (totalContributions : ℚ)) * 100))
        else 0
      collaborationScore := collaborationScore }

/-! ## handleSearch (lines 145-274) -/

/-- Outcome of one awaited call: `fulfilled` with its value, or `rejected` with
`err.message`. -/
inductive Settled (α : Type) where
  | fulfilled (value : α)
  | rejected (reason : String)

/-- Answer of `/search/issues`. -/
structure SearchResponse where
  items : Option (List RawSearchItem)

/-- Answer of `/users/{username}`. -/
structure User where
  login : String
  deriving DecidableEq, Repr

/-- The outcomes of every call `handleSearch` can issue: the user, the three event
pages, the two searches, and `/repos/{name}` for each name. -/
structure Responses where
  user : Settled User
  events1 : Settled (List RawEvent)
  events2 : Settled (List RawEvent)
  events3 : Settled (List RawEvent)
  prSearch : Settled SearchResponse
  issueSearch : Settled SearchResponse
  repos : String → Settled Repository

/-- Lines 167-171 (one spread): the value of a fulfilled page, else `[]`. -/
def pageEvents : Settled (List RawEvent) → List RawEvent
  | Settled.fulfilled value => value
  | Settled.rejected _ => []

/-- Lines 173-176 (one spread): `value.items || []` of a fulfilled search, else `[]`. -/
def responseItems : Settled SearchResponse → List RawSearchItem
  | Settled.fulfilled value => value.items.getD []
  | Settled.rejected _ => []

/-- Lines 167-171. -/
def allEvents (r : Responses) : List RawEvent :=
  pageEvents r.events1 ++ pageEvents r.events2 ++ pageEvents r.events3

/-- Lines 173-176. -/
def searchItems (r : Responses) : List RawSearchItem :=
  responseItems r.prSearch ++ responseItems r.issueSearch

/-- Line 180: `event.repo?.name?.split('/')[0]`. -/
def eventOwner (event : RawEvent) : Option String :=
  (event.repo.bind (·.name)).map (fun name => (jsSplit name '/').headD "")

/-- Line 185: `item.repository_url?.split('/').slice(-2)[0]`. -/
def itemOwner (item : RawSearchItem) : Option String :=
  item.repository_url.map (fun url => (sliceLast 2 (jsSplit url '/')).headD "")

/-- The test `repoOwner && repoOwner.toLowerCase() !== username.toLowerCase()`
(lines 181, 186). -/
def isExternalOwner (h : Host) (username : String) (repoOwner : Option String) : Bool :=
  truthy repoOwner && h.toLowerCase (repoOwner.getD "") != h.toLowerCase username

/-- Lines 179-182. -/
def otherUsersEvents (h : Host) (username : String) (events : List RawEvent) :
    List RawEvent :=
  events.filter (fun event => isExternalOwner h username (eventOwner event))

/-- Lines 184-187. -/
def externalSearchContributions (h : Host) (username : String)
    (items : List RawSearchItem) : List RawSearchItem :=
  items.filter (fun item => isExternalOwner h username (itemOwner item))

/-- Lines 192-195: the template string built from the last two parts of the URL;
an index below 0 reads `undefined`. -/
def itemRepoRef (item : RawSearchItem) : Option String :=
  item.repository_url.map (fun url =>
    let parts := jsSplit url '/'
    (if parts.length < 2 then "undefined" else parts.getD (parts.length - 2) "undefined")
      ++ "/" ++ parts.getD (parts.length - 1) "undefined")

/-- Model of `.filter(Boolean)` on optional strings. -/
def filterBoolean (xs : List (Option String)) : List String :=
  xs.filterMap (fun x => if truthy x then x else none)

/-- Lines 190-196. -/
def repoNames (other : List RawEvent) (external : List RawSearchItem) : List String :=
  (setToArray
    (filterBoolean (other.map (fun event => event.repo.bind (·.name))) ++
      filterBoolean (external.map itemRepoRef))).take 25

/-- Lines 203-208: the lookup `repoMap[key]` in the object filled in order, a later
result replacing an earlier one stored under the same `full_name`; a key without own
property reads the inherited member of that name (line 203 starts from `{}`). The
result is `none` when the lookup is `undefined`. A record stored under `__proto__`
becomes the prototype of the map; the lookup of `__proto__` then returns that record,
as here, but the lookups that would reach the record's own properties through it are
not modelled. -/
def repoMap (repos : List (Settled Repository)) : String → Option RepoView :=
  repos.foldl
    (fun m result =>
      match result with
      | Settled.fulfilled value =>
        fun key => if key = value.full_name then some value.view else m key
      | Settled.rejected _ => m)
    inheritedMember

/-- Line 212: `event.repo?.name && repoMap[event.repo.name]`. -/
def eventHydrated (m : String → Option RepoView) (event : RawEvent) : Bool :=
  truthy (event.repo.bind (·.name)) && (m ((event.repo.bind (·.name)).getD "")).isSome

/-- Line 213. -/
def isTrackedType (event : RawEvent) : Bool :=
  decide (event.type ∈ ["PullRequestEvent", "IssuesEvent", "PushEvent", "CreateEvent"])

/-- Lines 215, 239: `contrib.repoOwner.toLowerCase() !== username.toLowerCase()`. -/
def notOwnedBy (h : Host) (username : String) (contrib : Contribution) : Bool :=
  h.toLowerCase contrib.repoOwner != h.toLowerCase username

/-- Line 214: the callback `event => formatContribution(repoMap[event.repo.name], event)`.
The lookup is truthy after the filter of line 212. -/
def formatHydrated (h : Host) (now : Int) (m : String → Option RepoView)
    (event : RawEvent) : Except String Contribution :=
  match m ((event.repo.bind (·.name)).getD "") with
  | some repo => formatContribution h now repo event
  | none => Except.error payloadTypeError

/-- Lines 211-215. A throw of `formatContribution` aborts the whole chain. -/
def eventContributions (h : Host) (now : Int) (username : String)
    (m : String → Option RepoView) (other : List RawEvent) :
    Except String (List Contribution) :=
  match ((other.filter (eventHydrated m)).filter isTrackedType).mapM
      (formatHydrated h now m) with
  | Except.error message => Except.error message
  | Except.ok formatted => Except.ok (formatted.filter (notOwnedBy h username))

/-- Lines 219, 223: `item.repository_url?.split('/').slice(-2).join('/')`. -/
def itemRepoName (item : RawSearchItem) : Option String :=
  item.repository_url.map (fun url => jsJoin (sliceLast 2 (jsSplit url '/')) "/")

/-- Lines 218-221. -/
def itemHydrated (m : String → Option RepoView) (item : RawSearchItem) : Bool :=
  truthy (itemRepoName item) && (m ((itemRepoName item).getD "")).isSome

/-- Lines 225-237: the object built from a search item and its repository. -/
def searchContribution (h : Host) (now : Int) (repo : RepoView) (item : RawSearchItem) :
    Contribution :=
  { repo := repo.full_name
    type := Kind.text (if item.pull_request.isSome then "Pull Request" else "Issue")
    title := item.title
    impact := calculateImpact h now repo
      { type := Kind.text (if item.pull_request.isSome then "PullRequest" else "Issue")
        merged_at := item.pull_request.bind (·.merged_at)
        closed_at := item.closed_at }
    linesChanged := 0
    stars := repo.stargazers_count.getD 0
    forks := repo.forks_count.getD 0
    date :=
      dayOf (if truthy item.updated_at then item.updated_at.getD ""
        else if truthy item.created_at then item.created_at.getD ""
        else h.toISOString now)
    status :=
      if item.state = some "closed" then
        (if truthy (item.pull_request.bind (·.merged_at)) then "Merged" else "Closed")
      else "Open"
    description := (if item.pull_request.isSome then "Pull Request" else "Issue") ++ " in " ++
      repo.name.getD "undefined"
    repoOwner :=
      (if truthy (repo.owner.bind (·.login)) then (repo.owner.bind (·.login)).getD ""
       else "") }

/-- Lines 222-238: the callback of `.map`, with the lookup of line 224. -/
def searchHydrated (h : Host) (now : Int) (m : String → Option RepoView)
    (item : RawSearchItem) : Option Contribution :=
  (m ((itemRepoName item).getD "")).map (fun repo => searchContribution h now repo item)

/-- Lines 217-239. After the filter of lines 218-221 the lookup always succeeds, so
`filterMap` maps every kept item. -/
def searchContributions (h : Host) (now : Int) (username : String)
    (m : String → Option RepoView) (external : List RawSearchItem) : List Contribution :=
  (((external.filter (itemHydrated m)).filterMap (searchHydrated h now m)).filter
    (notOwnedBy h username))

/-- Line 244: the predicate handed to `findIndex` for the element `contrib`. -/
def sameKey (contrib c : Contribution) : Bool :=
  decide (c.title = contrib.title) && decide (c.repo = contrib.repo)

/-- Lines 243-245: keep the element at `index` when `findIndex` of its key is `index`. -/
def uniqueContributions (arr : List Contribution) : List Contribution :=
  (arr.enum.filter (fun p => arr.findIdx (sameKey p.2) == p.1)).map Prod.snd

/-- Line 249: the table `impactOrder`. -/
def impactOrder : Impact → Int
  | Impact.Critical => 4
  | Impact.High => 3
  | Impact.Medium => 2
  | Impact.Low => 1

/-- Lines 248-252: the comparator; `none` is the result NaN (an Invalid Date). -/
def compareFn (h : Host) (a b : Contribution) : Option Int :=
  let impactDiff := impactOrder b.impact - impactOrder a.impact
  if impactDiff ≠ 0 then some impactDiff
  else
    match h.dateParse b.date, h.dateParse a.date with
    | some tb, some ta => some (tb - ta)
    | _, _ => none

/-- The order `Array.prototype.sort` sorts by: `a` may stay before `b` when the
comparator is not positive, NaN counting as 0. -/
def sortLE (h : Host) (a b : Contribution) : Prop :=
  (compareFn h a b).getD 0 ≤ 0

instance sortLE_decidable (h : Host) : DecidableRel (sortLE h) :=
  fun a b => inferInstanceAs (Decidable ((compareFn h a b).getD 0 ≤ 0))

/-- Lines 247-252: the array `.sort(...)` leaves. The comparator is consistent exactly
when every date parses (`compareFn h a a` is NaN for a date that does not); the result
is then the stable sort by the comparator (here insertion sort), whatever the engine.
Otherwise the order is the engine's (`Host.sort`). -/
def sortedOrder (h : Host) (arr : List Contribution) : List Contribution :=
  if ∀ c ∈ arr, (h.dateParse c.date).isSome = true then arr.insertionSort (sortLE h)
  else h.sort (compareFn h) arr

/-- Lines 247-253: `sort`, then `slice(0, 50)`. -/
def sortedContributions (h : Host) (arr : List Contribution) : List Contribution :=
  (sortedOrder h arr).take 50

/-- Lines 178-253: the list handed to `setContributions`, or the message of the
error thrown on the way. -/
def computeContributions (h : Host) (now : Int) (username : String) (r : Responses) :
    Except String (List Contribution) :=
  let other := otherUsersEvents h username (allEvents r)
  let external := externalSearchContributions h username (searchItems r)
  let m := repoMap ((repoNames other external).map r.repos)
  match eventContributions h now username m other with
  | Except.error message => Except.error message
  | Except.ok fromEvents =>
    Except.ok (sortedContributions h
      (uniqueContributions (fromEvents ++ searchContributions h now username m external)))

/-- The component state (lines 8-13); `stats = none` is the initial `{}`. -/
structure State where
  username : String
  loading : Bool
  userData : Option User
  contributions : List Contribution
  stats : Option Stats
  error : String
  deriving DecidableEq, Repr

/-- The state of a freshly mounted component. -/
def initialState : State :=
  { username := "", loading := false, userData := none, contributions := [],
    stats := none, error := "" }

/-- Line 265. -/
def userNotFoundMessage : String :=
  "User not found. Please check the username and try again."

/-- Line 267. -/
def rateLimitMessage : String :=
  "GitHub API rate limit exceeded. To continue analyzing contributions, please add a GitHub Personal Access Token to your .env file (see env.example for instructions), or try again in an hour."

/-- Line 269. -/
def fetchFailedMessage : String :=
  "Failed to fetch data. Please check your internet connection and try again."

/-- Lines 262-270: the message chosen by the `catch` block. -/
def catchMessage (message : String) : String :=
  if includes message "404" then userNotFoundMessage
  else if includes message "403" || includes message "rate limit" then rateLimitMessage
  else fetchFailedMessage

/-- Line 259. -/
def noContributionsMessage : String :=
  "No open source contributions found. This could be because: 1) No contributions to other users\x27 repositories, 2) All repositories are private, or 3) Contributions are very old."

/-- The function `handleSearch`: the state left when the call has finished. -/
def handleSearch (h : Host) (now : Int) (r : Responses) (s : State) : State :=
  if h.trim s.username = "" then
    { s with error := "Please enter a GitHub username" }
  else
    match r.user with
    | Settled.rejected reason =>
      { s with loading := false, error := catchMessage reason }
    | Settled.fulfilled user =>
      match computeContributions h now s.username r with
      | Except.error message =>
        { s with userData := some user, loading := false, error := catchMessage message }
      | Except.ok sorted =>
        { s with
          userData := some user
          contributions := sorted
          stats := some (analyzeContributions sorted)
          loading := false
          error := if sorted.length = 0 then noContributionsMessage else "" }

/-! ## A concrete host

ASCII lower-casing and trimming, and ISO 8601 timestamps of the two shapes the API
answers with (`YYYY-MM-DD` and `YYYY-MM-DDTHH:MM:SSZ`), years from 1970 on. -/

/-- Lower-cases the letters `A`-`Z`. -/
def asciiLower (s : String) : String :=
  String.mk (s.data.map Char.toLower)

/-- Removes leading and trailing ASCII white space. -/
def asciiTrim (s : String) : String :=
  String.mk (((s.data.dropWhile Char.isWhitespace).reverse.dropWhile Char.isWhitespace).reverse)

/-- Value of a run of decimal digits, `none` when a character is not a digit. -/
def digitsToNat (cs : List Char) : Option Nat :=
  cs.foldl
    (fun acc c => acc.bind (fun n => if c.isDigit then some (10 * n + (c.toNat - 48)) else none))
    (some 0)

/-- Days from 1970-01-01 to the civil date `y-m-d` (proleptic Gregorian, `y ≥ 1`). -/
def daysFromCivil (y m d : Nat) : Int :=
  let y1 : Nat := if m ≤ 2 then y - 1 else y
  let era : Nat := y1 / 400
  let yoe : Nat := y1 - era * 400
  let mp : Nat := if m > 2 then m - 3 else m + 9
  let doy : Nat := (153 * mp + 2) / 5 + d - 1
  let doe : Nat := yoe * 365 + yoe / 4 - yoe / 100 + doy
  ((era * 146097 + doe : Nat) : Int) - 719468

/-- Time value in milliseconds of an ISO 8601 timestamp, `none` when it is not of
one of the two supported shapes. -/
def isoParse (s : String) : Option Int :=
  let cs := s.data
  if cs.length ≠ 10 ∧ cs.length ≠ 20 then none
  else if cs.getD 4 ' ' ≠ '-' ∨ cs.getD 7 ' ' ≠ '-' then none
  else
    match digitsToNat (cs.take 4), digitsToNat ((cs.drop 5).take 2),
      digitsToNat ((cs.drop 8).take 2) with
    | some y, some mo, some d =>
      if mo < 1 ∨ 12 < mo ∨ d < 1 ∨ 31 < d then none
      else if cs.length = 10 then some (daysFromCivil y mo d * 86400000)
      else if cs.getD 10 ' ' ≠ 'T' ∨ cs.getD 13 ' ' ≠ ':' ∨ cs.getD 16 ' ' ≠ ':' ∨
          cs.getD 19 ' ' ≠ 'Z' then none
      else
        match digitsToNat ((cs.drop 11).take 2), digitsToNat ((cs.drop 14).take 2),
          digitsToNat ((cs.drop 17).take 2) with
        | some hh, some mi, some ss =>
          if 23 < hh ∨ 59 < mi ∨ 59 < ss then none
          else some (daysFromCivil y mo d * 86400000 + (((hh * 60 + mi) * 60 + ss) * 1000 : Nat))
        | _, _, _ => none
    | _, _, _ => none

/-- Decimal rendering of `n`, left-padded with zeros to `width` characters. -/
def padZero (width n : Nat) : String :=
  String.mk (List.replicate (width - (toString n).length) '0') ++ toString n

/-- The civil date `(y, m, d)` of a day count from 1970-01-01 (`z ≥ 0`). -/
def civilFromDays (z : Nat) : Nat × Nat × Nat :=
  let z1 := z + 719468
  let era := z1 / 146097
  let doe := z1 - era * 146097
  let yoe := (doe - doe / 1460 + doe / 36524 - doe / 146096) / 365
  let doy := doe - (365 * yoe + yoe / 4 - yoe / 100)
  let mp := (5 * doy + 2) / 153
  let d := doy - (153 * mp + 2) / 5 + 1
  let m := if mp < 10 then mp + 3 else mp - 9
  (if m ≤ 2 then yoe + era * 400 + 1 else yoe + era * 400, m, d)

/-- Rendering `YYYY-MM-DDTHH:MM:SS.mmmZ` of a time value (`ms ≥ 0`). -/
def isoString (ms : Int) : String :=
  let t := ms.toNat
  let date := civilFromDays (t / 86400000)
  let r := t % 86400000
  padZero 4 date.1 ++ "-" ++ padZero 2 date.2.1 ++ "-" ++ padZero 2 date.2.2 ++ "T" ++
    padZero 2 (r / 3600000) ++ ":" ++ padZero 2 (r / 60000 % 60) ++ ":" ++
    padZero 2 (r / 1000 % 60) ++ "." ++ padZero 3 (r % 1000) ++ "Z"

/-- The text V8 renders for the member `Object.prototype[key]`: the prototype object
itself for `__proto__`, a native function for every other key. -/
def nativeText (key : String) : String :=
  if key = "__proto__" then "[object Object]"
  else "function " ++ (memberName key).getD "" ++ "() \x7b [native code] \x7d"

/-- V8's test `order < 0` on the comparator's result for `(a, b)`, NaN read as 0. -/
def orderNegative {α : Type} (comparefn : α → α → Option Int) (a b : α) : Bool :=
  decide ((comparefn a b).getD 0 < 0)

/-- The loop of V8's `CountAndMakeRun`: how many elements after `previous` continue
the run, a descending run while `order < 0`, another one while `order >= 0`. -/
def runTail {α : Type} (comparefn : α → α → Option Int) (descending : Bool) :
    α → List α → Nat
  | _, [] => 0
  | previous, current :: rest =>
    if orderNegative comparefn current previous = descending then
      runTail comparefn descending current rest + 1
    else 0

/-- The search loop of V8's `BinaryInsertionSort` for the slot of `pivot` in
`sorted[left, right)`: `right = mid` when `order < 0`, else `left = mid + 1`. Every
iteration shrinks `right - left`; `steps` bounds the number of iterations. -/
def binarySlot {α : Type} (comparefn : α → α → Option Int) (pivot : α) (sorted : List α) :
    Nat → Nat → Nat → Nat
  | 0, left, _ => left
  | steps + 1, left, right =>
    if left < right then
      match sorted.get? (left + (right - left) / 2) with
      | some element =>
        if orderNegative comparefn pivot element then
          binarySlot comparefn pivot sorted steps left (left + (right - left) / 2)
        else binarySlot comparefn pivot sorted steps (left + (right - left) / 2 + 1) right
      | none => left
    else left

/-- V8's `BinaryInsertionSort`: each element after the sorted part is moved into the
slot the search finds for it. -/
def binaryInsertionSort {α : Type} (comparefn : α → α → Option Int) :
    List α → List α → List α
  | sorted, [] => sorted
  | sorted, pivot :: rest =>
    binaryInsertionSort comparefn
      (sorted.take (binarySlot comparefn pivot sorted sorted.length 0 sorted.length) ++
        pivot ::
          sorted.drop (binarySlot comparefn pivot sorted sorted.length 0 sorted.length))
      rest

/-- V8's `ArrayTimSortImpl` on an array of fewer than 64 elements, where the minimal
run length is the length of the array: the first run is counted, reversed when it is
descending, and the other elements are inserted into it. -/
def arrayTimSort {α : Type} (comparefn : α → α → Option Int) : List α → List α
  | [] => []
  | [a] => [a]
  | a :: b :: rest =>
    binaryInsertionSort comparefn
      (if orderNegative comparefn b a then
        ((a :: b :: rest).take (runTail comparefn (orderNegative comparefn b a) b rest +
          2)).reverse
      else (a :: b :: rest).take (runTail comparefn (orderNegative comparefn b a) b rest + 2))
      ((a :: b :: rest).drop (runTail comparefn (orderNegative comparefn b a) b rest + 2))

/-- A concrete host for ASCII text and ISO timestamps, sorting as V8 sorts an array of
fewer than 64 elements (a longer array V8 cuts into runs that it merges). -/
def jsHost : Host :=
  { toLowerCase := asciiLower, trim := asciiTrim, dateParse := isoParse,
    toISOString := isoString, memberText := nativeText,
    sort := fun comparefn arr => arrayTimSort comparefn arr,
    sort_perm := by
      intro α comparefn arr
      have hinsert : ∀ (rest sorted : List α),
          (binaryInsertionSort comparefn sorted rest).Perm (sorted ++ rest) := by
        intro rest
        induction rest with
        | nil =>
          intro sorted
          rw [binaryInsertionSort, List.append_nil]
        | cons pivot rest ih =>
          intro sorted
          rw [binaryInsertionSort]
          refine (ih _).trans ?_
          refine List.Perm.trans ?_ List.perm_middle.symm
          refine List.Perm.trans (List.Perm.append_right rest List.perm_middle) ?_
          rw [List.cons_append, List.take_append_drop]
      cases arr with
      | nil => exact List.Perm.refl _
      | cons a arr =>
        cases arr with
        | nil => exact List.Perm.refl _
        | cons b rest =>
          show (binaryInsertionSort comparefn _ _).Perm _
          refine (hinsert _ _).trans ?_
          have hsplit := List.take_append_drop
            (runTail comparefn (orderNegative comparefn b a) b rest + 2) (a :: b :: rest)
          split_ifs
          · exact (List.Perm.append_right _ (List.reverse_perm _)).trans
              (List.Perm.of_eq hsplit)
          · exact List.Perm.of_eq hsplit }

/-! ## The specification's wording of the Impact Scorer -/

/-- The outcomes the scorer tells apart. -/
inductive OutcomeKind where
  | mergedPullRequest
  | unmergedPullRequest
  | closedIssue
  | other
  deriving DecidableEq, Repr

/-- Reading of an outcome record: a pull request is merged when it has a merge
timestamp, an issue is closed when it has a close timestamp. -/
def outcomeKind (contribution : Outcome) : OutcomeKind :=
  if contribution.type = Kind.text "PullRequest" then
    (if truthy contribution.merged_at = true then OutcomeKind.mergedPullRequest
     else OutcomeKind.unmergedPullRequest)
  else if contribution.type = Kind.text "Issue" ∧ truthy contribution.closed_at = true then
    OutcomeKind.closedIssue
  else OutcomeKind.other

/-- Popularity points as the specification words them. -/
def specPopularity (stars forks : Nat) : Nat :=
  if stars > 10000 ∨ forks > 1000 then 4
  else if stars > 1000 ∨ forks > 100 then 2
  else if stars > 100 then 1
  else 0

/-- Outcome points as the specification words them. -/
def specOutcome : OutcomeKind → Nat
  | OutcomeKind.mergedPullRequest => 3
  | OutcomeKind.unmergedPullRequest => 1
  | OutcomeKind.closedIssue => 2
  | OutcomeKind.other => 0

/-- The bucket of a total as the specification words it. -/
def specBucket (total : Nat) : Impact :=
  if total ≥ 6 then Impact.Critical
  else if total ≥ 4 then Impact.High
  else if total ≥ 2 then Impact.Medium
  else Impact.Low

/-- The recency points the code adds: 1 when `isTrending` holds, else 0. -/
def recencyPoints (h : Host) (now : Int) (repo : RepoView) : Nat :=
  if isTrending h now repo = true then 1 else 0

/-- Ninety days in milliseconds. -/
def ninetyDays : Int :=
  7776000000

/-- The timestamp `ts` is present, parses, and is later than 90 days before `now`. -/
def within90Days (h : Host) (now : Int) (ts : Option String) : Prop :=
  ∃ s t, ts = some s ∧ s ≠ "" ∧ h.dateParse s = some t ∧ now - ninetyDays < t

/-- Executable form of `within90Days`. -/
def recentTimestamp (h : Host) (now : Int) (ts : Option String) : Bool :=
  match ts with
  | none => false
  | some s =>
    match h.dateParse s with
    | none => false
    | some t => decide (s ≠ "" ∧ now - ninetyDays < t)

/-- The tier the scorer would give if the recency bonus followed the last-push
timestamp `pushed_at`. -/
def impactByLastPush (h : Host) (now : Int) (repo : Repository) (contribution : Outcome) :
    Impact :=
  specBucket (specPopularity (repo.stargazers_count.getD 0) (repo.forks_count.getD 0) +
    specOutcome (outcomeKind contribution) +
    (if recentTimestamp h now repo.pushed_at = true then 1 else 0))

/-! ## Sample records -/

/-- A repository with no stars, updated on 2024-06-01 and last pushed to in 2020. -/
def quietRepo : Repository :=
  { full_name := "octo/tool", name := "tool", owner := some { login := some "octo" },
    stargazers_count := some 0, forks_count := some 0,
    updated_at := some "2024-06-01T00:00:00Z", pushed_at := some "2020-01-01T00:00:00Z" }

/-- The instant 2024-06-15T00:00:00Z in milliseconds. -/
def midJune2024 : Int :=
  1718409600000

/-- A `PullRequestEvent` for a merged pull request. -/
def mergedPrEvent : RawEvent :=
  { type := "PullRequestEvent", created_at := some "2024-05-01T10:00:00Z",
    payload := some
      { pull_request := some
          { title := some "Fix parser", merged_at := some "2024-05-01T10:00:00Z",
            closed_at := some "2024-05-01T10:00:00Z", additions := some 10,
            deletions := some 2 },
        issue := none, commits := none },
    repo := some { name := some "octo/tool" } }

/-- The search item for the same merged pull request. -/
def mergedPrItem : RawSearchItem :=
  { title := some "Fix parser", state := some "closed",
    pull_request := some { merged_at := some "2024-05-01T10:00:00Z" },
    closed_at := some "2024-05-01T10:00:00Z", updated_at := some "2024-05-01T10:00:00Z",
    created_at := some "2024-04-30T09:00:00Z",
    repository_url := some "https://api.github.com/repos/octo/tool" }

/-- An unmerged pull request as an outcome record. -/
def openPrOutcome : Outcome :=
  { type := "PullRequest", merged_at := none, closed_at := none }

/-- A merged pull request as an outcome record. -/
def mergedPrOutcome : Outcome :=
  { type := "PullRequest", merged_at := some "2024-05-01T10:00:00Z", closed_at := none }

/-- A repository with 10001 stars updated on 2024-06-01. -/
def starredRepo : Repository :=
  { full_name := "big/engine", name := "engine", owner := some { login := some "big" },
    stargazers_count := some 10001, forks_count := some 0,
    updated_at := some "2024-06-01T00:00:00Z", pushed_at := some "2020-01-01T00:00:00Z" }

/-- A repository with 50 stars and no update timestamp. -/
def staleRepo : Repository :=
  { full_name := "octo/tool", name := "tool", owner := some { login := some "octo" },
    stargazers_count := some 50, forks_count := none, updated_at := none,
    pushed_at := none }

/-! ## The specification's wording of deduplication and ranking -/

/-- The pair two Contributions are compared by. -/
def dedupKey (c : Contribution) : Option String × Option String :=
  (c.title, c.repo)

/-- Keep-first deduplication as the specification words it: the element at position
`i` is kept exactly when no element before position `i` has the same pair. -/
def keepFirst (arr : List Contribution) : List Contribution :=
  (arr.enum.filter
    (fun (p : Nat × Contribution) =>
      decide (∀ x ∈ arr.take p.1, dedupKey x ≠ dedupKey p.2))).map Prod.snd

/-- A merged pull request to a popular repository. -/
def sampleFirst : Contribution :=
  { repo := "big/engine", type := "Pull Request", title := some "Fix parser",
    impact := Impact.High, linesChanged := 12, stars := 15000, forks := 900,
    date := "2024-05-01", status := "Merged", description := "Pull Request in engine",
    repoOwner := "big" }

/-- A closed issue in a small repository. -/
def sampleSecond : Contribution :=
  { repo := "octo/tool", type := "Issue", title := some "Crash on start",
    impact := Impact.Medium, linesChanged := 0, stars := 50, forks := 3,
    date := "2024-05-03", status := "Closed", description := "Issue in tool",
    repoOwner := "octo" }

/-- The search-derived record of the pull request of `sampleFirst`: same pair. -/
def sampleDuplicate : Contribution :=
  { repo := "big/engine", type := "Pull Request", title := some "Fix parser",
    impact := Impact.Critical, linesChanged := 0, stars := 15000, forks := 900,
    date := "2024-05-02", status := "Merged", description := "Pull Request in engine",
    repoOwner := "big" }

/-- Three Contributions, the third repeating the pair of the first. -/
def sampleContributions : List Contribution :=
  [sampleFirst, sampleSecond, sampleDuplicate]

/-- Forty Contributions with distinct titles, the first 23 of tier High, the other 17 of
tier Medium. -/
def fortyContributions : List Contribution :=
  (List.range 40).map (fun i =>
    { sampleSecond with
      title := some ("Patch " ++ toString i)
      impact := if i < 23 then Impact.High else Impact.Medium })

/-- A record like `sampleSecond` with the given title and date. -/
def datedContribution (title date : String) : Contribution :=
  { sampleSecond with title := some title, date := date }

/-- Four records of one tier, the third with a date that does not parse. -/
def undatedThird : List Contribution :=
  [datedContribution "t0" "2024-05-01", datedContribution "t1" "2024-05-03",
    datedContribution "t2" "unknown", datedContribution "t3" "2024-05-05"]

/-- Seven records of one tier; `a` and `b` have the same date, three dates do not
parse. -/
def undatedAmongEqual : List Contribution :=
  [datedContribution "g0" "unknown", datedContribution "g1" "unknown",
    datedContribution "e" "2024-05-01", datedContribution "g2" "unknown",
    datedContribution "a" "2024-05-05", datedContribution "w" "2024-05-09",
    datedContribution "b" "2024-05-05"]

/-- Position of a tier in the order Low < Medium < High < Critical. -/
def tierRank : Impact → Nat
  | Impact.Low => 0
  | Impact.Medium => 1
  | Impact.High => 2
  | Impact.Critical => 3

/-- The time value of a Contribution's date (0 when the date does not parse). -/
def dateValue (h : Host) (c : Contribution) : Int :=
  (h.dateParse c.date).getD 0

/-- The ranking order of the specification: `a` may precede `b` when its tier is
higher, or the tiers are equal and its date is not earlier. -/
def ranksAtLeast (h : Host) (a b : Contribution) : Prop :=
  tierRank a.impact > tierRank b.impact ∨
    (tierRank a.impact = tierRank b.impact ∧ dateValue h a ≥ dateValue h b)

/-- Strict ranking: a higher tier, or the same tier and a later date. -/
def ranksAbove (h : Host) (a b : Contribution) : Prop :=
  tierRank a.impact > tierRank b.impact ∨
    (tierRank a.impact = tierRank b.impact ∧ dateValue h a > dateValue h b)

instance ranksAtLeast_decidable (h : Host) : DecidableRel (ranksAtLeast h) :=
  fun _ _ => inferInstanceAs (Decidable (_ ∨ _))

instance ranksAtLeast_total (h : Host) : IsTotal Contribution (ranksAtLeast h) :=
  ⟨fun a b => by unfold ranksAtLeast; omega⟩

instance ranksAtLeast_trans (h : Host) : IsTrans Contribution (ranksAtLeast h) :=
  ⟨fun a b c => by unfold ranksAtLeast; omega⟩

/-- The mean of the star counts of a list of Contributions. -/
def meanStars (contributions : List Contribution) : ℚ :=
  (((contributions.map (·.stars)).sum : Nat) : ℚ) / (contributions.length : ℚ)

/-- The integer `n` is `q` rounded to the nearest integer, halves rounded up. -/
def isRoundHalfUp (n : ℤ) (q : ℚ) : Prop :=
  (n : ℚ) - 1 / 2 ≤ q ∧ q < (n : ℚ) + 1 / 2

/-! ## Self-owned events -/

/-- The event names a repository whose owner part equals the queried username up to
letter case. -/
def isSelfEvent (h : Host) (username : String) (event : RawEvent) : Bool :=
  match eventOwner event with
  | some repoOwner => h.toLowerCase repoOwner == h.toLowerCase username
  | none => false

/-- An event page without the self-owned events. -/
def withoutSelfPage (h : Host) (username : String) :
    Settled (List RawEvent) → Settled (List RawEvent)
  | Settled.fulfilled value =>
    Settled.fulfilled (value.filter (fun event => !isSelfEvent h username event))
  | Settled.rejected reason => Settled.rejected reason

/-- The responses with every self-owned event removed from the three event pages. -/
def withoutSelfEvents (h : Host) (username : String) (r : Responses) : Responses :=
  { user := r.user
    events1 := withoutSelfPage h username r.events1
    events2 := withoutSelfPage h username r.events2
    events3 := withoutSelfPage h username r.events3
    prSearch := r.prSearch
    issueSearch := r.issueSearch
    repos := r.repos }

/-- A push by the queried user `Octo` to the repository `octo/tool`. -/
def selfPushEvent : RawEvent :=
  { type := "PushEvent", created_at := some "2024-05-02T08:00:00Z",
    payload := some { pull_request := none, issue := none, commits := some 2 },
    repo := some { name := some "octo/tool" } }

/-- A merged pull request by the queried user to `big/engine`, as an event. -/
def externalPrEvent : RawEvent :=
  { type := "PullRequestEvent", created_at := some "2024-05-01T10:00:00Z",
    payload := some
      { pull_request := some
          { title := some "Fix parser", merged_at := some "2024-05-01T10:00:00Z",
            closed_at := some "2024-05-01T10:00:00Z", additions := some 10,
            deletions := some 2 },
        issue := none, commits := none },
    repo := some { name := some "big/engine" } }

/-- Hydration answers: the two sample repositories, 404 for every other name. -/
def sampleRepos (name : String) : Settled Repository :=
  if name = "big/engine" then Settled.fulfilled starredRepo
  else if name = "octo/tool" then Settled.fulfilled quietRepo
  else Settled.rejected "GitHub API Error: 404"

/-- Source answers for the user `Octo`: one self-owned push and one external pull
request on the first event page, and the user's own pull request in the search. -/
def sampleResponses : Responses :=
  { user := Settled.fulfilled { login := "Octo" }
    events1 := Settled.fulfilled [selfPushEvent, externalPrEvent]
    events2 := Settled.fulfilled []
    events3 := Settled.rejected "GitHub API Error: 500"
    prSearch := Settled.fulfilled { items := some [mergedPrItem] }
    issueSearch := Settled.fulfilled { items := some [] }
    repos := sampleRepos }

/-- The Contribution built from `externalPrEvent`. -/
def externalPrContribution : Contribution :=
  { repo := "big/engine", type := "Pull Request", title := some "Fix parser",
    impact := Impact.High, linesChanged := 12, stars := 10001, forks := 0,
    date := "2024-05-01", status := "Merged", description := "Pull Request in engine",
    repoOwner := "big" }

/-! ## The end-to-end scenario

The user `alice` has three merged pull requests to `bigorg/engine` (15,000 stars) and
one closed issue in `smallorg/tool` (50 stars). Each record reaches the pipeline through
the event feed, the search index, or both. -/

/-- How a record reaches the pipeline. -/
inductive Delivery where
  | eventFeed
  | searchIndex
  | both
  deriving DecidableEq, Repr

/-- The record is on the event feed. -/
def Delivery.onFeed : Delivery → Bool
  | Delivery.eventFeed => true
  | Delivery.searchIndex => false
  | Delivery.both => true

/-- The record is in the search index. -/
def Delivery.inSearch : Delivery → Bool
  | Delivery.eventFeed => false
  | Delivery.searchIndex => true
  | Delivery.both => true

/-- The 15,000-star repository, with any fork count and update timestamp. -/
def engineRepo (forks : Option Nat) (updated : Option String) : Repository :=
  { full_name := "bigorg/engine", name := "engine", owner := some { login := some "bigorg" },
    stargazers_count := some 15000, forks_count := forks, updated_at := updated,
    pushed_at := none }

/-- The 50-star repository, with any fork count and update timestamp. -/
def toolRepo (forks : Option Nat) (updated : Option String) : Repository :=
  { full_name := "smallorg/tool", name := "tool", owner := some { login := some "smallorg" },
    stargazers_count := some 50, forks_count := forks, updated_at := updated,
    pushed_at := none }

/-- The event of a merged pull request to `bigorg/engine`. -/
def enginePrEvent (title day : String) : RawEvent :=
  { type := "PullRequestEvent", created_at := some day,
    payload := some
      { pull_request := some
          { title := some title, merged_at := some day, closed_at := some day,
            additions := some 10, deletions := some 2 },
        issue := none, commits := none },
    repo := some { name := some "bigorg/engine" } }

/-- The search item of a merged pull request to `bigorg/engine`. -/
def enginePrItem (title day : String) : RawSearchItem :=
  { title := some title, state := some "closed", pull_request := some { merged_at := some day },
    closed_at := some day, updated_at := some day, created_at := some day,
    repository_url := some "https://api.github.com/repos/bigorg/engine" }

/-- The event of the closed issue in `smallorg/tool`. -/
def toolIssueEvent : RawEvent :=
  { type := "IssuesEvent", created_at := some "2024-05-04T10:00:00Z",
    payload := some
      { pull_request := none,
        issue := some
          { title := some "Crash on start", state := some "closed",
            closed_at := some "2024-05-04T10:00:00Z" },
        commits := none },
    repo := some { name := some "smallorg/tool" } }

/-- The search item of the closed issue in `smallorg/tool`. -/
def toolIssueItem : RawSearchItem :=
  { title := some "Crash on start", state := some "closed", pull_request := none,
    closed_at := some "2024-05-04T10:00:00Z", updated_at := some "2024-05-04T10:00:00Z",
    created_at := some "2024-05-03T10:00:00Z",
    repository_url := some "https://api.github.com/repos/smallorg/tool" }

/-- The events a record contributes to the feed. -/
def feedPart (d : Delivery) (event : RawEvent) : List RawEvent :=
  if d.onFeed = true then [event] else []

/-- The items a record contributes to a search answer. -/
def searchPart (d : Delivery) (item : RawSearchItem) : List RawSearchItem :=
  if d.inSearch = true then [item] else []

/-- Hydration answers of the scenario. -/
def scenarioRepos (forksA forksB : Option Nat) (updatedA updatedB : Option String)
    (name : String) : Settled Repository :=
  if name = "bigorg/engine" then Settled.fulfilled (engineRepo forksA updatedA)
  else if name = "smallorg/tool" then Settled.fulfilled (toolRepo forksB updatedB)
  else Settled.rejected "GitHub API Error: 404"

/-- The source answers of the scenario for the deliveries `d1 d2 d3` of the three pull
requests and `d4` of the issue. -/
def scenarioResponses (forksA forksB : Option Nat) (updatedA updatedB : Option String)
    (d1 d2 d3 d4 : Delivery) : Responses :=
  { user := Settled.fulfilled { login := "alice" }
    events1 := Settled.fulfilled
      (feedPart d1 (enginePrEvent "Fix parser" "2024-05-01T10:00:00Z") ++
        feedPart d2 (enginePrEvent "Add cache" "2024-05-02T10:00:00Z") ++
        feedPart d3 (enginePrEvent "Speed up build" "2024-05-03T10:00:00Z") ++
        feedPart d4 toolIssueEvent)
    events2 := Settled.fulfilled []
    events3 := Settled.fulfilled []
    prSearch := Settled.fulfilled
      { items := some
          (searchPart d1 (enginePrItem "Fix parser" "2024-05-01T10:00:00Z") ++
            searchPart d2 (enginePrItem "Add cache" "2024-05-02T10:00:00Z") ++
            searchPart d3 (enginePrItem "Speed up build" "2024-05-03T10:00:00Z")) }
    issueSearch := Settled.fulfilled { items := some (searchPart d4 toolIssueItem) }
    repos := scenarioRepos forksA forksB updatedA updatedB }

/-- The state in which `alice` has been typed into a freshly mounted component. -/
def aliceState : State :=
  { username := "alice", loading := false, userData := none, contributions := [],
    stats := none, error := "" }

/-- The stats the specification expects in the scenario. -/
def scenarioStats : Stats :=
  { totalRepos := 2, totalContributions := 4, highImpactContributions := 3,
    avgStars := 11263, impactScore := 75, collaborationScore := 65 }

/-- The repository map of the scenario. -/
def scenarioMap (forksA forksB : Option Nat) (updatedA updatedB : Option String)
    (key : String) : Option RepoView :=
  if key = "bigorg/engine" then some (engineRepo forksA updatedA).view
  else if key = "smallorg/tool" then some (toolRepo forksB updatedB).view
  else inheritedMember key

/-- The Contribution of a merged pull request to `bigorg/engine` taken from the feed. -/
def feedPr (forks : Option Nat) (title date : String) : Contribution :=
  { repo := "bigorg/engine", type := "Pull Request", title := some title,
    impact := Impact.High, linesChanged := 12, stars := 15000, forks := forks.getD 0,
    date := date, status := "Merged", description := "Pull Request in engine",
    repoOwner := "bigorg" }

/-- The Contribution of a merged pull request to `bigorg/engine` taken from the search. -/
def searchPr (forks : Option Nat) (title date : String) : Contribution :=
  { repo := "bigorg/engine", type := "Pull Request", title := some title,
    impact := Impact.Critical, linesChanged := 0, stars := 15000, forks := forks.getD 0,
    date := date, status := "Merged", description := "Pull Request in engine",
    repoOwner := "bigorg" }

/-- The Contribution of the closed issue in `smallorg/tool`, from either source. -/
def issueContribution (forks : Option Nat) : Contribution :=
  { repo := "smallorg/tool", type := "Issue", title := some "Crash on start",
    impact := Impact.Medium, linesChanged := 0, stars := 50, forks := forks.getD 0,
    date := "2024-05-04", status := "Closed", description := "Issue in tool",
    repoOwner := "smallorg" }

/-- The Contributions of the scenario before deduplication: feed records first. -/
def scenarioContributions (forksA forksB : Option Nat) (d1 d2 d3 d4 : Delivery) :
    List Contribution :=
  ((if d1.onFeed = true then [feedPr forksA "Fix parser" "2024-05-01"] else []) ++
    (if d2.onFeed = true then [feedPr forksA "Add cache" "2024-05-02"] else []) ++
    (if d3.onFeed = true then [feedPr forksA "Speed up build" "2024-05-03"] else []) ++
    (if d4.onFeed = true then [issueContribution forksB] else [])) ++
  ((if d1.inSearch = true then [searchPr forksA "Fix parser" "2024-05-01"] else []) ++
    (if d2.inSearch = true then [searchPr forksA "Add cache" "2024-05-02"] else []) ++
    (if d3.inSearch = true then [searchPr forksA "Speed up build" "2024-05-03"] else []) ++
    (if d4.inSearch = true then [issueContribution forksB] else []))

/-- The function `analyzeContributions` with each `Math.round` of a quotient of
naturals written as an integer division. -/
def analyzeByDivision (contributions : List Contribution) : Stats :=
  if contributions.length = 0 then
    { totalRepos := 0, totalContributions := 0, highImpactContributions := 0,
      avgStars := 0, impactScore := 0, collaborationScore := 0 }
  else
    let totalRepos := setSize (contributions.map (·.repo))
    let high := (contributions.filter isHighImpact).length
    { totalRepos := totalRepos
      totalContributions := contributions.length
      highImpactContributions := high
      avgStars :=
        ((2 * (contributions.map (·.stars)).sum + contributions.length) /
          (2 * contributions.length) : Nat)
      impactScore := ((200 * high + contributions.length) / (2 * contributions.length) : Nat)
      collaborationScore := min 100 ((totalRepos * 10 + high * 15 : Nat) : Int) }

/-- A Contribution with its fork snapshot set to 0 (no step of the pipeline after
classification reads it). -/
def withoutForks (c : Contribution) : Contribution :=
  { c with forks := 0 }

/-! ## Errors of the fetch layer and the calls of `handleSearch` -/

/-- Lines 48-55: the message of the error `fetchGitHubData` throws for a response
that is not ok; `resetDate` is the rendered reset time (or `unknown`) and
`authenticated` is `!!GITHUB_TOKEN`. -/
def httpErrorMessage (status : Nat) (resetDate : String) (authenticated : Bool) : String :=
  if status = 403 ∨ status = 429 then
    "GitHub API rate limit exceeded. Resets at: " ++ resetDate ++
      ". Using authenticated requests: " ++ (if authenticated then "true" else "false")
  else "GitHub API Error: " ++ toString status

/-- The endpoints `handleSearch` hands to `fetchGitHubData`, in order (lines 155,
160-164, 200). -/
def requestedEndpoints (h : Host) (r : Responses) (s : State) : List String :=
  if h.trim s.username = "" then []
  else
    match r.user with
    | Settled.rejected _ => ["/users/" ++ s.username]
    | Settled.fulfilled _ =>
      ["/users/" ++ s.username,
        "/users/" ++ s.username ++ "/events?per_page=100&page=1",
        "/users/" ++ s.username ++ "/events?per_page=100&page=2",
        "/users/" ++ s.username ++ "/events?per_page=100&page=3",
        "/search/issues?q=type:pr+author:" ++ s.username ++ "&sort=updated&per_page=50",
        "/search/issues?q=type:issue+author:" ++ s.username ++ "&sort=updated&per_page=30"] ++
      (repoNames (otherUsersEvents h s.username (allEvents r))
        (externalSearchContributions h s.username (searchItems r))).map
        (fun name => "/repos/" ++ name)

/-- A failed event page read as an empty page. -/
def pageAsEmpty : Settled (List RawEvent) → Settled (List RawEvent)
  | Settled.fulfilled value => Settled.fulfilled value
  | Settled.rejected _ => Settled.fulfilled []

/-- A failed search read as an answer without items. -/
def searchAsEmpty : Settled SearchResponse → Settled SearchResponse
  | Settled.fulfilled value => Settled.fulfilled value
  | Settled.rejected _ => Settled.fulfilled { items := some [] }

/-- The responses with every failed source replaced by an empty answer. -/
def withFailedAsEmpty (r : Responses) : Responses :=
  { user := r.user
    events1 := pageAsEmpty r.events1
    events2 := pageAsEmpty r.events2
    events3 := pageAsEmpty r.events3
    prSearch := searchAsEmpty r.prSearch
    issueSearch := searchAsEmpty r.issueSearch
    repos := r.repos }

/-- The responses with both searches replaced by answers without items. -/
def withEmptySearches (r : Responses) : Responses :=
  { user := r.user
    events1 := r.events1
    events2 := r.events2
    events3 := r.events3
    prSearch := Settled.fulfilled { items := some [] }
    issueSearch := Settled.fulfilled { items := some [] }
    repos := r.repos }

/-- The stats of an empty list (line 126). -/
def zeroStats : Stats :=
  { totalRepos := 0, totalContributions := 0, highImpactContributions := 0,
    avgStars := 0, impactScore := 0, collaborationScore := 0 }

/-- The error of a rate-limited call, reset time unknown, no token configured. -/
def rateLimitReason : String :=
  httpErrorMessage 403 "unknown" false

/-- The user resolves and all five source calls are rate limited. -/
def rateLimitedResponses : Responses :=
  { user := Settled.fulfilled { login := "alice" }
    events1 := Settled.rejected rateLimitReason
    events2 := Settled.rejected rateLimitReason
    events3 := Settled.rejected rateLimitReason
    prSearch := Settled.rejected rateLimitReason
    issueSearch := Settled.rejected rateLimitReason
    repos := fun _ => Settled.rejected rateLimitReason }

/-- The user `alice` has one merged pull request to `big/engine` on the event feed;
both searches fail. -/
def searchFailedResponses : Responses :=
  { user := Settled.fulfilled { login := "alice" }
    events1 := Settled.fulfilled [externalPrEvent]
    events2 := Settled.fulfilled []
    events3 := Settled.fulfilled []
    prSearch := Settled.rejected rateLimitReason
    issueSearch := Settled.rejected "Failed to fetch"
    repos := sampleRepos }

/-- The user-resolution call is answered with the given status. -/
def userFailedResponses (status : Nat) : Responses :=
  { user := Settled.rejected (httpErrorMessage status "4:04:15 PM" false)
    events1 := Settled.fulfilled [externalPrEvent]
    events2 := Settled.fulfilled []
    events3 := Settled.fulfilled []
    prSearch := Settled.fulfilled { items := some [mergedPrItem] }
    issueSearch := Settled.fulfilled { items := some [] }
    repos := sampleRepos }

/-- A state left by an earlier query: the sample list and its stats are still stored. -/
def earlierState : State :=
  { username := "ghost", loading := false, userData := some { login := "Octo" },
    contributions := sampleContributions,
    stats := some (analyzeByDivision sampleContributions), error := "" }

/-! ## The specification's wording of the hydration list -/

/-- The distinct elements of a stream in first-occurrence order: the element at
position `i` is kept exactly when it does not occur before position `i`. -/
def firstOccurrences (xs : List String) : List String :=
  (xs.enum.filter (fun (p : Nat × String) => decide (p.2 ∉ xs.take p.1))).map Prod.snd

/-- The repository names referenced by the external events, followed by those
referenced by the external search items. -/
def nameStream (other : List RawEvent) (external : List RawSearchItem) : List String :=
  other.filterMap (fun event => event.repo.bind (·.name)) ++ external.filterMap itemRepoRef

/-! ## Sample records for the classifier -/

/-- A push whose payload lists no commit (an empty `commits` array). -/
def emptyPushEvent : RawEvent :=
  { type := "PushEvent", created_at := some "2024-05-02T08:00:00Z",
    payload := some { pull_request := none, issue := none, commits := some 0 },
    repo := some { name := some "octo/tool" } }

/-- A push of three commits. -/
def triplePushEvent : RawEvent :=
  { type := "PushEvent", created_at := some "2024-05-02T08:00:00Z",
    payload := some { pull_request := none, issue := none, commits := some 3 },
    repo := some { name := some "octo/tool" } }

/-- An event without a `payload` object. -/
def noPayloadEvent : RawEvent :=
  { type := "WatchEvent", created_at := none, payload := none,
    repo := some { name := some "octo/tool" } }

/-- An event of an untracked type with an empty payload and no timestamp. -/
def bareEvent : RawEvent :=
  { type := "WatchEvent", created_at := none,
    payload := some { pull_request := none, issue := none, commits := none },
    repo := some { name := some "octo/tool" } }

/-- An event whose type tag is the name of a member of `Object.prototype`. -/
def constructorEvent : RawEvent :=
  { type := "constructor", created_at := none,
    payload := some { pull_request := none, issue := none, commits := none },
    repo := some { name := some "octo/tool" } }

/-- A search item without title, state and timestamps. -/
def untitledItem : RawSearchItem :=
  { title := none, state := none, pull_request := none, closed_at := none,
    updated_at := none, created_at := none,
    repository_url := some "https://api.github.com/repos/octo/tool" }

/-- A present optional string, or the placeholder when it is missing or empty. -/
def presentOr (value : Option String) (placeholder : String) : String :=
  match value with
  | some text => if text = "" then placeholder else text
  | none => placeholder

/-- The part of a timestamp before its first `T`. -/
def beforeT (ts : String) : String :=
  String.mk (ts.data.takeWhile (fun ch => ch != 'T'))

/-- The four kinds a stored Contribution can have. -/
def trackedKinds : List Kind :=
  [Kind.text "Pull Request", Kind.text "Issue", Kind.text "Push", Kind.text "Created"]

/-- A watch event on a hydrated repository, the payload missing. -/
def watchEvent : RawEvent :=
  { type := "WatchEvent", created_at := some "2024-05-07T10:00:00Z", payload := none,
    repo := some { name := some "big/engine" } }

/-- Source answers for `Octo` with an untracked event next to the pull request. -/
def watchResponses : Responses :=
  { user := Settled.fulfilled { login := "Octo" }
    events1 := Settled.fulfilled [watchEvent, externalPrEvent]
    events2 := Settled.fulfilled []
    events3 := Settled.fulfilled []
    prSearch := Settled.fulfilled { items := some [] }
    issueSearch := Settled.fulfilled { items := some [] }
    repos := sampleRepos }

/-- The user resolves and every source answers with an empty list. -/
def emptyResponses : Responses :=
  { user := Settled.fulfilled { login := "alice" }
    events1 := Settled.fulfilled []
    events2 := Settled.fulfilled []
    events3 := Settled.fulfilled []
    prSearch := Settled.fulfilled { items := some [] }
    issueSearch := Settled.fulfilled { items := some [] }
    repos := sampleRepos }

/-- A push of one commit to the repository `name`. -/
def pushTo (name : String) : RawEvent :=
  { type := "PushEvent", created_at := some "2024-05-02T08:00:00Z",
    payload := some { pull_request := none, issue := none, commits := some 1 },
    repo := some { name := some name } }

/-- A push to a repository named like a method of `Object.prototype`. -/
def toStringEvent : RawEvent :=
  pushTo "toString"

/-- Source answers for `alice`: the push to `toString` on the first event page; the
hydration of every name fails. -/
def unhydratedResponses : Responses :=
  { user := Settled.fulfilled { login := "alice" }
    events1 := Settled.fulfilled [toStringEvent]
    events2 := Settled.fulfilled []
    events3 := Settled.fulfilled []
    prSearch := Settled.fulfilled { items := some [] }
    issueSearch := Settled.fulfilled { items := some [] }
    repos := fun _ => Settled.rejected "GitHub API Error: 404" }

/-- The Contribution built from `toStringEvent` and the inherited method. -/
def orphanContribution : Contribution :=
  { repo := none, type := Kind.text "Push", title := some "Pushed 1 commit(s)",
    impact := Impact.Low, linesChanged := 0, stars := 0, forks := 0, date := "2024-05-02",
    status := "Pushed", description := "Push in toString", repoOwner := "" }

/-- Twenty-five repository names `org/r`, `org/rr`, and so on. -/
def manyNames : List String :=
  (List.range 25).map (fun i => "org/" ++ String.mk (List.replicate (i + 1) 'r'))

/-- A repository record of the given full name, owned by `org`, without counts. -/
def bareRepository (name : String) : Repository :=
  { full_name := name, name := name, owner := some { login := some "org" },
    stargazers_count := none, forks_count := none, updated_at := none, pushed_at := none }

/-- Source answers for `alice`: one push to each of the 25 names, then the push to
`toString`; each of the 25 names hydrates. -/
def crowdedResponses : Responses :=
  { user := Settled.fulfilled { login := "alice" }
    events1 := Settled.fulfilled (manyNames.map pushTo ++ [toStringEvent])
    events2 := Settled.fulfilled []
    events3 := Settled.fulfilled []
    prSearch := Settled.fulfilled { items := some [] }
    issueSearch := Settled.fulfilled { items := some [] }
    repos := fun name =>
      if name ∈ manyNames then Settled.fulfilled (bareRepository name)
      else Settled.rejected "GitHub API Error: 404" }

/-- Thirty repository names `team/r`, `team/rr`, and so on. -/
def busyNames : List String :=
  (List.range 30).map (fun i => "team/" ++ String.mk (List.replicate (i + 1) 'r'))

/-- A push of `commits` commits to the repository `name`. -/
def pushOf (commits : Nat) (name : String) : RawEvent :=
  { type := "PushEvent", created_at := some "2024-05-02T08:00:00Z",
    payload := some { pull_request := none, issue := none, commits := some commits },
    repo := some { name := some name } }

/-- Source answers for `alice`: a push of one commit to each of the 30 names, then one
of two commits to each, then one of three commits to each; every name hydrates. -/
def busyResponses : Responses :=
  { user := Settled.fulfilled { login := "alice" }
    events1 := Settled.fulfilled
      (busyNames.map (pushOf 1) ++ busyNames.map (pushOf 2) ++ busyNames.map (pushOf 3))
    events2 := Settled.fulfilled []
    events3 := Settled.fulfilled []
    prSearch := Settled.fulfilled { items := some [] }
    issueSearch := Settled.fulfilled { items := some [] }
    repos := fun name =>
      if name ∈ busyNames then Settled.fulfilled (bareRepository name)
      else Settled.rejected "GitHub API Error: 404" }

/-- The full name of a fulfilled hydration result (empty for a rejected one). -/
def hydratedName : Settled Repository → String
  | Settled.fulfilled value => value.full_name
  | Settled.rejected _ => ""

/-- The outcome record of a closed issue. -/
def closedIssueOutcome : Outcome :=
  { type := "Issue", merged_at := none, closed_at := some "2024-05-04T10:00:00Z" }

/-! ## fetchGitHubData (lines 18-61)

The cache is an explicit state, the clock is read as `now` at the cache test (line 26)
and as `storedAt` when the answer is stored (line 59), and the network answers with
`net`. The rendering of the reset header (`parseInt` and `toLocaleTimeString`) is the
host function `renderReset`; `authenticated` is `!!GITHUB_TOKEN`. -/

/-- One entry of `cache`: `{ data, timestamp }`. -/
structure CacheEntry (α : Type) where
  data : α
  timestamp : Int

/-- What `fetch` settles to: a response with its status, its `x-ratelimit-reset` header
and its parsed body, or a network failure with the message of the error. -/
inductive NetworkResult (α : Type) where
  | response (status : Nat) (reset : Option String) (body : α)
  | failure (message : String)

/-- What a call leaves: the settled outcome, the cache, and the number of network calls
it issued. -/
structure FetchResult (α : Type) where
  outcome : Settled α
  cache : String → Option (CacheEntry α)
  networkCalls : Nat

/-- Line 26: five minutes in milliseconds. -/
def fiveMinutes : Int :=
  5 * 60 * 1000

/-- The property `response.ok`: the status is in the range 200-299. -/
def responseOk (status : Nat) : Bool :=
  decide (200 ≤ status ∧ status ≤ 299)

/-- Lines 50-51: the rendered reset time, `unknown` without the header. -/
def resetDateOf (renderReset : String → String) (reset : Option String) : String :=
  if truthy reset = true then renderReset (reset.getD "") else "unknown"

/-- Lines 23-29: the entry of `endpoint` when it was stored less than five minutes
before `now`. -/
def freshEntry {α : Type} (cache : String → Option (CacheEntry α)) (endpoint : String)
    (now : Int) : Option (CacheEntry α) :=
  match cache endpoint with
  | some entry => if now - entry.timestamp < fiveMinutes then some entry else none
  | none => none

/-- The function `fetchGitHubData(endpoint)`. -/
def fetchGitHubData {α : Type} (renderReset : String → String) (authenticated : Bool)
    (cache : String → Option (CacheEntry α)) (endpoint : String) (now : Int)
    (net : NetworkResult α) (storedAt : Int) : FetchResult α :=
  match freshEntry cache endpoint now with
  | some entry => { outcome := Settled.fulfilled entry.data, cache := cache, networkCalls := 0 }
  | none =>
    match net with
    | NetworkResult.failure message =>
      { outcome := Settled.rejected message, cache := cache, networkCalls := 1 }
    | NetworkResult.response status reset body =>
      if responseOk status = true then
        { outcome := Settled.fulfilled body
          cache := fun key =>
            if key = endpoint then some { data := body, timestamp := storedAt } else cache key
          networkCalls := 1 }
      else
        { outcome := Settled.rejected
            (httpErrorMessage status (resetDateOf renderReset reset) authenticated)
          cache := cache
          networkCalls := 1 }

/-- The empty cache of line 19. -/
def emptyCache : String → Option (CacheEntry String) :=
  fun _ => none

/-- A host rendering of the reset header: the header text itself. -/
def plainReset (reset : String) : String :=
  reset

/-- A first call for `/users/octo` at time 1000, answered 200 and stored at 1200. -/
def firstFetch : FetchResult String :=
  fetchGitHubData plainReset false emptyCache "/users/octo" 1000
    (NetworkResult.response 200 none "octo-profile") 1200

/-! ## Theorems -/

theorem roundTiesToEven_le (x : ℚ) (n : ℤ) (hx : x ≤ n) : roundTiesToEven x ≤ n := by
  have hf : ⌊x⌋ ≤ n := Int.floor_le_iff.mpr (by linarith)
  have hfl := Int.floor_le x
  have key : 0 < x - ⌊x⌋ → ⌊x⌋ + 1 ≤ n := by
    intro hpos
    rcases lt_or_eq_of_le hf with hlt | heq
    · omega
    · rw [heq] at hpos
      linarith
  unfold roundTiesToEven
  split_ifs with h1 h2 h3
  · exact hf
  · exact key (by linarith)
  · exact hf
  · exact key (by linarith)

theorem le_roundTiesToEven (x : ℚ) (n : ℤ) (hx : (n : ℚ) ≤ x) : n ≤ roundTiesToEven x := by
  have hf : n ≤ ⌊x⌋ := Int.le_floor.mpr hx
  unfold roundTiesToEven
  split_ifs <;> omega

theorem roundTiesToEven_near (x : ℚ) :
    (roundTiesToEven x : ℚ) ≤ x + 1 / 2 ∧ x - 1 / 2 ≤ (roundTiesToEven x : ℚ) := by
  have h1 := Int.floor_le x
  have h2 := Int.lt_floor_add_one x
  unfold roundTiesToEven
  split_ifs <;> push_cast <;> constructor <;> linarith

theorem two_zpow_pos (e : ℤ) : (0 : ℚ) < 2 ^ e := zpow_pos (by norm_num) e

theorem log_lower (q : ℚ) (hq : 0 < q) : (2 : ℚ) ^ Int.log 2 q ≤ q := by
  have := Int.zpow_log_le_self (b := 2) (r := q) (by norm_num) hq
  simpa using this

theorem log_upper (q : ℚ) : q < (2 : ℚ) ^ (Int.log 2 q + 1) := by
  have := Int.lt_zpow_succ_log_self (b := 2) (by norm_num) q
  simpa using this

/-- A stored value does not exceed a representable upper bound of the exact one. -/
theorem nearestDouble_le (q : ℚ) (hq : 0 < q) (M : ℕ) (j : ℤ) (hM : M < 2 ^ 53)
    (hle : q ≤ (M : ℚ) * 2 ^ j) : nearestDouble q ≤ (M : ℚ) * 2 ^ j := by
  have hlo := log_lower q hq
  have hej : Int.log 2 q - 52 ≤ j := by
    by_contra hcon
    have h1 : j + 53 ≤ Int.log 2 q := by omega
    have h2 : (2 : ℚ) ^ (j + 53) ≤ 2 ^ Int.log 2 q := zpow_le_zpow_right₀ (by norm_num) h1
    have h3 : (2 : ℚ) ^ (j + 53) = 2 ^ j * 2 ^ (53 : ℕ) := by
      rw [zpow_add₀ (by norm_num)]
      norm_cast
    have hMq : (M : ℚ) < 2 ^ (53 : ℕ) := by exact_mod_cast hM
    have hp := two_zpow_pos j
    nlinarith
  obtain ⟨k, hk⟩ := Int.eq_ofNat_of_zero_le (show 0 ≤ j - (Int.log 2 q - 52) by omega)
  have hj : j = (Int.log 2 q - 52) + (k : ℤ) := by omega
  have hpe := two_zpow_pos (Int.log 2 q - 52)
  have hsplit : (2 : ℚ) ^ j = 2 ^ (Int.log 2 q - 52) * 2 ^ k := by
    rw [hj, zpow_add₀ (by norm_num), zpow_natCast]
  have hx : q / 2 ^ (Int.log 2 q - 52) ≤ ((M * 2 ^ k : ℕ) : ℤ) := by
    rw [div_le_iff₀ hpe]
    push_cast
    rw [hsplit] at hle
    linarith
  have hr := roundTiesToEven_le _ _ hx
  have hr2 : (roundTiesToEven (q / 2 ^ (Int.log 2 q - 52)) : ℚ) ≤ ((M * 2 ^ k : ℕ) : ℤ) := by
    exact_mod_cast hr
  unfold nearestDouble
  rw [hsplit]
  push_cast at hr2
  nlinarith


theorem nearestDouble_ge (q : ℚ) (hq : 0 < q) (M : ℕ) (j : ℤ) (hM : M < 2 ^ 53)
    (hle : (M : ℚ) * 2 ^ j ≤ q) : (M : ℚ) * 2 ^ j ≤ nearestDouble q := by
  have hlo := log_lower q hq
  have hpe := two_zpow_pos (Int.log 2 q - 52)
  have hMq : (M : ℚ) < 2 ^ (53 : ℕ) := by exact_mod_cast hM
  by_cases hej : Int.log 2 q - 52 ≤ j
  · obtain ⟨k, hk⟩ := Int.eq_ofNat_of_zero_le (show 0 ≤ j - (Int.log 2 q - 52) by omega)
    have hj : j = (Int.log 2 q - 52) + (k : ℤ) := by omega
    have hsplit : (2 : ℚ) ^ j = 2 ^ (Int.log 2 q - 52) * 2 ^ k := by
      rw [hj, zpow_add₀ (by norm_num), zpow_natCast]
    have hx : (((M * 2 ^ k : ℕ) : ℤ) : ℚ) ≤ q / 2 ^ (Int.log 2 q - 52) := by
      rw [le_div_iff₀ hpe]
      push_cast
      rw [hsplit] at hle
      linarith
    have hr := le_roundTiesToEven _ _ hx
    have hr2 : (((M * 2 ^ k : ℕ) : ℤ) : ℚ) ≤
        (roundTiesToEven (q / 2 ^ (Int.log 2 q - 52)) : ℚ) := by
      exact_mod_cast hr
    unfold nearestDouble
    rw [hsplit]
    push_cast at hr2
    nlinarith
  · have h1 : j + 1 ≤ Int.log 2 q - 52 := by omega
    have hx : (((2 ^ 52 : ℕ) : ℤ) : ℚ) ≤ q / 2 ^ (Int.log 2 q - 52) := by
      rw [le_div_iff₀ hpe]
      have : (2 : ℚ) ^ Int.log 2 q = 2 ^ (52 : ℕ) * 2 ^ (Int.log 2 q - 52) := by
        rw [← zpow_natCast, ← zpow_add₀ (by norm_num)]
        congr 1
        omega
      push_cast
      linarith
    have hr := le_roundTiesToEven _ _ hx
    have hr2 : (((2 ^ 52 : ℕ) : ℤ) : ℚ) ≤
        (roundTiesToEven (q / 2 ^ (Int.log 2 q - 52)) : ℚ) := by
      exact_mod_cast hr
    have h2 : (2 : ℚ) ^ (j + 1) ≤ 2 ^ (Int.log 2 q - 52) := zpow_le_zpow_right₀ (by norm_num) h1
    have h3 : (2 : ℚ) ^ (j + 1) = 2 ^ j * 2 := by
      rw [zpow_add₀ (by norm_num), zpow_one]
    have hpj := two_zpow_pos j
    unfold nearestDouble
    push_cast at hr2
    have h4 : (M : ℚ) * 2 ^ j ≤ 2 ^ (53 : ℕ) * 2 ^ j := by nlinarith
    have h5 : (2 : ℚ) ^ (53 : ℕ) * 2 ^ j = 2 ^ (52 : ℕ) * (2 ^ j * 2) := by norm_num; ring
    have h6 : (2 : ℚ) ^ (52 : ℕ) * (2 ^ j * 2) ≤ 2 ^ (52 : ℕ) * 2 ^ (Int.log 2 q - 52) := by
      rw [← h3]
      exact mul_le_mul_of_nonneg_left h2 (by positivity)
    have h7 : (2 : ℚ) ^ (52 : ℕ) * 2 ^ (Int.log 2 q - 52) ≤
        (roundTiesToEven (q / 2 ^ (Int.log 2 q - 52)) : ℚ) * 2 ^ (Int.log 2 q - 52) :=
      mul_le_mul_of_nonneg_right hr2 hpe.le
    linarith

theorem nearestDouble_near (q : ℚ) (hq : 0 < q) :
    nearestDouble q ≤ q * (1 + 1 / 2 ^ 53) ∧ q * (1 - 1 / 2 ^ 53) ≤ nearestDouble q := by
  have hlo := log_lower q hq
  have hpe := two_zpow_pos (Int.log 2 q - 52)
  have hn := roundTiesToEven_near (q / 2 ^ (Int.log 2 q - 52))
  have hsplit : (2 : ℚ) ^ Int.log 2 q = 2 ^ (52 : ℕ) * 2 ^ (Int.log 2 q - 52) := by
    rw [← zpow_natCast, ← zpow_add₀ (by norm_num)]
    congr 1
    omega
  have hxe : q / 2 ^ (Int.log 2 q - 52) * 2 ^ (Int.log 2 q - 52) = q :=
    div_mul_cancel₀ q hpe.ne'
  have hP : (2 : ℚ) ^ (Int.log 2 q - 52) / 2 ≤ q / 2 ^ 53 := by
    rw [hsplit] at hlo
    have : (2 : ℚ) ^ (Int.log 2 q - 52) ≤ q / 2 ^ (52 : ℕ) := by
      rw [le_div_iff₀ (by positivity)]
      linarith
    calc (2 : ℚ) ^ (Int.log 2 q - 52) / 2 ≤ q / 2 ^ (52 : ℕ) / 2 := by linarith
      _ = q / 2 ^ 53 := by norm_num; ring
  unfold nearestDouble
  constructor
  · have := mul_le_mul_of_nonneg_right hn.1 hpe.le
    rw [add_mul, hxe] at this
    have h2 : q * (1 + 1 / 2 ^ 53) = q + q / 2 ^ 53 := by ring
    rw [h2]
    linarith
  · have := mul_le_mul_of_nonneg_right hn.2 hpe.le
    rw [sub_mul, hxe] at this
    have h2 : q * (1 - 1 / 2 ^ 53) = q - q / 2 ^ 53 := by ring
    rw [h2]
    linarith

theorem toDouble_pos (q : ℚ) (hq : 0 < q) : toDouble q = nearestDouble q := by
  unfold toDouble
  rw [if_pos hq]

theorem toDouble_zero : toDouble 0 = 0 := by
  unfold toDouble
  simp

/-- A representable value is stored as it is. -/
theorem toDouble_exact (M : ℕ) (j : ℤ) (hM : M < 2 ^ 53) :
    toDouble ((M : ℚ) * 2 ^ j) = (M : ℚ) * 2 ^ j := by
  rcases Nat.eq_zero_or_pos M with h0 | hpos
  · subst h0
    simp [toDouble_zero]
  · have hq : (0 : ℚ) < (M : ℚ) * 2 ^ j :=
      mul_pos (by exact_mod_cast hpos) (two_zpow_pos j)
    rw [toDouble_pos _ hq]
    exact le_antisymm (nearestDouble_le _ hq M j hM le_rfl) (nearestDouble_ge _ hq M j hM le_rfl)

theorem toDouble_natCast (n : ℕ) (hn : n < 2 ^ 53) : toDouble (n : ℚ) = (n : ℚ) := by
  have := toDouble_exact n 0 hn
  simpa using this

theorem toDouble_nonneg (q : ℚ) (hq : 0 ≤ q) : 0 ≤ toDouble q := by
  rcases eq_or_lt_of_le hq with h0 | hpos
  · rw [← h0, toDouble_zero]
  · rw [toDouble_pos _ hpos]
    have := nearestDouble_ge q hpos 0 0 (by norm_num) (by simpa using hq)
    simpa using this

theorem mathRound_eq_iff (x : ℚ) (k : ℤ) : mathRound x = k ↔ (k : ℚ) - 1 / 2 ≤ x ∧ x < k + 1 / 2 := by
  unfold mathRound
  rw [Int.floor_eq_iff]
  constructor <;> rintro ⟨h1, h2⟩ <;> constructor <;> linarith

theorem mathRound_div (a b : Nat) (hb : 0 < b) :
    mathRound ((a : ℚ) / (b : ℚ)) = (((2 * a + b) / (2 * b) : Nat) : ℤ) := by
  unfold mathRound
  have hb0 : (b : ℚ) ≠ 0 := Nat.cast_ne_zero.mpr (Nat.pos_iff_ne_zero.mp hb)
  have hq : (a : ℚ) / (b : ℚ) + 1 / 2 = ((2 * a + b : Nat) : ℚ) / ((2 * b : Nat) : ℚ) := by
    push_cast
    field_simp
    ring
  rw [hq, Rat.floor_natCast_div_natCast]
  rfl

/-- `Math.round` of the stored quotient of two naturals is the exactly rounded quotient
when the numerator is below 2^52. -/
theorem mathRound_toDouble_div (s n : ℕ) (hn : 0 < n) (hs : s < 2 ^ 52) :
    mathRound (toDouble ((s : ℚ) / (n : ℚ))) = mathRound ((s : ℚ) / (n : ℚ)) := by
  have hnq : (0 : ℚ) < n := by exact_mod_cast hn
  rcases Nat.eq_zero_or_pos s with h0 | hspos
  · subst h0
    simp [toDouble_zero]
  have hsq : (0 : ℚ) < s := by exact_mod_cast hspos
  have hq : (0 : ℚ) < (s : ℚ) / n := div_pos hsq hnq
  set k := mathRound ((s : ℚ) / (n : ℚ)) with hk
  have hkk := (mathRound_eq_iff _ k).mp hk.symm
  rw [mathRound_eq_iff, toDouble_pos _ hq]
  have hk0 : 0 ≤ k := by
    rw [hk]
    unfold mathRound
    apply Int.floor_nonneg.mpr
    linarith
  constructor
  · -- lower side: k - 1/2 is representable
    rcases eq_or_lt_of_le hk0 with hz | hkpos
    · rw [← hz]
      have := nearestDouble_ge _ hq 0 0 (by norm_num) (by simpa using hq.le)
      push_cast
      simp only [Nat.cast_zero, zero_mul] at this
      linarith
    · obtain ⟨m, hm⟩ := Int.eq_ofNat_of_zero_le hk0
      have hmpos : 0 < m := by omega
      -- k ≤ s/n + 1/2 ≤ s + 1/2, so k ≤ s
      have hks : (k : ℚ) ≤ s := by
        have h1 : (s : ℚ) / n ≤ s := div_le_self hsq.le (by exact_mod_cast hn)
        have h2 : (k : ℚ) ≤ (s : ℚ) + 1 / 2 := by linarith [hkk.1]
        have h3 : k ≤ (s : ℤ) := by
          by_contra hc
          have : (s : ℤ) + 1 ≤ k := by omega
          have : ((s : ℤ) : ℚ) + 1 ≤ k := by exact_mod_cast this
          push_cast at this
          linarith
        exact_mod_cast h3
      have hms : m ≤ s := by
        rw [hm] at hks
        exact_mod_cast hks
      have hrep := nearestDouble_ge _ hq (2 * m - 1) (-1) (by omega) (by
        have : ((2 * m - 1 : ℕ) : ℚ) = 2 * (m : ℚ) - 1 := by
          rw [Nat.cast_sub (by omega)]
          push_cast
          ring
        rw [this, zpow_neg_one]
        have hkq : (k : ℚ) = m := by rw [hm]; norm_cast
        rw [hkq] at hkk
        linarith [hkk.1])
      have hcast : ((2 * m - 1 : ℕ) : ℚ) = 2 * (m : ℚ) - 1 := by
        rw [Nat.cast_sub (by omega)]
        push_cast
        ring
      rw [hcast, zpow_neg_one] at hrep
      have hkq : (k : ℚ) = m := by rw [hm]; norm_cast
      rw [hkq]
      linarith
  · -- upper side: the gap to k + 1/2 is at least 1/(2n), the error is smaller
    have herr := (nearestDouble_near _ hq).1
    have hgap : (s : ℚ) / n + 1 / (2 * n) ≤ k + 1 / 2 := by
      have hlt := hkk.2
      rw [div_lt_iff₀ hnq] at hlt
      have hint : (2 * (s : ℤ)) < (2 * k + 1) * n := by
        have : (2 * (s : ℚ)) < (2 * k + 1) * n := by linarith
        exact_mod_cast this
      have hint2 : (2 * (s : ℤ)) + 1 ≤ (2 * k + 1) * n := by omega
      have hq2 : (2 * (s : ℚ)) + 1 ≤ (2 * k + 1) * n := by exact_mod_cast hint2
      rw [div_add_div _ _ hnq.ne' (by positivity), div_le_iff₀ (by positivity)]
      nlinarith
    have hsmall : (s : ℚ) / n * (1 / 2 ^ 53) < 1 / (2 * n) := by
      have hs2 : (s : ℚ) < 2 ^ 52 := by exact_mod_cast hs
      rw [div_mul_eq_mul_div, div_lt_div_iff₀ hnq (by positivity)]
      have : (s : ℚ) * (1 / 2 ^ 53) * (2 * n) = s / 2 ^ 52 * n := by
        field_simp
        ring
      rw [this]
      have : (s : ℚ) / 2 ^ 52 < 1 := by
        rw [div_lt_one (by positivity)]
        exact hs2
      nlinarith
    have : (s : ℚ) / n * (1 + 1 / 2 ^ 53) = s / n + s / n * (1 / 2 ^ 53) := by ring
    rw [this] at herr
    linarith


theorem toDouble_le (q : ℚ) (hq : 0 ≤ q) (M : ℕ) (j : ℤ) (hM : M < 2 ^ 53)
    (hle : q ≤ (M : ℚ) * 2 ^ j) : toDouble q ≤ (M : ℚ) * 2 ^ j := by
  rcases eq_or_lt_of_le hq with h0 | hpos
  · rw [← h0, toDouble_zero]
    rw [← h0] at hle
    exact hle
  · rw [toDouble_pos _ hpos]
    exact nearestDouble_le q hpos M j hM hle

theorem roundTiesToEven_eq (x : ℚ) (m : ℤ) (h1 : (m : ℚ) - 1 / 2 < x) (h2 : x < m + 1 / 2) :
    roundTiesToEven x = m := by
  have hf1 : m - 1 ≤ ⌊x⌋ := Int.le_floor.mpr (by push_cast; linarith)
  have hf2 : ⌊x⌋ ≤ m := by
    have : ⌊x⌋ < m + 1 := Int.floor_lt.mpr (by push_cast; linarith)
    omega
  have hfl := Int.floor_le x
  have hfu := Int.lt_floor_add_one x
  rcases (show ⌊x⌋ = m ∨ ⌊x⌋ = m - 1 by omega) with hm | hm
  · unfold roundTiesToEven
    rw [hm]
    rw [if_pos (by linarith)]
  · unfold roundTiesToEven
    rw [hm] at hfu ⊢
    push_cast at hfu ⊢
    rw [if_neg (by linarith), if_pos (by linarith)]
    ring

theorem nearestDouble_eq (q : ℚ) (L m : ℤ) (hq : 0 < q) (h1 : (2 : ℚ) ^ L ≤ q)
    (h2 : q < (2 : ℚ) ^ (L + 1)) (h3 : (m : ℚ) - 1 / 2 < q / 2 ^ (L - 52))
    (h4 : q / 2 ^ (L - 52) < m + 1 / 2) : nearestDouble q = (m : ℚ) * 2 ^ (L - 52) := by
  have hL : Int.log 2 q = L := by
    have a1 : L ≤ Int.log 2 q := (Int.zpow_le_iff_le_log (b := 2) (by norm_num) hq).mp (by simpa using h1)
    have a2 : Int.log 2 q < L + 1 := (Int.lt_zpow_iff_log_lt (b := 2) (by norm_num) hq).mp (by simpa using h2)
    omega
  unfold nearestDouble
  rw [hL, roundTiesToEven_eq _ m h3 h4]

theorem stored_23_of_40 :
    toDouble ((23 : ℚ) / 40) = 5179139571476070 * 2 ^ (-53 : ℤ) := by
  rw [toDouble_pos _ (by norm_num)]
  have := nearestDouble_eq ((23 : ℚ) / 40) (-1) 5179139571476070 (by norm_num) (by norm_num)
    (by norm_num) (by norm_num) (by norm_num)
  rw [this]
  norm_num

theorem stored_23_of_40_percent :
    toDouble (toDouble ((23 : ℚ) / 40) * 100) = 8092405580431359 * 2 ^ (-47 : ℤ) := by
  rw [stored_23_of_40, toDouble_pos _ (by norm_num)]
  have := nearestDouble_eq ((5179139571476070 : ℚ) * 2 ^ (-53 : ℤ) * 100) 5 8092405580431359
    (by norm_num) (by norm_num) (by norm_num) (by norm_num) (by norm_num)
  rw [this]
  norm_num

theorem round_23_of_40 : mathRound (toDouble (toDouble ((23 : ℚ) / 40) * 100)) = 57 := by
  rw [stored_23_of_40_percent, mathRound_eq_iff]
  constructor <;> norm_num


theorem percent_bounds (h t : ℕ) (ht : 0 < t) (hle : h ≤ t) :
    0 ≤ toDouble (toDouble ((h : ℚ) / (t : ℚ)) * 100) ∧
      toDouble (toDouble ((h : ℚ) / (t : ℚ)) * 100) ≤ 100 := by
  have htq : (0 : ℚ) < t := by exact_mod_cast ht
  have hx0 : (0 : ℚ) ≤ (h : ℚ) / t := div_nonneg (by positivity) htq.le
  have hx1 : (h : ℚ) / t ≤ 1 := by
    rw [div_le_one htq]
    exact_mod_cast hle
  have ha0 := toDouble_nonneg _ hx0
  have ha1 : toDouble ((h : ℚ) / t) ≤ 1 := by
    have := toDouble_le _ hx0 1 0 (by norm_num) (by simpa using hx1)
    simpa using this
  have hb0 : (0 : ℚ) ≤ toDouble ((h : ℚ) / t) * 100 := by positivity
  constructor
  · exact toDouble_nonneg _ hb0
  · have := toDouble_le _ hb0 100 0 (by norm_num) (by simp; linarith)
    simpa using this

theorem mathRound_percent_bounds (h t : ℕ) (ht : 0 < t) (hle : h ≤ t) :
    0 ≤ mathRound (toDouble (toDouble ((h : ℚ) / (t : ℚ)) * 100)) ∧
      mathRound (toDouble (toDouble ((h : ℚ) / (t : ℚ)) * 100)) ≤ 100 := by
  obtain ⟨h0, h1⟩ := percent_bounds h t ht hle
  unfold mathRound
  constructor
  · apply Int.floor_nonneg.mpr
    linarith
  · have : ⌊toDouble (toDouble ((h : ℚ) / (t : ℚ)) * 100) + 1 / 2⌋ < 101 :=
      Int.floor_lt.mpr (by push_cast; linarith)
    omega

theorem foldl_stored_sum {α : Type} (f : α → ℕ) (l : List α) (init : ℕ)
    (hsum : init + (l.map f).sum < 2 ^ 53) :
    l.foldl (fun sum c => toDouble (sum + (f c : ℚ))) (init : ℚ) =
      ((init + (l.map f).sum : ℕ) : ℚ) := by
  induction l generalizing init with
  | nil => simp
  | cons c cs ih =>
    rw [List.map_cons, List.sum_cons] at hsum
    rw [List.foldl_cons]
    have hstep : toDouble ((init : ℚ) + (f c : ℚ)) = ((init + f c : ℕ) : ℚ) := by
      have := toDouble_natCast (init + f c) (by omega)
      push_cast at this ⊢
      exact this
    rw [hstep, ih (init + f c) (by omega), List.map_cons, List.sum_cons]
    congr 1
    omega

/-- The stored percentage differs from the exact one by at most 201 / 2^53. -/
theorem percent_error (h t : ℕ) (ht : 0 < t) (hle : h ≤ t) :
    100 * ((h : ℚ) / t) - 201 / 2 ^ 53 ≤ toDouble (toDouble ((h : ℚ) / (t : ℚ)) * 100) ∧
      toDouble (toDouble ((h : ℚ) / (t : ℚ)) * 100) ≤ 100 * ((h : ℚ) / t) + 201 / 2 ^ 53 := by
  have htq : (0 : ℚ) < t := by exact_mod_cast ht
  rcases Nat.eq_zero_or_pos h with h0 | hpos
  · subst h0
    simp only [Nat.cast_zero, zero_div, toDouble_zero, zero_mul, mul_zero]
    constructor <;> norm_num
  have hhq : (0 : ℚ) < h := by exact_mod_cast hpos
  have hx : (0 : ℚ) < (h : ℚ) / t := div_pos hhq htq
  have hx1 : (h : ℚ) / t ≤ 1 := by
    rw [div_le_one htq]
    exact_mod_cast hle
  have ha := nearestDouble_near _ hx
  have hapos : 0 < nearestDouble ((h : ℚ) / t) := by
    have : 0 < (h : ℚ) / t * (1 - 1 / 2 ^ 53) := mul_pos hx (by norm_num)
    linarith [ha.2]
  have hb : 0 < nearestDouble ((h : ℚ) / t) * 100 := by positivity
  have hc := nearestDouble_near _ hb
  rw [toDouble_pos _ hx, toDouble_pos _ hb]
  constructor
  · have s1 : (h : ℚ) / t * (1 - 1 / 2 ^ 53) * 100 * (1 - 1 / 2 ^ 53) ≤
        nearestDouble ((h : ℚ) / t) * 100 * (1 - 1 / 2 ^ 53) := by
      have := mul_le_mul_of_nonneg_right ha.2 (show (0 : ℚ) ≤ 100 * (1 - 1 / 2 ^ 53) by norm_num)
      linarith
    have s2 : (h : ℚ) / t * (1 - 1 / 2 ^ 53) * 100 * (1 - 1 / 2 ^ 53) =
        100 * ((h : ℚ) / t) - (h : ℚ) / t * (100 * (2 / 2 ^ 53 - 1 / 2 ^ 53 * (1 / 2 ^ 53))) := by
      ring
    have s3 : (h : ℚ) / t * (100 * (2 / 2 ^ 53 - 1 / 2 ^ 53 * (1 / 2 ^ 53))) ≤
        1 * (100 * (2 / 2 ^ 53 - 1 / 2 ^ 53 * (1 / 2 ^ 53))) :=
      mul_le_mul_of_nonneg_right hx1 (by norm_num)
    have s4 : (1 : ℚ) * (100 * (2 / 2 ^ 53 - 1 / 2 ^ 53 * (1 / 2 ^ 53))) ≤ 201 / 2 ^ 53 := by
      norm_num
    linarith [hc.2]
  · have s1 : nearestDouble ((h : ℚ) / t) * 100 * (1 + 1 / 2 ^ 53) ≤
        (h : ℚ) / t * (1 + 1 / 2 ^ 53) * 100 * (1 + 1 / 2 ^ 53) := by
      have := mul_le_mul_of_nonneg_right ha.1 (show (0 : ℚ) ≤ 100 * (1 + 1 / 2 ^ 53) by norm_num)
      linarith
    have s2 : (h : ℚ) / t * (1 + 1 / 2 ^ 53) * 100 * (1 + 1 / 2 ^ 53) =
        100 * ((h : ℚ) / t) + (h : ℚ) / t * (100 * (2 / 2 ^ 53 + 1 / 2 ^ 53 * (1 / 2 ^ 53))) := by
      ring
    have s3 : (h : ℚ) / t * (100 * (2 / 2 ^ 53 + 1 / 2 ^ 53 * (1 / 2 ^ 53))) ≤
        1 * (100 * (2 / 2 ^ 53 + 1 / 2 ^ 53 * (1 / 2 ^ 53))) :=
      mul_le_mul_of_nonneg_right hx1 (by norm_num)
    have s4 : (1 : ℚ) * (100 * (2 / 2 ^ 53 + 1 / 2 ^ 53 * (1 / 2 ^ 53))) ≤ 201 / 2 ^ 53 := by
      norm_num
    linarith [hc.1]

/-- With `k` the exactly rounded percentage, the exact percentage stays `1/(2t)` below
`k + 1/2` and, away from a tie, `1/(2t)` above `k - 1/2`. -/
theorem percent_gaps (h t : ℕ) (ht : 0 < t) :
    (mathRound (((100 * h : ℕ) : ℚ) / (t : ℚ)) : ℚ) - 1 / 2 ≤ 100 * ((h : ℚ) / t) ∧
      100 * ((h : ℚ) / t) + 1 / (2 * t) ≤
        (mathRound (((100 * h : ℕ) : ℚ) / (t : ℚ)) : ℚ) + 1 / 2 ∧
      ((200 * h) % (2 * t) ≠ t →
        (mathRound (((100 * h : ℕ) : ℚ) / (t : ℚ)) : ℚ) - 1 / 2 + 1 / (2 * t) ≤
          100 * ((h : ℚ) / t)) := by
  have htq : (0 : ℚ) < t := by exact_mod_cast ht
  set k := mathRound (((100 * h : ℕ) : ℚ) / (t : ℚ)) with hk
  have hkk := (mathRound_eq_iff _ k).mp hk.symm
  have hy : ((100 * h : ℕ) : ℚ) / (t : ℚ) = 100 * ((h : ℚ) / t) := by
    push_cast
    ring
  rw [hy] at hkk
  have hxt : (h : ℚ) / t * t = h := div_mul_cancel₀ _ htq.ne'
  have hle1 : ((2 * k - 1) * (t : ℤ) : ℤ) ≤ 200 * h := by
    have : ((2 * (k : ℚ) - 1) * t) ≤ 200 * h := by
      have h2 : (k : ℚ) - 1 / 2 ≤ 100 * h / t := by
        rw [mul_div_assoc]
        exact hkk.1
      rw [le_div_iff₀ htq] at h2
      linarith
    exact_mod_cast this
  have hhi : 200 * (h : ℤ) + 1 ≤ (2 * k + 1) * t := by
    have h1 : (200 * (h : ℤ)) < (2 * k + 1) * t := by
      have : (200 * (h : ℚ)) < (2 * k + 1) * t := by
        have h2 : 100 * (h : ℚ) / t < k + 1 / 2 := by
          rw [mul_div_assoc]
          exact hkk.2
        rw [div_lt_iff₀ htq] at h2
        linarith
      exact_mod_cast this
    omega
  have hhiq : 200 * (h : ℚ) + 1 ≤ (2 * k + 1) * t := by exact_mod_cast hhi
  refine ⟨hkk.1, ?_, ?_⟩
  · have : (100 * ((h : ℚ) / t) + 1 / (2 * t)) * (2 * t) ≤ ((k : ℚ) + 1 / 2) * (2 * t) := by
      have e1 : ((k : ℚ) + 1 / 2) * (2 * t) = (2 * k + 1) * t := by ring
      have e2 : (100 * ((h : ℚ) / t) + 1 / (2 * t)) * (2 * t) = 200 * h + 1 := by
        rw [add_mul, show 100 * ((h : ℚ) / t) * (2 * t) = 200 * ((h : ℚ) / t * t) by ring, hxt]
        field_simp
      rw [e1, e2]
      exact hhiq
    exact le_of_mul_le_mul_right this (by positivity)
  · intro htie
    have hlo : (2 * k - 1) * (t : ℤ) + 1 ≤ 200 * h := by
      rcases lt_or_eq_of_le hle1 with hlt | heq
      · omega
      · exfalso
        apply htie
        have hk1 : 1 ≤ k := by
          by_contra hc
          have hk0 : k ≤ 0 := by omega
          have : (2 * k - 1) * (t : ℤ) < 0 := by
            apply mul_neg_of_neg_of_pos
            · omega
            · exact_mod_cast ht
          omega
        obtain ⟨m, hm⟩ := Int.eq_ofNat_of_zero_le (show 0 ≤ k - 1 by omega)
        have hnat : 200 * h = 2 * t * m + t := by
          have : ((200 * h : ℕ) : ℤ) = ((2 * t * m + t : ℕ) : ℤ) := by
            push_cast
            rw [← hm, ← heq]
            ring
          exact_mod_cast this
        rw [hnat, Nat.mul_add_mod]
        exact Nat.mod_eq_of_lt (by omega)
    have hloq : (2 * (k : ℚ) - 1) * t + 1 ≤ 200 * h := by exact_mod_cast hlo
    have : ((k : ℚ) - 1 / 2 + 1 / (2 * t)) * (2 * t) ≤ 100 * ((h : ℚ) / t) * (2 * t) := by
      have e1 : ((k : ℚ) - 1 / 2 + 1 / (2 * t)) * (2 * t) = (2 * k - 1) * t + 1 := by
        field_simp
        ring
      have e2 : 100 * ((h : ℚ) / t) * (2 * t) = 200 * h := by
        rw [show 100 * ((h : ℚ) / t) * (2 * t) = 200 * ((h : ℚ) / t * t) by ring, hxt]
      rw [e1, e2]
      exact hloq
    exact le_of_mul_le_mul_right this (by positivity)

theorem percent_error_small (t : ℕ) (ht : 0 < t) (hlen : t < 2 ^ 32) :
    (201 : ℚ) / 2 ^ 53 < 1 / (2 * t) := by
  have htq : (0 : ℚ) < t := by exact_mod_cast ht
  have ht32 : (t : ℚ) < 2 ^ 32 := by exact_mod_cast hlen
  rw [div_lt_div_iff₀ (by positivity) (by positivity)]
  have : (201 : ℚ) * (2 * t) < 201 * 2 ^ 33 := by nlinarith
  have h2 : (201 : ℚ) * 2 ^ 33 < 1 * 2 ^ 53 := by norm_num
  linarith

/-- Away from a tie the stored percentage rounds like the exact one. -/
theorem mathRound_percent (h t : ℕ) (ht : 0 < t) (hle : h ≤ t) (hlen : t < 2 ^ 32)
    (htie : (200 * h) % (2 * t) ≠ t) :
    mathRound (toDouble (toDouble ((h : ℚ) / (t : ℚ)) * 100)) =
      mathRound (((100 * h : ℕ) : ℚ) / (t : ℚ)) := by
  obtain ⟨e1, e2⟩ := percent_error h t ht hle
  obtain ⟨-, g2, g3⟩ := percent_gaps h t ht
  have g1 := g3 htie
  have hs := percent_error_small t ht hlen
  rw [mathRound_eq_iff]
  constructor <;> linarith

/-- At a tie the stored percentage rounds to the exactly rounded one or to one less. -/
theorem mathRound_percent_near (h t : ℕ) (ht : 0 < t) (hle : h ≤ t) (hlen : t < 2 ^ 32) :
    mathRound (toDouble (toDouble ((h : ℚ) / (t : ℚ)) * 100)) =
        mathRound (((100 * h : ℕ) : ℚ) / (t : ℚ)) ∨
      mathRound (toDouble (toDouble ((h : ℚ) / (t : ℚ)) * 100)) =
        mathRound (((100 * h : ℕ) : ℚ) / (t : ℚ)) - 1 := by
  obtain ⟨e1, e2⟩ := percent_error h t ht hle
  obtain ⟨g1, g2, -⟩ := percent_gaps h t ht
  have hs := percent_error_small t ht hlen
  have htq : (0 : ℚ) < t := by exact_mod_cast ht
  have hhalf : (1 : ℚ) / (2 * t) ≤ 1 / 2 := by
    rw [div_le_div_iff₀ (by positivity) (by norm_num)]
    have : (1 : ℚ) ≤ t := by exact_mod_cast ht
    linarith
  set k := mathRound (((100 * h : ℕ) : ℚ) / (t : ℚ)) with hk
  have hup : mathRound (toDouble (toDouble ((h : ℚ) / (t : ℚ)) * 100)) < k + 1 := by
    unfold mathRound
    apply Int.floor_lt.mpr
    push_cast
    linarith
  have hdown : k - 1 ≤ mathRound (toDouble (toDouble ((h : ℚ) / (t : ℚ)) * 100)) := by
    unfold mathRound
    apply Int.le_floor.mpr
    push_cast
    linarith
  omega

theorem popularity_step (stars forks : Nat) :
    (if stars > 10000 ∨ forks > 1000 then (0 : Nat) + 4
      else if stars > 1000 ∨ forks > 100 then 0 + 2
      else if stars > 100 then 0 + 1
      else 0) = specPopularity stars forks := by
  unfold specPopularity
  split_ifs <;> rfl

theorem outcome_step (p : Nat) (contribution : Outcome) :
    (if contribution.type = Kind.text "PullRequest" ∧ truthy contribution.merged_at = true then
        p + 3
      else if contribution.type = Kind.text "PullRequest" then p + 1
      else if contribution.type = Kind.text "Issue" ∧ truthy contribution.closed_at = true then
        p + 2
      else p) = p + specOutcome (outcomeKind contribution) := by
  unfold outcomeKind
  by_cases h1 : contribution.type = Kind.text "PullRequest"
  · by_cases h2 : truthy contribution.merged_at = true
    · simp [h1, h2, specOutcome]
    · simp [h1, h2, specOutcome]
  · by_cases h3 : contribution.type = Kind.text "Issue" ∧ truthy contribution.closed_at = true
    · rw [if_neg (fun hc => h1 hc.1), if_neg h1, if_pos h3, if_neg h1, if_pos h3]
      rfl
    · rw [if_neg (fun hc => h1 hc.1), if_neg h1, if_neg h3, if_neg h1, if_neg h3]
      rfl

theorem recency_step (p : Nat) (h : Host) (now : Int) (repo : RepoView) :
    (if isTrending h now repo = true then p + 1 else p) = p + recencyPoints h now repo := by
  unfold recencyPoints
  split_ifs <;> rfl

theorem bucket_step (total : Nat) :
    (if total ≥ 6 then Impact.Critical
      else if total ≥ 4 then Impact.High
      else if total ≥ 2 then Impact.Medium
      else Impact.Low) = specBucket total := rfl

theorem bucket_eq (h : Host) (now : Int) (repo : RepoView) (contribution : Outcome) :
    calculateImpact h now repo contribution =
      specBucket (specPopularity (repo.stargazers_count.getD 0) (repo.forks_count.getD 0) +
        specOutcome (outcomeKind contribution) + recencyPoints h now repo) := by
  unfold calculateImpact
  simp only []
  rw [bucket_step, recency_step, outcome_step, popularity_step]

theorem bucket_eq_repo (h : Host) (now : Int) (repo : Repository) (contribution : Outcome) :
    calculateImpact h now repo contribution =
      specBucket (specPopularity (repo.stargazers_count.getD 0) (repo.forks_count.getD 0) +
        specOutcome (outcomeKind contribution) + recencyPoints h now repo) :=
  bucket_eq h now repo.view contribution

/-- C1: `calculateImpact` returns the bucket of popularity + outcome + recency points,
with the popularity and outcome tables and the bucket thresholds of the specification;
the recency points are 0 or 1; a repository with 10001 stars, a merged pull request and
a recent update scores Critical, and one with 50 stars (at most 100 forks), an unmerged
pull request and no recent update scores Low. -/
theorem calculateImpact_eq_specBucket (h : Host) (now : Int) (repo : Repository)
    (contribution : Outcome) :
    calculateImpact h now repo contribution =
        specBucket (specPopularity (repo.stargazers_count.getD 0) (repo.forks_count.getD 0) +
          specOutcome (outcomeKind contribution) + recencyPoints h now repo) ∧
      recencyPoints h now repo ≤ 1 ∧
      (repo.stargazers_count = some 10001 →
        outcomeKind contribution = OutcomeKind.mergedPullRequest →
        isTrending h now repo = true →
        calculateImpact h now repo contribution = Impact.Critical) ∧
      (repo.stargazers_count = some 50 → repo.forks_count.getD 0 ≤ 100 →
        outcomeKind contribution = OutcomeKind.unmergedPullRequest →
        isTrending h now repo = false →
        calculateImpact h now repo contribution = Impact.Low) := by
  refine ⟨bucket_eq_repo h now repo contribution, ?_, ?_, ?_⟩
  · unfold recencyPoints
    split_ifs <;> omega
  · intro hs hk ht
    rw [bucket_eq_repo, hk]
    simp [hs, specPopularity, specOutcome, recencyPoints, ht, specBucket]
  · intro hs hf hk ht
    rw [bucket_eq_repo, hk]
    have hf2 : ¬ 100 < repo.forks_count.getD 0 := by omega
    have hf3 : ¬ 1000 < repo.forks_count.getD 0 := by omega
    simp [hs, specPopularity, specOutcome, recencyPoints, ht, specBucket, hf2, hf3]

/-- Witness for C1: the two sample repositories of the specification, scored on
2024-06-15. -/
theorem calculateImpact_eq_specBucket_witness :
    calculateImpact jsHost midJune2024 starredRepo mergedPrOutcome = Impact.Critical ∧
      calculateImpact jsHost midJune2024 staleRepo openPrOutcome = Impact.Low :=
  ⟨(calculateImpact_eq_specBucket jsHost midJune2024 starredRepo mergedPrOutcome).2.2.1
      (by decide) (by decide) (by decide),
   (calculateImpact_eq_specBucket jsHost midJune2024 staleRepo openPrOutcome).2.2.2
      (by decide) (by decide) (by decide) (by decide)⟩

/-- C2 (defect): for a merged pull request in the same repository the event path scores
without the outcome points (`typeMap` yields the kind `Pull Request`, while
`calculateImpact` tests for `PullRequest`), so the two paths give different tiers. -/
theorem formatContribution_misses_outcome_points :
    (formatContribution jsHost midJune2024 quietRepo mergedPrEvent).toOption.map (·.impact) =
        some Impact.Low ∧
      (searchContribution jsHost midJune2024 quietRepo mergedPrItem).impact = Impact.High := by
  decide

theorem isTrending_iff (h : Host) (now : Int) (repo : RepoView) :
    isTrending h now repo = true ↔ within90Days h now repo.updated_at := by
  unfold isTrending within90Days ninetyDays
  constructor
  · intro ht
    cases hu : repo.updated_at with
    | none => simp [hu] at ht
    | some s =>
      rw [hu] at ht
      by_cases hs : s = ""
      · simp [hs] at ht
      · cases hp : h.dateParse s with
        | none => simp [hs, hp] at ht
        | some t =>
          simp only [hs, hp, if_false, decide_eq_true_eq] at ht
          exact ⟨s, t, rfl, hs, hp, by omega⟩
  · rintro ⟨s, t, hu, hs, hp, hlt⟩
    rw [hu]
    simp only [hs, hp, if_false, decide_eq_true_eq]
    omega

/-- Counterexample for C3: a repository updated two weeks ago whose last push is more
than four years old still gets the recency bonus, so the tier differs from the one a
bonus tied to the last push would give. -/
theorem recency_not_by_last_push :
    calculateImpact jsHost midJune2024 quietRepo openPrOutcome ≠
      impactByLastPush jsHost midJune2024 quietRepo openPrOutcome := by
  decide

/-- C3 (amended): the tier is the bucket of popularity + outcome + recency points, and
the recency point is 1 exactly when `updated_at` is present, parses and is later than
90 days before the clock; it is 0 when `updated_at` is missing or 90 days old or
older. -/
theorem recency_follows_updated_at (h : Host) (now : Int) (repo : Repository)
    (contribution : Outcome) :
    calculateImpact h now repo contribution =
        specBucket (specPopularity (repo.stargazers_count.getD 0) (repo.forks_count.getD 0) +
          specOutcome (outcomeKind contribution) + recencyPoints h now repo) ∧
      (recencyPoints h now repo = 1 ↔ within90Days h now repo.updated_at) ∧
      (recencyPoints h now repo = 0 ↔ ¬ within90Days h now repo.updated_at) ∧
      (repo.updated_at = none → recencyPoints h now repo = 0) ∧
      (∀ s t, repo.updated_at = some s → h.dateParse s = some t → t ≤ now - ninetyDays →
        recencyPoints h now repo = 0) := by
  have key : isTrending h now repo = true ↔ within90Days h now repo.updated_at :=
    isTrending_iff h now repo
  have h0 : recencyPoints h now repo = 0 ↔ ¬ within90Days h now repo.updated_at := by
    unfold recencyPoints
    rw [← key]
    split_ifs with ht <;> simp [ht]
  refine ⟨bucket_eq_repo h now repo contribution, ?_, h0, ?_, ?_⟩
  · unfold recencyPoints
    rw [← key]
    split_ifs with ht <;> simp [ht]
  · intro hu
    rw [h0, hu]
    rintro ⟨s, t, hs, -⟩
    cases hs
  · intro s t hu hp hle
    rw [h0, hu]
    rintro ⟨s1, t1, hs1, -, hp1, hlt⟩
    cases hs1
    rw [hp] at hp1
    cases hp1
    omega

/-- Witness for C3: the repository without an update timestamp gets no recency point,
and neither does one whose update is exactly 90 days old. -/
theorem recency_follows_updated_at_witness :
    recencyPoints jsHost midJune2024 staleRepo = 0 ∧
      recencyPoints jsHost (midJune2024 + 6566400000) quietRepo = 0 :=
  ⟨(recency_follows_updated_at jsHost midJune2024 staleRepo openPrOutcome).2.2.2.1 rfl,
   (recency_follows_updated_at jsHost (midJune2024 + 6566400000) quietRepo
      openPrOutcome).2.2.2.2 "2024-06-01T00:00:00Z" 1717200000000 rfl (by decide)
      (by decide)⟩

theorem sameKey_iff (contrib c : Contribution) :
    sameKey contrib c = true ↔ dedupKey c = dedupKey contrib := by
  simp [sameKey, dedupKey, Prod.ext_iff]

theorem sameKey_congr {a b : Contribution} (hab : dedupKey a = dedupKey b) :
    sameKey a = sameKey b := by
  funext c
  rw [Bool.eq_iff_iff, sameKey_iff, sameKey_iff, hab]

theorem findIdx_sameKey_iff (arr : List Contribution) (i : Nat) (c : Contribution)
    (hc : arr[i]? = some c) :
    arr.findIdx (sameKey c) = i ↔ ∀ x ∈ arr.take i, dedupKey x ≠ dedupKey c := by
  obtain ⟨hi, hget⟩ := List.getElem?_eq_some_iff.mp hc
  rw [List.findIdx_eq hi]
  constructor
  · rintro ⟨-, hlt⟩ x hx heq
    obtain ⟨j, hj, rfl⟩ := List.mem_take_iff_getElem.mp hx
    have hji : j < i := by omega
    have := hlt j hji
    rw [← Bool.not_eq_true, sameKey_iff] at this
    exact this heq
  · intro hall
    refine ⟨by rw [hget, sameKey_iff], fun j hji => ?_⟩
    rw [← Bool.not_eq_true, sameKey_iff]
    exact hall _ (List.mem_take_iff_getElem.mpr ⟨j, by omega, rfl⟩)

theorem uniqueContributions_eq_keepFirst (arr : List Contribution) :
    uniqueContributions arr = keepFirst arr := by
  unfold uniqueContributions keepFirst
  congr 1
  apply List.filter_congr
  intro p hp
  have hc := List.mem_enum_iff_getElem?.mp hp
  rw [Bool.eq_iff_iff, beq_iff_eq, decide_eq_true_iff]
  exact findIdx_sameKey_iff arr p.1 p.2 hc

theorem mem_uniqueContributions {arr : List Contribution} {c : Contribution} :
    c ∈ uniqueContributions arr ↔ ∃ i, arr[i]? = some c ∧ arr.findIdx (sameKey c) = i := by
  unfold uniqueContributions
  simp only [List.mem_map, List.mem_filter, beq_iff_eq, Prod.exists, exists_and_right,
    exists_eq_right, List.mk_mem_enum_iff_getElem?]

theorem uniqueContributions_sublist (arr : List Contribution) :
    (uniqueContributions arr).Sublist arr := by
  unfold uniqueContributions
  have h1 := (List.filter_sublist (p := fun p => arr.findIdx (sameKey p.2) == p.1)
    arr.enum).map Prod.snd
  rwa [List.enum_map_snd] at h1

theorem uniqueContributions_pairwise (arr : List Contribution) :
    (uniqueContributions arr).Pairwise (fun a b => dedupKey a ≠ dedupKey b) := by
  unfold uniqueContributions
  rw [List.pairwise_map]
  have hnd : arr.enum.Pairwise (fun a b => a.1 ≠ b.1) := by
    have := List.nodup_range arr.length
    rw [← List.enum_map_fst, List.Nodup, List.pairwise_map] at this
    exact this
  have hf := hnd.filter (fun p => arr.findIdx (sameKey p.2) == p.1)
  refine List.Pairwise.imp_of_mem ?_ hf
  intro a b ha hb hne heq
  rw [List.mem_filter, beq_iff_eq] at ha hb
  apply hne
  rw [← ha.2, ← hb.2, sameKey_congr heq]

theorem first_occurrence_kept (arr : List Contribution) (c : Contribution) (hc : c ∈ arr) :
    ∃ (i : Nat) (first : Contribution), arr[i]? = some first ∧ dedupKey first = dedupKey c ∧
      (∀ (j : Nat) (x : Contribution), j < i → arr[j]? = some x → dedupKey x ≠ dedupKey c) ∧
      first ∈ uniqueContributions arr := by
  have hex : ∃ x ∈ arr, sameKey c x = true := ⟨c, hc, by rw [sameKey_iff]⟩
  have hlt : arr.findIdx (sameKey c) < arr.length := List.findIdx_lt_length_of_exists hex
  have hp : sameKey c (arr[arr.findIdx (sameKey c)]) = true := List.findIdx_getElem
  rw [sameKey_iff] at hp
  refine ⟨arr.findIdx (sameKey c), arr[arr.findIdx (sameKey c)],
    List.getElem?_eq_getElem hlt, hp, ?_, ?_⟩
  · intro j x hj hx heq
    obtain ⟨hjl, rfl⟩ := List.getElem?_eq_some_iff.mp hx
    have := List.not_of_lt_findIdx hj
    rw [← Bool.not_eq_true, sameKey_iff] at this
    exact this heq
  · rw [mem_uniqueContributions]
    exact ⟨_, List.getElem?_eq_getElem hlt, by rw [sameKey_congr hp]⟩

/-- C5: the deduplication step keeps the element at each position exactly when no
earlier element has the same (title, repo) pair; its result has pairwise different
pairs, is a sub-list of the input (same relative order), and contains, for every
element of the input, the first element of the input with that pair. -/
theorem uniqueContributions_keeps_first (arr : List Contribution) :
    uniqueContributions arr = keepFirst arr ∧
      (uniqueContributions arr).Pairwise (fun a b => dedupKey a ≠ dedupKey b) ∧
      (uniqueContributions arr).Sublist arr ∧
      ∀ c ∈ arr, ∃ (i : Nat) (first : Contribution), arr[i]? = some first ∧ dedupKey first = dedupKey c ∧
        (∀ (j : Nat) (x : Contribution), j < i → arr[j]? = some x → dedupKey x ≠ dedupKey c) ∧
        first ∈ uniqueContributions arr :=
  ⟨uniqueContributions_eq_keepFirst arr, uniqueContributions_pairwise arr,
    uniqueContributions_sublist arr, first_occurrence_kept arr⟩

/-- Witness for C5: in the sample list the third element repeats the pair of the
first, and the first occurrence is the one kept. -/
theorem uniqueContributions_keeps_first_witness :
    ∃ (i : Nat) (first : Contribution), sampleContributions[i]? = some first ∧
      dedupKey first = dedupKey sampleDuplicate ∧
      first ∈ uniqueContributions sampleContributions :=
  let ⟨i, first, h1, h2, _, h4⟩ :=
    (uniqueContributions_keeps_first sampleContributions).2.2.2 sampleDuplicate (by decide)
  ⟨i, first, h1, h2, h4⟩

theorem impactOrder_eq (i : Impact) : impactOrder i = (tierRank i : Int) + 1 := by
  cases i <;> rfl

theorem sortLE_iff_ranksAtLeast (h : Host) (a b : Contribution)
    (ha : (h.dateParse a.date).isSome = true) (hb : (h.dateParse b.date).isSome = true) :
    sortLE h a b ↔ ranksAtLeast h a b := by
  obtain ⟨ta, hta⟩ := Option.isSome_iff_exists.mp ha
  obtain ⟨tb, htb⟩ := Option.isSome_iff_exists.mp hb
  unfold sortLE compareFn ranksAtLeast dateValue
  simp only [impactOrder_eq, hta, htb, Option.getD_some]
  split_ifs with hd
  · simp only [Option.getD_some]
    constructor
    · intro hle
      left
      omega
    · rintro (hgt | ⟨heq, -⟩) <;> omega
  · simp only [Option.getD_some]
    constructor
    · intro hle
      right
      constructor <;> omega
    · rintro (hgt | ⟨-, hge⟩) <;> omega

theorem orderedInsert_congr {α : Type} (r s : α → α → Prop) [DecidableRel r] [DecidableRel s]
    (a : α) (l : List α) (hrs : ∀ b ∈ l, r a b ↔ s a b) :
    l.orderedInsert r a = l.orderedInsert s a := by
  induction l with
  | nil => rfl
  | cons b l ih =>
    have hb := hrs b (List.mem_cons_self b l)
    have ih2 := ih (fun x hx => hrs x (List.mem_cons_of_mem b hx))
    by_cases hr : r a b
    · rw [List.orderedInsert, List.orderedInsert, if_pos hr, if_pos (hb.mp hr)]
    · rw [List.orderedInsert, List.orderedInsert, if_neg hr, if_neg (fun hs => hr (hb.mpr hs)),
        ih2]

theorem insertionSort_congr {α : Type} (r s : α → α → Prop) [DecidableRel r] [DecidableRel s]
    (l : List α) (hrs : ∀ a ∈ l, ∀ b ∈ l, r a b ↔ s a b) :
    l.insertionSort r = l.insertionSort s := by
  induction l with
  | nil => rfl
  | cons a l ih =>
    have ih2 := ih (fun x hx y hy =>
      hrs x (List.mem_cons_of_mem a hx) y (List.mem_cons_of_mem a hy))
    rw [List.insertionSort, List.insertionSort, ih2]
    apply orderedInsert_congr
    intro b hb
    rw [List.mem_insertionSort] at hb
    exact hrs a (List.mem_cons_self a l) b (List.mem_cons_of_mem a hb)

theorem sort_eq_rank_sort (h : Host) (arr : List Contribution)
    (hwf : ∀ c ∈ arr, (h.dateParse c.date).isSome = true) :
    arr.insertionSort (sortLE h) = arr.insertionSort (ranksAtLeast h) :=
  insertionSort_congr _ _ arr
    (fun a ha b hb => sortLE_iff_ranksAtLeast h a b (hwf a ha) (hwf b hb))

theorem sortedOrder_perm (h : Host) (arr : List Contribution) :
    (sortedOrder h arr).Perm arr := by
  unfold sortedOrder
  split_ifs
  · exact List.perm_insertionSort _ arr
  · exact h.sort_perm _ arr

theorem sortedContributions_of_dates (h : Host) (arr : List Contribution)
    (hwf : ∀ c ∈ arr, (h.dateParse c.date).isSome = true) :
    sortedContributions h arr = (arr.insertionSort (sortLE h)).take 50 := by
  unfold sortedContributions sortedOrder
  rw [if_pos hwf]

theorem binarySlot_steps {α : Type} (comparefn : α → α → Option Int) (pivot : α)
    (sorted : List α) (steps : Nat) :
    ∀ (extra left right : Nat), right - left ≤ steps →
      binarySlot comparefn pivot sorted (steps + extra) left right =
        binarySlot comparefn pivot sorted steps left right := by
  induction steps with
  | zero =>
    intro extra left right hle
    cases extra with
    | zero => rfl
    | succ extra =>
      rw [Nat.zero_add, binarySlot, binarySlot, if_neg (by omega)]
  | succ steps ih =>
    intro extra left right hle
    rw [show steps + 1 + extra = (steps + extra) + 1 by omega, binarySlot, binarySlot]
    split_ifs with hlt
    · cases sorted.get? (left + (right - left) / 2) with
      | none => rfl
      | some element =>
        simp only []
        split_ifs
        · exact ih extra _ _ (by omega)
        · exact ih extra _ _ (by omega)
    · rfl

theorem not_ranksAbove_of_ranksAtLeast (h : Host) (a b : Contribution)
    (hab : ranksAtLeast h a b) : ¬ ranksAbove h b a := by
  unfold ranksAtLeast at hab
  unfold ranksAbove
  omega

/-- C6: on Contributions whose dates parse, the ranking step returns the first
min(50, n) elements of a permutation of its input that is ordered by tier descending
and, within a tier, by date descending; adjacent output elements are in that order and
no omitted element ranks strictly above an included one. -/
theorem sortedContributions_top50 (h : Host) (arr : List Contribution)
    (hwf : ∀ c ∈ arr, (h.dateParse c.date).isSome = true) :
    ∃ p : List Contribution, p.Perm arr ∧ p.Sorted (ranksAtLeast h) ∧
      sortedContributions h arr = p.take 50 ∧
      (sortedContributions h arr).length = min 50 arr.length ∧
      (sortedContributions h arr).Chain' (ranksAtLeast h) ∧
      ∀ x ∈ p.drop 50, ∀ y ∈ sortedContributions h arr, ¬ ranksAbove h x y := by
  have hs : (arr.insertionSort (sortLE h)).Sorted (ranksAtLeast h) := by
    rw [sort_eq_rank_sort h arr hwf]
    exact List.sorted_insertionSort _ arr
  have hdef : sortedContributions h arr = (arr.insertionSort (sortLE h)).take 50 :=
    sortedContributions_of_dates h arr hwf
  refine ⟨arr.insertionSort (sortLE h), List.perm_insertionSort _ arr, hs, hdef, ?_, ?_, ?_⟩
  · rw [hdef, List.length_take, List.length_insertionSort]
  · rw [hdef]
    exact List.Pairwise.chain' (List.Pairwise.sublist (List.take_sublist _ _) hs)
  · intro x hx y hy
    rw [hdef] at hy
    exact not_ranksAbove_of_ranksAtLeast h y x (hs.rel_of_mem_take_of_mem_drop hy hx)

/-- Witness for C6: ranking the sample list (all dates parse) puts the Critical record
first, then the High one, then the Medium one. -/
theorem sortedContributions_top50_witness :
    sortedContributions jsHost sampleContributions =
        [sampleDuplicate, sampleFirst, sampleSecond] ∧
      ∃ p : List Contribution, p.Perm sampleContributions ∧
        sortedContributions jsHost sampleContributions = p.take 50 :=
  ⟨by decide,
   let ⟨p, h1, _, h3, _⟩ := sortedContributions_top50 jsHost sampleContributions (by decide)
   ⟨p, h1, h3⟩⟩

theorem analyzeContributions_counts_aux (contributions : List Contribution) :
    (analyzeContributions contributions).totalContributions = contributions.length ∧
      (analyzeContributions contributions).totalRepos =
        (contributions.map (·.repo)).toFinset.card := by
  constructor
  · unfold analyzeContributions
    split_ifs with h0
    · exact h0.symm
    · rfl
  · unfold analyzeContributions
    split_ifs with h0
    · rw [List.length_eq_zero] at h0
      subst h0
      rfl
    · simp only [setSize, List.card_toFinset]

/-- C7: `analyzeContributions` counts the records, the distinct `repo` values and the
records of tier High or Critical; on the empty list all six fields are 0. -/
theorem analyzeContributions_counts (contributions : List Contribution) :
    (analyzeContributions contributions).totalContributions = contributions.length ∧
      (analyzeContributions contributions).totalRepos =
        (contributions.map (·.repo)).toFinset.card ∧
      (analyzeContributions contributions).highImpactContributions =
        contributions.countP
          (fun c => decide (c.impact = Impact.High ∨ c.impact = Impact.Critical)) ∧
      analyzeContributions [] =
        { totalRepos := 0, totalContributions := 0, highImpactContributions := 0,
          avgStars := 0, impactScore := 0, collaborationScore := 0 } := by
  refine ⟨?_, ?_, ?_, rfl⟩
  · unfold analyzeContributions
    split_ifs with h0
    · exact h0.symm
    · rfl
  · unfold analyzeContributions
    split_ifs with h0
    · rw [List.length_eq_zero] at h0
      subst h0
      rfl
    · simp only [setSize, List.card_toFinset]
  · unfold analyzeContributions
    split_ifs with h0
    · rw [List.length_eq_zero] at h0
      subst h0
      rfl
    · simp only [List.countP_eq_length_filter]
      rfl

theorem foldl_stars (contributions : List Contribution)
    (hsum : (contributions.map (·.stars)).sum < 2 ^ 53) :
    contributions.foldl (fun sum c => toDouble (sum + (c.stars : ℚ))) 0 =
      (((contributions.map (·.stars)).sum : ℕ) : ℚ) := by
  have key := foldl_stored_sum (fun c : Contribution => c.stars) contributions 0
    (by rw [Nat.zero_add]; exact hsum)
  rw [Nat.zero_add, Nat.cast_zero] at key
  exact key

theorem mathRound_isRoundHalfUp (q : ℚ) : isRoundHalfUp (mathRound q) q := by
  unfold isRoundHalfUp mathRound
  have h1 := Int.floor_le (q + 1 / 2)
  have h2 := Int.lt_floor_add_one (q + 1 / 2)
  constructor <;> linarith

theorem mathRound_natCast (n : Nat) : mathRound ((n : ℕ) : ℚ) = (n : ℤ) := by
  unfold mathRound
  rw [Int.floor_eq_iff]
  constructor
  · push_cast
    linarith
  · push_cast
    linarith

theorem avgStars_eq (contributions : List Contribution) (hne : contributions ≠ []) :
    (analyzeContributions contributions).avgStars =
      mathRound (toDouble
        (contributions.foldl (fun sum c => toDouble (sum + (c.stars : ℚ))) 0 /
          (contributions.length : ℚ))) := by
  have h0 : ¬ contributions.length = 0 := fun hc => hne (List.length_eq_zero.mp hc)
  unfold analyzeContributions
  rw [if_neg h0]

theorem impactScore_eq (contributions : List Contribution) (hne : contributions ≠ []) :
    (analyzeContributions contributions).impactScore =
      mathRound (toDouble
        (toDouble (((contributions.filter isHighImpact).length : ℚ) /
          (contributions.length : ℚ)) * 100)) := by
  have h0 : ¬ contributions.length = 0 := fun hc => hne (List.length_eq_zero.mp hc)
  have hpos : contributions.length > 0 := Nat.pos_of_ne_zero h0
  unfold analyzeContributions
  rw [if_neg h0]
  simp only [if_pos hpos]

theorem counts_eq (contributions : List Contribution) (hne : contributions ≠ []) :
    (analyzeContributions contributions).highImpactContributions =
        (contributions.filter isHighImpact).length ∧
      (analyzeContributions contributions).totalContributions = contributions.length ∧
      (analyzeContributions contributions).totalRepos =
        setSize (contributions.map (·.repo)) ∧
      (analyzeContributions contributions).collaborationScore =
        min 100 (((setSize (contributions.map (·.repo)) * 10 +
          (contributions.filter isHighImpact).length * 15 : ℕ) : ℤ)) := by
  have h0 : ¬ contributions.length = 0 := fun hc => hne (List.length_eq_zero.mp hc)
  unfold analyzeContributions
  rw [if_neg h0]
  refine ⟨rfl, rfl, rfl, ?_⟩
  simp only []
  rw [mathRound_natCast]

theorem avgStars_exact (contributions : List Contribution) (hne : contributions ≠ [])
    (hstars : (contributions.map (·.stars)).sum < 2 ^ 52) :
    (analyzeContributions contributions).avgStars =
      mathRound ((((contributions.map (·.stars)).sum : ℕ) : ℚ) / (contributions.length : ℚ)) := by
  have hpos : 0 < contributions.length := List.length_pos.mpr hne
  rw [avgStars_eq contributions hne, foldl_stars contributions (by omega),
    mathRound_toDouble_div _ _ hpos hstars]

/-- Counterexample for C8: of the forty sample Contributions 23 are of tier High; the
exact percentage is 57.5 and rounds to 58, but the quotient 23 / 40 is stored as a
double just below 0.575, its product by 100 as a double just below 57.5, and
`impactScore` is 57. -/
theorem impact_score_below_half :
    (analyzeContributions fortyContributions).highImpactContributions = 23 ∧
      (analyzeContributions fortyContributions).totalContributions = 40 ∧
      (analyzeContributions fortyContributions).impactScore = 57 ∧
      isRoundHalfUp 58
        (100 * ((analyzeContributions fortyContributions).highImpactContributions : ℚ) /
          ((analyzeContributions fortyContributions).totalContributions : ℚ)) ∧
      ¬ isRoundHalfUp (analyzeContributions fortyContributions).impactScore
        (100 * ((analyzeContributions fortyContributions).highImpactContributions : ℚ) /
          ((analyzeContributions fortyContributions).totalContributions : ℚ)) := by
  have hne : fortyContributions ≠ [] := by decide
  have hhigh : (fortyContributions.filter isHighImpact).length = 23 := by decide
  have hlen : fortyContributions.length = 40 := by decide
  have hscore : (analyzeContributions fortyContributions).impactScore = 57 := by
    rw [impactScore_eq _ hne, hhigh, hlen]
    exact round_23_of_40
  obtain ⟨c1, c2, -, -⟩ := counts_eq fortyContributions hne
  rw [hscore, c1, c2, hhigh, hlen]
  refine ⟨rfl, rfl, rfl, ?_, ?_⟩
  · unfold isRoundHalfUp
    constructor <;> norm_num
  · unfold isRoundHalfUp
    norm_num

/-- C8 (amended): on a non-empty list of fewer than 2^32 Contributions whose star counts
add up to less than 2^52, `avgStars` is the mean star count rounded to the nearest
integer (halves up) and `collaborationScore` is
min(100, totalRepos * 10 + highImpactContributions * 15); `impactScore` is
100 * highImpactContributions / totalContributions rounded the same way whenever that
percentage is not halfway between two integers, and at such a tie it is the rounded
percentage or one less, as the doubles holding the quotient and its product by 100
decide. -/
theorem analyzeContributions_scores (contributions : List Contribution)
    (hne : contributions ≠ []) (hlen : contributions.length < 2 ^ 32)
    (hstars : (contributions.map (·.stars)).sum < 2 ^ 52) :
    isRoundHalfUp (analyzeContributions contributions).avgStars (meanStars contributions) ∧
      ((200 * (analyzeContributions contributions).highImpactContributions) %
          (2 * (analyzeContributions contributions).totalContributions) ≠
          (analyzeContributions contributions).totalContributions →
        isRoundHalfUp (analyzeContributions contributions).impactScore
          (100 * ((analyzeContributions contributions).highImpactContributions : ℚ) /
            ((analyzeContributions contributions).totalContributions : ℚ))) ∧
      (isRoundHalfUp (analyzeContributions contributions).impactScore
          (100 * ((analyzeContributions contributions).highImpactContributions : ℚ) /
            ((analyzeContributions contributions).totalContributions : ℚ)) ∨
        isRoundHalfUp ((analyzeContributions contributions).impactScore + 1)
          (100 * ((analyzeContributions contributions).highImpactContributions : ℚ) /
            ((analyzeContributions contributions).totalContributions : ℚ))) ∧
      (analyzeContributions contributions).collaborationScore =
        min 100 (((analyzeContributions contributions).totalRepos * 10 +
          (analyzeContributions contributions).highImpactContributions * 15 : ℕ) : ℤ) := by
  have hpos : 0 < contributions.length := List.length_pos.mpr hne
  have hhigh : (contributions.filter isHighImpact).length ≤ contributions.length :=
    List.length_filter_le _ _
  obtain ⟨c1, c2, c3, c4⟩ := counts_eq contributions hne
  have hq : ((100 * (contributions.filter isHighImpact).length : ℕ) : ℚ) /
      (contributions.length : ℚ) =
      100 * ((contributions.filter isHighImpact).length : ℚ) / (contributions.length : ℚ) := by
    push_cast
    ring
  have hexact : isRoundHalfUp
      (mathRound (((100 * (contributions.filter isHighImpact).length : ℕ) : ℚ) /
        (contributions.length : ℚ)))
      (100 * ((contributions.filter isHighImpact).length : ℚ) / (contributions.length : ℚ)) := by
    rw [← hq]
    exact mathRound_isRoundHalfUp _
  rw [c1, c2, c3, c4, impactScore_eq contributions hne]
  refine ⟨?_, ?_, ?_, rfl⟩
  · rw [avgStars_exact contributions hne hstars]
    exact mathRound_isRoundHalfUp _
  · intro htie
    rw [mathRound_percent _ _ hpos hhigh hlen htie]
    exact hexact
  · rcases mathRound_percent_near _ _ hpos hhigh hlen with hsame | hless
    · left
      rw [hsame]
      exact hexact
    · right
      rw [hless, sub_add_cancel]
      exact hexact

/-- Witness for C8: the scores of the sample list: mean 30050 / 3 rounds to 10017,
two of three records are high impact (not a tie: 67), and 2 * 10 + 2 * 15 = 50. -/
theorem analyzeContributions_scores_witness :
    isRoundHalfUp (analyzeContributions sampleContributions).avgStars
        (meanStars sampleContributions) ∧
      isRoundHalfUp (analyzeContributions sampleContributions).impactScore
        (100 * ((analyzeContributions sampleContributions).highImpactContributions : ℚ) /
          ((analyzeContributions sampleContributions).totalContributions : ℚ)) ∧
      (analyzeContributions sampleContributions).collaborationScore = 50 :=
  ⟨(analyzeContributions_scores sampleContributions (by decide) (by decide) (by decide)).1,
   (analyzeContributions_scores sampleContributions (by decide) (by decide) (by decide)).2.1
     (by decide),
   (analyzeContributions_scores sampleContributions (by decide) (by decide)
     (by decide)).2.2.2.trans (by decide)⟩

theorem mem_sortedContributions {h : Host} {arr : List Contribution} {c : Contribution}
    (hc : c ∈ sortedContributions h arr) : c ∈ arr := by
  unfold sortedContributions at hc
  exact (sortedOrder_perm h arr).subset (List.mem_of_mem_take hc)

theorem mem_eventContributions {h : Host} {now : Int} {username : String}
    {m : String → Option RepoView} {other : List RawEvent} {l : List Contribution}
    (hl : eventContributions h now username m other = Except.ok l) {c : Contribution}
    (hc : c ∈ l) : notOwnedBy h username c = true := by
  unfold eventContributions at hl
  split at hl
  · cases hl
  · cases hl
    exact (List.mem_filter.mp hc).2

theorem mem_searchContributions {h : Host} {now : Int} {username : String}
    {m : String → Option RepoView} {external : List RawSearchItem} {c : Contribution}
    (hc : c ∈ searchContributions h now username m external) :
    notOwnedBy h username c = true := by
  unfold searchContributions at hc
  exact (List.mem_filter.mp hc).2

theorem computeContributions_notOwned {h : Host} {now : Int} {username : String}
    {r : Responses} {l : List Contribution}
    (hl : computeContributions h now username r = Except.ok l) {c : Contribution}
    (hc : c ∈ l) : h.toLowerCase c.repoOwner ≠ h.toLowerCase username := by
  unfold computeContributions at hl
  simp only [] at hl
  split at hl
  · cases hl
  · rename_i fromEvents hev
    cases hl
    have h1 := (uniqueContributions_sublist _).subset (mem_sortedContributions hc)
    have h2 : notOwnedBy h username c = true := by
      rcases List.mem_append.mp h1 with hm | hm
      · exact mem_eventContributions hev hm
      · exact mem_searchContributions hm
    unfold notOwnedBy at h2
    exact bne_iff_ne.mp h2

theorem otherUsersEvents_filter_self (h : Host) (username : String) (events : List RawEvent) :
    otherUsersEvents h username (events.filter (fun event => !isSelfEvent h username event)) =
      otherUsersEvents h username events := by
  unfold otherUsersEvents
  rw [List.filter_filter]
  apply List.filter_congr
  intro event _
  unfold isSelfEvent isExternalOwner
  cases hown : eventOwner event with
  | none => simp [truthy]
  | some repoOwner =>
    simp only [Option.getD_some]
    cases hq : (h.toLowerCase repoOwner == h.toLowerCase username) <;> simp [bne, hq]

theorem pageEvents_withoutSelfPage (h : Host) (username : String)
    (page : Settled (List RawEvent)) :
    pageEvents (withoutSelfPage h username page) =
      (pageEvents page).filter (fun event => !isSelfEvent h username event) := by
  cases page <;> rfl

theorem otherUsersEvents_withoutSelfEvents (h : Host) (username : String) (r : Responses) :
    otherUsersEvents h username (allEvents (withoutSelfEvents h username r)) =
      otherUsersEvents h username (allEvents r) := by
  unfold allEvents withoutSelfEvents
  simp only [pageEvents_withoutSelfPage, ← List.filter_append]
  exact otherUsersEvents_filter_self h username _

theorem computeContributions_withoutSelfEvents (h : Host) (now : Int) (username : String)
    (r : Responses) :
    computeContributions h now username (withoutSelfEvents h username r) =
      computeContributions h now username r := by
  unfold computeContributions
  rw [otherUsersEvents_withoutSelfEvents]
  rfl

/-- C4: every Contribution in the list `handleSearch` computes has a repository owner
that differs from the queried username after lower-casing both; stored into a state
whose list already had that property, the new state has it too; and the state
`handleSearch` leaves is the same as for the responses with every self-owned event
removed, so such an event yields no Contribution. -/
theorem handleSearch_excludes_owner (h : Host) (now : Int) (r : Responses) (s : State) :
    (∀ l, computeContributions h now s.username r = Except.ok l →
        ∀ c ∈ l, h.toLowerCase c.repoOwner ≠ h.toLowerCase s.username) ∧
      ((∀ c ∈ s.contributions, h.toLowerCase c.repoOwner ≠ h.toLowerCase s.username) →
        ∀ c ∈ (handleSearch h now r s).contributions,
          h.toLowerCase c.repoOwner ≠ h.toLowerCase s.username) ∧
      handleSearch h now (withoutSelfEvents h s.username r) s = handleSearch h now r s := by
  refine ⟨fun l hl c hc => computeContributions_notOwned hl hc, ?_, ?_⟩
  · intro hs c hc
    unfold handleSearch at hc
    split_ifs at hc
    · exact hs c hc
    · split at hc
      · exact hs c hc
      · split at hc
        · exact hs c hc
        · rename_i sorted hsorted
          exact computeContributions_notOwned hsorted hc
  · unfold handleSearch
    rw [computeContributions_withoutSelfEvents]
    rfl

/-- Witness for C4: for the user `Octo` the self-owned push and the search hit in
`octo/tool` are dropped; the one Contribution left is owned by `big`. -/
theorem handleSearch_excludes_owner_witness :
    computeContributions jsHost midJune2024 "Octo" sampleResponses =
        Except.ok [externalPrContribution] ∧
      jsHost.toLowerCase externalPrContribution.repoOwner ≠ jsHost.toLowerCase "Octo" :=
  ⟨rfl,
   (handleSearch_excludes_owner jsHost midJune2024 sampleResponses
      { initialState with username := "Octo" }).1 [externalPrContribution] rfl
      externalPrContribution (List.mem_singleton.mpr rfl)⟩

theorem analyzeContributions_eq_division (contributions : List Contribution)
    (hlen : contributions.length < 2 ^ 32)
    (hstars : (contributions.map (·.stars)).sum < 2 ^ 52)
    (htie : (200 * (contributions.filter isHighImpact).length) % (2 * contributions.length) ≠
      contributions.length) :
    analyzeContributions contributions = analyzeByDivision contributions := by
  by_cases hne : contributions = []
  · subst hne
    rfl
  have hpos : 0 < contributions.length := List.length_pos.mpr hne
  have h0 : ¬ contributions.length = 0 := by omega
  have hhigh : (contributions.filter isHighImpact).length ≤ contributions.length :=
    List.length_filter_le _ _
  obtain ⟨c1, c2, c3, c4⟩ := counts_eq contributions hne
  have h1 := avgStars_exact contributions hne hstars
  rw [mathRound_div _ _ hpos] at h1
  have h2 := impactScore_eq contributions hne
  rw [mathRound_percent _ _ hpos hhigh hlen htie, mathRound_div _ _ hpos] at h2
  have h3 : (2 * (100 * (contributions.filter isHighImpact).length) + contributions.length) /
      (2 * contributions.length) =
      (200 * (contributions.filter isHighImpact).length + contributions.length) /
        (2 * contributions.length) := by
    congr 2
    ring
  rw [h3] at h2
  have hstruct : ∀ a b : Stats, a.totalRepos = b.totalRepos →
      a.totalContributions = b.totalContributions →
      a.highImpactContributions = b.highImpactContributions → a.avgStars = b.avgStars →
      a.impactScore = b.impactScore → a.collaborationScore = b.collaborationScore → a = b := by
    intro a b e1 e2 e3 e4 e5 e6
    cases a
    cases b
    simp only at e1 e2 e3 e4 e5 e6
    subst e1 e2 e3 e4 e5 e6
    rfl
  apply hstruct
  · rw [c3]
    unfold analyzeByDivision
    rw [if_neg h0]
  · rw [c2]
    unfold analyzeByDivision
    rw [if_neg h0]
  · rw [c1]
    unfold analyzeByDivision
    rw [if_neg h0]
  · rw [h1]
    unfold analyzeByDivision
    rw [if_neg h0]
  · rw [h2]
    unfold analyzeByDivision
    rw [if_neg h0]
  · rw [c4]
    unfold analyzeByDivision
    rw [if_neg h0]

theorem analyzeByDivision_perm {p q : List Contribution} (hpq : p.Perm q) :
    analyzeByDivision p = analyzeByDivision q := by
  have hlen : p.length = q.length := hpq.length_eq
  have hrepos : setSize (p.map (·.repo)) = setSize (q.map (·.repo)) := by
    unfold setSize
    exact ((hpq.map _).dedup).length_eq
  have hhigh : (p.filter isHighImpact).length = (q.filter isHighImpact).length :=
    (hpq.filter _).length_eq
  have hsum : (p.map (·.stars)).sum = (q.map (·.stars)).sum := (hpq.map _).sum_eq
  unfold analyzeByDivision
  simp only [hlen, hrepos, hhigh, hsum]

theorem sortedContributions_perm (h : Host) (arr : List Contribution)
    (hlen : arr.length ≤ 50) : (sortedContributions h arr).Perm arr := by
  unfold sortedContributions
  rw [List.take_of_length_le (by rw [(sortedOrder_perm h arr).length_eq]; exact hlen)]
  exact sortedOrder_perm h arr

theorem analyzeContributions_sorted (h : Host) (arr : List Contribution)
    (hlen : arr.length ≤ 50) (hstars : (arr.map (·.stars)).sum < 2 ^ 52)
    (htie : (200 * (arr.filter isHighImpact).length) % (2 * arr.length) ≠ arr.length) :
    analyzeContributions (sortedContributions h arr) = analyzeByDivision arr := by
  have hperm := sortedContributions_perm h arr hlen
  have e1 : (sortedContributions h arr).length = arr.length := hperm.length_eq
  have e2 : ((sortedContributions h arr).map (·.stars)).sum = (arr.map (·.stars)).sum :=
    (hperm.map _).sum_eq
  have e3 : ((sortedContributions h arr).filter isHighImpact).length =
      (arr.filter isHighImpact).length := (hperm.filter _).length_eq
  rw [analyzeContributions_eq_division _ (by rw [e1]; omega) (by rw [e2]; exact hstars)
    (by rw [e1, e3]; exact htie)]
  exact analyzeByDivision_perm hperm

theorem impact_feed_pr (h : Host) (now : Int) (forks : Option Nat) (updated : Option String)
    (merged closed : Option String) :
    calculateImpact h now (engineRepo forks updated).view
      { type := Kind.text "Pull Request", merged_at := merged, closed_at := closed } =
      Impact.High := by
  rw [bucket_eq]
  have hr : recencyPoints h now (engineRepo forks updated).view ≤ 1 := by
    unfold recencyPoints
    split_ifs <;> omega
  have hk : outcomeKind
      { type := Kind.text "Pull Request", merged_at := merged, closed_at := closed } =
      OutcomeKind.other := by
    simp [outcomeKind]
  have hp : specPopularity ((engineRepo forks updated).view.stargazers_count.getD 0)
      ((engineRepo forks updated).view.forks_count.getD 0) = 4 := by
    simp [specPopularity, engineRepo, Repository.view]
  rw [hk, hp]
  simp only [specOutcome, specBucket]
  split_ifs <;> first | rfl | omega

theorem impact_search_pr (h : Host) (now : Int) (forks : Option Nat) (updated : Option String)
    (merged : String) (closed : Option String) (hm : merged ≠ "") :
    calculateImpact h now (engineRepo forks updated).view
      { type := Kind.text "PullRequest", merged_at := some merged, closed_at := closed } =
      Impact.Critical := by
  rw [bucket_eq]
  have hr : recencyPoints h now (engineRepo forks updated).view ≤ 1 := by
    unfold recencyPoints
    split_ifs <;> omega
  have hk : outcomeKind
      { type := Kind.text "PullRequest", merged_at := some merged, closed_at := closed } =
      OutcomeKind.mergedPullRequest := by
    simp [outcomeKind, truthy, hm]
  have hp : specPopularity ((engineRepo forks updated).view.stargazers_count.getD 0)
      ((engineRepo forks updated).view.forks_count.getD 0) = 4 := by
    simp [specPopularity, engineRepo, Repository.view]
  rw [hk, hp]
  simp only [specOutcome, specBucket]
  split_ifs <;> first | rfl | omega

theorem impact_closed_issue (h : Host) (now : Int) (forks : Option Nat)
    (updated : Option String) (merged : Option String) (closed : String)
    (hf : forks.getD 0 ≤ 100) (hc : closed ≠ "") :
    calculateImpact h now (toolRepo forks updated).view
      { type := Kind.text "Issue", merged_at := merged, closed_at := some closed } =
      Impact.Medium := by
  rw [bucket_eq]
  have hr : recencyPoints h now (toolRepo forks updated).view ≤ 1 := by
    unfold recencyPoints
    split_ifs <;> omega
  have hk : outcomeKind
      { type := Kind.text "Issue", merged_at := merged, closed_at := some closed } =
      OutcomeKind.closedIssue := by
    simp [outcomeKind, truthy, hc]
  have hp : specPopularity ((toolRepo forks updated).view.stargazers_count.getD 0)
      ((toolRepo forks updated).view.forks_count.getD 0) = 0 := by
    have h1 : ¬ 1000 < forks.getD 0 := by omega
    have h2 : ¬ 100 < forks.getD 0 := by omega
    simp [specPopularity, toolRepo, Repository.view, h1, h2]
  rw [hk, hp]
  simp only [specOutcome, specBucket]
  split_ifs <;> first | rfl | omega

theorem mapM_except_cons {α β : Type} (f : α → Except String β) (a : α) (as : List α) :
    (a :: as).mapM f =
      match f a with
      | Except.error message => Except.error message
      | Except.ok b =>
        match as.mapM f with
        | Except.error message => Except.error message
        | Except.ok bs => Except.ok (b :: bs) := by
  rw [List.mapM_cons]
  cases f a with
  | error e => rfl
  | ok b =>
    cases as.mapM f with
    | error e => rfl
    | ok bs => rfl

theorem except_ok_bind {α β : Type} (a : α) (f : α → Except String β) :
    (Except.ok a >>= f) = f a := rfl

theorem except_pure {α : Type} (a : α) : (pure a : Except String α) = Except.ok a := rfl

theorem mapM_except_nil {α β : Type} (f : α → Except String β) :
    ([] : List α).mapM f = Except.ok [] := rfl

theorem day_fix : dayOf "2024-05-01T10:00:00Z" = "2024-05-01" := by decide

theorem day_cache : dayOf "2024-05-02T10:00:00Z" = "2024-05-02" := by decide

theorem day_build : dayOf "2024-05-03T10:00:00Z" = "2024-05-03" := by decide

theorem day_issue : dayOf "2024-05-04T10:00:00Z" = "2024-05-04" := by decide

theorem typeMap_pullRequest : typeMap "PullRequestEvent" = some (Kind.text "Pull Request") := by
  decide

theorem typeMap_issues : typeMap "IssuesEvent" = some (Kind.text "Issue") := by
  decide

theorem typeMap_push : typeMap "PushEvent" = some (Kind.text "Push") := by
  decide

theorem typeMap_create : typeMap "CreateEvent" = some (Kind.text "Created") := by
  decide

theorem format_engine (h : Host) (now : Int) (fa fb : Option Nat) (ua ub : Option String)
    (title day date : String) (ht : title ≠ "") (hd : day ≠ "") (hday : dayOf day = date)
    (hdate : date ≠ "") :
    formatHydrated h now (scenarioMap fa fb ua ub) (enginePrEvent title day) =
      Except.ok (feedPr fa title date) := by
  have hm : scenarioMap fa fb ua ub
      (((enginePrEvent title day).repo.bind (·.name)).getD "") =
      some (engineRepo fa ua).view := rfl
  unfold formatHydrated
  rw [hm]
  simp only [formatContribution, enginePrEvent, typeMap_pullRequest, Option.getD_some,
    impact_feed_pr]
  simp [truthy, ht, hd, hday, hdate, feedPr, engineRepo, Repository.view, Kind.render]

theorem format_issue (h : Host) (now : Int) (fa fb : Option Nat) (ua ub : Option String)
    (hf : fb.getD 0 ≤ 100) :
    formatHydrated h now (scenarioMap fa fb ua ub) toolIssueEvent =
      Except.ok (issueContribution fb) := by
  have hm : scenarioMap fa fb ua ub
      ((toolIssueEvent.repo.bind (·.name)).getD "") = some (toolRepo fb ub).view := rfl
  have hi := impact_closed_issue h now fb ub none "2024-05-04T10:00:00Z" hf (by decide)
  unfold formatHydrated
  rw [hm]
  simp only [formatContribution, toolIssueEvent, typeMap_issues, Option.getD_some,
    Option.bind_some, Option.bind_none, hi]
  simp [truthy, day_issue, issueContribution, toolRepo, Repository.view, Kind.render]
  exact hi

theorem search_engine (h : Host) (now : Int) (fa fb : Option Nat) (ua ub : Option String)
    (title day date : String) (hd : day ≠ "") (hday : dayOf day = date) :
    searchHydrated h now (scenarioMap fa fb ua ub) (enginePrItem title day) =
      some (searchPr fa title date) := by
  have hm : scenarioMap fa fb ua ub ((itemRepoName (enginePrItem title day)).getD "") =
      some (engineRepo fa ua).view := rfl
  have hi := impact_search_pr h now fa ua day (some day) hd
  unfold searchHydrated
  rw [hm]
  simp only [searchContribution, enginePrItem, Option.map_some', Option.isSome_some, if_true,
    Option.bind_some, hi]
  simp [truthy, hd, hday, searchPr, engineRepo, Repository.view]
  exact hi

theorem search_issue (h : Host) (now : Int) (fa fb : Option Nat) (ua ub : Option String)
    (hf : fb.getD 0 ≤ 100) :
    searchHydrated h now (scenarioMap fa fb ua ub) toolIssueItem =
      some (issueContribution fb) := by
  have hm : scenarioMap fa fb ua ub ((itemRepoName toolIssueItem).getD "") =
      some (toolRepo fb ub).view := rfl
  have hi := impact_closed_issue h now fb ub none "2024-05-04T10:00:00Z" hf (by decide)
  unfold searchHydrated
  rw [hm]
  simp only [searchContribution, toolIssueItem, Option.map_some', Option.isSome_none,
    Bool.false_eq_true, if_false, Option.bind_none, hi]
  simp [truthy, day_issue, issueContribution, toolRepo, Repository.view]
  exact hi

theorem repoMap_engine_tool (fa fb : Option Nat) (ua ub : Option String) :
    repoMap [scenarioRepos fa fb ua ub "bigorg/engine", scenarioRepos fa fb ua ub "smallorg/tool"] =
      scenarioMap fa fb ua ub := by
  funext key
  simp only [repoMap, scenarioRepos, scenarioMap, List.foldl, engineRepo, toolRepo]
  by_cases h1 : key = "bigorg/engine"
  · subst h1
    simp
  · by_cases h2 : key = "smallorg/tool"
    · subst h2
      simp
    · simp [h1, h2]

theorem repoMap_tool_engine (fa fb : Option Nat) (ua ub : Option String) :
    repoMap [scenarioRepos fa fb ua ub "smallorg/tool", scenarioRepos fa fb ua ub "bigorg/engine"] =
      scenarioMap fa fb ua ub := by
  funext key
  simp only [repoMap, scenarioRepos, scenarioMap, List.foldl, engineRepo, toolRepo]
  by_cases h1 : key = "bigorg/engine"
  · subst h1
    simp
  · by_cases h2 : key = "smallorg/tool"
    · subst h2
      simp
    · simp [h1, h2]

set_option maxHeartbeats 40000000 in
theorem scenario_compute (h : Host) (now : Int) (fa fb : Option Nat) (ua ub : Option String)
    (d1 d2 d3 d4 : Delivery) (hf : fb.getD 0 ≤ 100)
    (hA : h.toLowerCase "bigorg" ≠ h.toLowerCase "alice")
    (hB : h.toLowerCase "smallorg" ≠ h.toLowerCase "alice") :
    computeContributions h now "alice" (scenarioResponses fa fb ua ub d1 d2 d3 d4) =
      Except.ok (sortedContributions h
        (uniqueContributions (scenarioContributions fa fb d1 d2 d3 d4))) := by
  have oe : ∀ t d, eventOwner (enginePrEvent t d) = some "bigorg" := fun _ _ => rfl
  have ot : eventOwner toolIssueEvent = some "smallorg" := rfl
  have ie : ∀ t d, itemOwner (enginePrItem t d) = some "bigorg" := fun _ _ => rfl
  have it : itemOwner toolIssueItem = some "smallorg" := rfl
  have re : ∀ t d, itemRepoRef (enginePrItem t d) = some "bigorg/engine" := fun _ _ => rfl
  have rt : itemRepoRef toolIssueItem = some "smallorg/tool" := rfl
  have he : ∀ t d, eventHydrated (scenarioMap fa fb ua ub) (enginePrEvent t d) = true :=
    fun _ _ => rfl
  have ht : eventHydrated (scenarioMap fa fb ua ub) toolIssueEvent = true := rfl
  have te : ∀ t d, isTrackedType (enginePrEvent t d) = true := fun _ _ => rfl
  have tt : isTrackedType toolIssueEvent = true := rfl
  have hie : ∀ t d, itemHydrated (scenarioMap fa fb ua ub) (enginePrItem t d) = true :=
    fun _ _ => rfl
  have hit : itemHydrated (scenarioMap fa fb ua ub) toolIssueItem = true := rfl
  have f1 := format_engine h now fa fb ua ub "Fix parser" "2024-05-01T10:00:00Z" "2024-05-01"
    (by decide) (by decide) day_fix (by decide)
  have f2 := format_engine h now fa fb ua ub "Add cache" "2024-05-02T10:00:00Z" "2024-05-02"
    (by decide) (by decide) day_cache (by decide)
  have f3 := format_engine h now fa fb ua ub "Speed up build" "2024-05-03T10:00:00Z"
    "2024-05-03" (by decide) (by decide) day_build (by decide)
  have f4 := format_issue h now fa fb ua ub hf
  have s1 := search_engine h now fa fb ua ub "Fix parser" "2024-05-01T10:00:00Z" "2024-05-01"
    (by decide) day_fix
  have s2 := search_engine h now fa fb ua ub "Add cache" "2024-05-02T10:00:00Z" "2024-05-02"
    (by decide) day_cache
  have s3 := search_engine h now fa fb ua ub "Speed up build" "2024-05-03T10:00:00Z"
    "2024-05-03" (by decide) day_build
  have s4 := search_issue h now fa fb ua ub hf
  have n1 : ∀ t d, notOwnedBy h "alice" (feedPr fa t d) = true := by
    intro t d
    simp [notOwnedBy, feedPr, hA]
  have n2 : ∀ t d, notOwnedBy h "alice" (searchPr fa t d) = true := by
    intro t d
    simp [notOwnedBy, searchPr, hA]
  have n3 : notOwnedBy h "alice" (issueContribution fb) = true := by
    simp [notOwnedBy, issueContribution, hB]
  unfold computeContributions
  cases d1 <;> cases d2 <;> cases d3 <;> cases d4 <;>
    simp [scenarioResponses, allEvents, searchItems, pageEvents, responseItems, feedPart,
      searchPart, Delivery.onFeed, Delivery.inSearch, otherUsersEvents,
      externalSearchContributions, isExternalOwner, oe, ot, ie, it, truthy, hA, hB, repoNames,
      filterBoolean, re, rt, setToArray, repoMap_engine_tool, repoMap_tool_engine,
      eventContributions, searchContributions, he, ht, te, tt, hie, hit, mapM_except_cons,
      mapM_except_nil, except_ok_bind, except_pure, f1, f2, f3, f4, s1, s2, s3, s4, n1, n2, n3, scenarioContributions,
      -List.mapM]

theorem handleSearch_ok (h : Host) (now : Int) (r : Responses) (s : State) (user : User)
    (l : List Contribution) (hu : h.trim s.username ≠ "")
    (hr : r.user = Settled.fulfilled user)
    (hl : computeContributions h now s.username r = Except.ok l) :
    handleSearch h now r s =
      { s with
        userData := some user
        contributions := l
        stats := some (analyzeContributions l)
        loading := false
        error := if l.length = 0 then noContributionsMessage else "" } := by
  unfold handleSearch
  rw [if_neg hu, hr]
  simp only [hl]

theorem findIdx_map_eq {α β : Type} (f : α → β) (p : β → Bool) (l : List α) :
    (l.map f).findIdx p = l.findIdx (fun x => p (f x)) := by
  induction l with
  | nil => rfl
  | cons a l ih => simp only [List.map_cons, List.findIdx_cons, ih]

theorem uniqueContributions_map (g : Contribution → Contribution)
    (hg : ∀ c, dedupKey (g c) = dedupKey c) (l : List Contribution) :
    uniqueContributions (l.map g) = (uniqueContributions l).map g := by
  have hkey : ∀ c x, sameKey (g c) (g x) = sameKey c x := by
    intro c x
    rw [Bool.eq_iff_iff, sameKey_iff, sameKey_iff, hg, hg]
  unfold uniqueContributions
  rw [List.enum_map, List.filter_map, List.map_map, List.map_map]
  congr 1
  apply List.filter_congr
  intro p _
  simp only [Function.comp_apply, Prod.map_fst, Prod.map_snd, id_eq, findIdx_map_eq, hkey]

theorem analyzeByDivision_withoutForks (l : List Contribution) :
    analyzeByDivision (l.map withoutForks) = analyzeByDivision l := by
  have hrepo : (l.map withoutForks).map (·.repo) = l.map (·.repo) := by
    rw [List.map_map]
    rfl
  have hstars : (l.map withoutForks).map (·.stars) = l.map (·.stars) := by
    rw [List.map_map]
    rfl
  have hhigh : ((l.map withoutForks).filter isHighImpact).length =
      (l.filter isHighImpact).length := by
    rw [List.filter_map, List.length_map]
    rfl
  unfold analyzeByDivision
  simp only [hrepo, hstars, hhigh, List.length_map]

theorem scenario_withoutForks (fa fb : Option Nat) (d1 d2 d3 d4 : Delivery) :
    (scenarioContributions fa fb d1 d2 d3 d4).map withoutForks =
      scenarioContributions (some 0) (some 0) d1 d2 d3 d4 := by
  cases d1 <;> cases d2 <;> cases d3 <;> cases d4 <;> rfl

theorem scenario_closed (d1 d2 d3 d4 : Delivery) :
    analyzeByDivision (uniqueContributions
        (scenarioContributions (some 0) (some 0) d1 d2 d3 d4)) = scenarioStats ∧
      (uniqueContributions (scenarioContributions (some 0) (some 0) d1 d2 d3 d4)).length = 4 ∧
      ((uniqueContributions (scenarioContributions (some 0) (some 0) d1 d2 d3 d4)).map
        (·.stars)).sum = 45050 ∧
      ((uniqueContributions (scenarioContributions (some 0) (some 0) d1 d2 d3 d4)).filter
        isHighImpact).length = 3 := by
  cases d1 <;> cases d2 <;> cases d3 <;> cases d4 <;> decide

theorem scenario_unique (fa fb : Option Nat) (d1 d2 d3 d4 : Delivery) :
    analyzeByDivision (uniqueContributions (scenarioContributions fa fb d1 d2 d3 d4)) =
        scenarioStats ∧
      (uniqueContributions (scenarioContributions fa fb d1 d2 d3 d4)).length = 4 ∧
      ((uniqueContributions (scenarioContributions fa fb d1 d2 d3 d4)).map (·.stars)).sum =
        45050 ∧
      ((uniqueContributions (scenarioContributions fa fb d1 d2 d3 d4)).filter
        isHighImpact).length = 3 := by
  have hc := scenario_closed d1 d2 d3 d4
  have hstars : ∀ l : List Contribution, (l.map withoutForks).map (·.stars) = l.map (·.stars) := by
    intro l
    rw [List.map_map]
    rfl
  have hhigh : ∀ l : List Contribution, ((l.map withoutForks).filter isHighImpact).length =
      (l.filter isHighImpact).length := by
    intro l
    rw [List.filter_map, List.length_map]
    rfl
  rw [← scenario_withoutForks fa fb, uniqueContributions_map withoutForks (fun _ => rfl),
    analyzeByDivision_withoutForks, List.length_map, hstars, hhigh] at hc
  exact hc

/-- C9: in the end-to-end scenario (three merged pull requests with distinct titles to
the hydrated 15,000-star repository, one closed issue in the hydrated 50-star
repository with at most 100 forks, both owned by accounts other than the queried user,
each record delivered by the event feed, the search index or both) `handleSearch`
stores the stats totalRepos = 2, totalContributions = 4, highImpactContributions = 3,
impactScore = 75 (and avgStars = 11263, collaborationScore = 65). -/
theorem scenario_stats (h : Host) (now : Int) (fa fb : Option Nat) (ua ub : Option String)
    (d1 d2 d3 d4 : Delivery) (hf : fb.getD 0 ≤ 100)
    (hA : h.toLowerCase "bigorg" ≠ h.toLowerCase "alice")
    (hB : h.toLowerCase "smallorg" ≠ h.toLowerCase "alice")
    (hu : h.trim "alice" ≠ "") :
    (handleSearch h now (scenarioResponses fa fb ua ub d1 d2 d3 d4) aliceState).stats =
      some scenarioStats := by
  have hc := scenario_compute h now fa fb ua ub d1 d2 d3 d4 hf hA hB
  rw [handleSearch_ok h now (scenarioResponses fa fb ua ub d1 d2 d3 d4) aliceState
    { login := "alice" } _ hu rfl hc]
  have hq := scenario_unique fa fb d1 d2 d3 d4
  show some (analyzeContributions _) = some scenarioStats
  rw [analyzeContributions_sorted h _ (by omega) (by rw [hq.2.2.1]; norm_num)
    (by rw [hq.2.2.2, hq.2.1]; decide), hq.1]

/-- Witness for C9: the scenario on the concrete host, the pull requests found by the
search index and the issue by the event feed. -/
theorem scenario_stats_witness :
    (handleSearch jsHost midJune2024
        (scenarioResponses (some 900) (some 3) (some "2024-06-01T00:00:00Z") none
          Delivery.searchIndex Delivery.searchIndex Delivery.both Delivery.eventFeed)
        aliceState).stats = some scenarioStats :=
  scenario_stats jsHost midJune2024 (some 900) (some 3) (some "2024-06-01T00:00:00Z") none
    Delivery.searchIndex Delivery.searchIndex Delivery.both Delivery.eventFeed
    (by decide) (by decide) (by decide) (by decide)

theorem mem_scenarioContributions (fa fb : Option Nat) (d1 d2 d3 d4 : Delivery)
    (c : Contribution) (hc : c ∈ scenarioContributions fa fb d1 d2 d3 d4) :
    (c.repo = "smallorg/tool" → c.impact = Impact.Medium) ∧
      (c.title = some "Fix parser" → d1 = Delivery.searchIndex → c.impact = Impact.Critical) ∧
      (c.title = some "Add cache" → d2 = Delivery.searchIndex → c.impact = Impact.Critical) ∧
      (c.title = some "Speed up build" → d3 = Delivery.searchIndex →
        c.impact = Impact.Critical) := by
  cases d1 <;> cases d2 <;> cases d3 <;> cases d4 <;>
    simp [scenarioContributions, Delivery.onFeed, Delivery.inSearch] at hc <;>
    casesm* _ ∨ _ <;> subst_vars <;> simp [feedPr, searchPr, issueContribution]

/-- Counterexample for C10: with all four records delivered by the search index, the
closed issue in the 50-star repository is not given tier Low (it scores 2 points, tier
Medium). -/
theorem scenario_issue_not_low :
    ¬ (∀ c ∈ (handleSearch jsHost midJune2024
          (scenarioResponses none none none none Delivery.searchIndex Delivery.searchIndex
            Delivery.searchIndex Delivery.searchIndex) aliceState).contributions,
        (c.repo = "bigorg/engine" → c.impact = Impact.Critical) ∧
          (c.repo = "smallorg/tool" → c.impact = Impact.Low)) := by
  decide

/-- C10 (amended): in the end-to-end scenario every Contribution of the stored list
for the closed issue in the 50-star repository (at most 100 forks) has tier Medium, and
every merged pull request to the 15,000-star repository that is delivered by the search
index only has tier Critical. -/
theorem scenario_tiers (h : Host) (now : Int) (fa fb : Option Nat) (ua ub : Option String)
    (d1 d2 d3 d4 : Delivery) (hf : fb.getD 0 ≤ 100)
    (hA : h.toLowerCase "bigorg" ≠ h.toLowerCase "alice")
    (hB : h.toLowerCase "smallorg" ≠ h.toLowerCase "alice")
    (hu : h.trim "alice" ≠ "") (c : Contribution)
    (hc : c ∈ (handleSearch h now (scenarioResponses fa fb ua ub d1 d2 d3 d4)
      aliceState).contributions) :
    (c.repo = "smallorg/tool" → c.impact = Impact.Medium) ∧
      (c.title = some "Fix parser" → d1 = Delivery.searchIndex → c.impact = Impact.Critical) ∧
      (c.title = some "Add cache" → d2 = Delivery.searchIndex → c.impact = Impact.Critical) ∧
      (c.title = some "Speed up build" → d3 = Delivery.searchIndex →
        c.impact = Impact.Critical) := by
  have hcomp := scenario_compute h now fa fb ua ub d1 d2 d3 d4 hf hA hB
  rw [handleSearch_ok h now (scenarioResponses fa fb ua ub d1 d2 d3 d4) aliceState
    { login := "alice" } _ hu rfl hcomp] at hc
  exact mem_scenarioContributions fa fb d1 d2 d3 d4 c
    ((uniqueContributions_sublist _).subset (mem_sortedContributions hc))

/-- Witness for C10: on the concrete host, with every record delivered by the search
index, the first element of the stored list is the pull request `Speed up build`, tier
Critical. -/
theorem scenario_tiers_witness :
    (searchPr none "Speed up build" "2024-05-03").impact = Impact.Critical :=
  (scenario_tiers jsHost midJune2024 none none none none Delivery.searchIndex
    Delivery.searchIndex Delivery.searchIndex Delivery.searchIndex (by decide) (by decide)
    (by decide) (by decide) (searchPr none "Speed up build" "2024-05-03")
    (by decide)).2.2.2 rfl rfl

theorem computeContributions_no_records (h : Host) (now : Int) (username : String)
    (r : Responses) (he : allEvents r = []) (hs : searchItems r = []) :
    computeContributions h now username r = Except.ok [] := by
  unfold computeContributions
  rw [he, hs]
  rfl

set_option maxRecDepth 8000 in
/-- Counterexample for C11: the user resolves and all five source calls are rate
limited; `handleSearch` stores an empty list with zeroed stats and the message that no
contributions were found, not the rate-limit message. -/
theorem all_rate_limited_not_error :
    (handleSearch jsHost midJune2024 rateLimitedResponses aliceState).error ≠
        rateLimitMessage ∧
      (handleSearch jsHost midJune2024 rateLimitedResponses aliceState).error =
        noContributionsMessage ∧
      (handleSearch jsHost midJune2024 rateLimitedResponses aliceState).contributions = [] := by
  decide

/-- C11 (amended): when the user resolves and each of the five source calls fails,
whatever the errors, `handleSearch` ends in the successful empty result: the user is
stored, the list is empty, the stats are zeroed and the message is the one saying that
no contributions were found. -/
theorem handleSearch_all_sources_failed (h : Host) (now : Int) (r : Responses) (s : State)
    (user : User) (m1 m2 m3 m4 m5 : String) (hu : h.trim s.username ≠ "")
    (hr : r.user = Settled.fulfilled user)
    (h1 : r.events1 = Settled.rejected m1) (h2 : r.events2 = Settled.rejected m2)
    (h3 : r.events3 = Settled.rejected m3) (h4 : r.prSearch = Settled.rejected m4)
    (h5 : r.issueSearch = Settled.rejected m5) :
    handleSearch h now r s =
      { s with
        userData := some user
        contributions := []
        stats := some zeroStats
        loading := false
        error := noContributionsMessage } := by
  have he : allEvents r = [] := by
    unfold allEvents
    rw [h1, h2, h3]
    rfl
  have hs : searchItems r = [] := by
    unfold searchItems
    rw [h4, h5]
    rfl
  rw [handleSearch_ok h now r s user [] hu hr (computeContributions_no_records h now _ r he hs)]
  rfl

/-- Witness for C11: the rate-limited responses on the concrete host. -/
theorem handleSearch_all_sources_failed_witness :
    handleSearch jsHost midJune2024 rateLimitedResponses aliceState =
      { aliceState with
        userData := some { login := "alice" }
        contributions := []
        stats := some zeroStats
        loading := false
        error := noContributionsMessage } :=
  handleSearch_all_sources_failed jsHost midJune2024 rateLimitedResponses aliceState
    { login := "alice" } rateLimitReason rateLimitReason rateLimitReason rateLimitReason
    rateLimitReason (by decide) rfl rfl rfl rfl rfl rfl

theorem pageEvents_pageAsEmpty (page : Settled (List RawEvent)) :
    pageEvents (pageAsEmpty page) = pageEvents page := by
  cases page <;> rfl

theorem responseItems_searchAsEmpty (answer : Settled SearchResponse) :
    responseItems (searchAsEmpty answer) = responseItems answer := by
  cases answer <;> rfl

theorem computeContributions_congr (h : Host) (now : Int) (username : String)
    (r r2 : Responses) (he : allEvents r2 = allEvents r) (hs : searchItems r2 = searchItems r)
    (hrepos : r2.repos = r.repos) :
    computeContributions h now username r2 = computeContributions h now username r := by
  unfold computeContributions
  rw [he, hs, hrepos]

theorem handleSearch_congr (h : Host) (now : Int) (r r2 : Responses) (s : State)
    (hu : r2.user = r.user) (he : allEvents r2 = allEvents r)
    (hs : searchItems r2 = searchItems r) (hrepos : r2.repos = r.repos) :
    handleSearch h now r2 s = handleSearch h now r s := by
  unfold handleSearch
  rw [hu, computeContributions_congr h now s.username r r2 he hs hrepos]

theorem mapM_except_total {α β : Type} (f : α → Except String β) (l : List α)
    (hok : ∀ a ∈ l, ∃ b, f a = Except.ok b) : ∃ bs, l.mapM f = Except.ok bs := by
  induction l with
  | nil => exact ⟨[], rfl⟩
  | cons a l ih =>
    obtain ⟨b, hb⟩ := hok a (List.mem_cons_self a l)
    obtain ⟨bs, hbs⟩ := ih (fun x hx => hok x (List.mem_cons_of_mem a hx))
    exact ⟨b :: bs, by rw [mapM_except_cons, hb, hbs]⟩

theorem formatContribution_total (h : Host) (now : Int) (repo : RepoView) (event : RawEvent)
    (hp : event.payload.isSome = true) : ∃ c, formatContribution h now repo event = Except.ok c := by
  obtain ⟨payload, hpayload⟩ := Option.isSome_iff_exists.mp hp
  unfold formatContribution
  rw [hpayload]
  exact ⟨_, rfl⟩

theorem eventContributions_total (h : Host) (now : Int) (username : String)
    (m : String → Option RepoView) (other : List RawEvent)
    (hp : ∀ e ∈ other, e.payload.isSome = true) :
    ∃ l, eventContributions h now username m other = Except.ok l := by
  have hok : ∀ e ∈ (other.filter (eventHydrated m)).filter isTrackedType,
      ∃ c, formatHydrated h now m e = Except.ok c := by
    intro e he
    have he1 := (List.mem_filter.mp he).1
    have hhyd := (List.mem_filter.mp he1).2
    have hmem := (List.mem_filter.mp he1).1
    unfold eventHydrated at hhyd
    rw [Bool.and_eq_true] at hhyd
    obtain ⟨repo, hrepo⟩ := Option.isSome_iff_exists.mp hhyd.2
    unfold formatHydrated
    rw [hrepo]
    exact formatContribution_total h now repo e (hp e hmem)
  obtain ⟨bs, hbs⟩ := mapM_except_total _ _ hok
  unfold eventContributions
  rw [hbs]
  exact ⟨_, rfl⟩

theorem computeContributions_total (h : Host) (now : Int) (username : String) (r : Responses)
    (hp : ∀ e ∈ allEvents r, e.payload.isSome = true) :
    ∃ l, computeContributions h now username r = Except.ok l := by
  have hother : ∀ e ∈ otherUsersEvents h username (allEvents r), e.payload.isSome = true :=
    fun e he => hp e (List.mem_filter.mp he).1
  obtain ⟨l, hl⟩ := eventContributions_total h now username
    (repoMap ((repoNames (otherUsersEvents h username (allEvents r))
      (externalSearchContributions h username (searchItems r))).map r.repos))
    (otherUsersEvents h username (allEvents r)) hother
  unfold computeContributions
  simp only [hl]
  exact ⟨_, rfl⟩

/-- C12: a failed source counts as an empty one: the state `handleSearch` leaves is the
same as for the responses with every failed source replaced by an empty answer; when
both searches fail it equals the state for empty search answers, and, the user being
resolved and every event carrying a payload, the call stores a list with its stats and
ends without a caught error (the message is empty, or the no-contributions message for
an empty list). -/
theorem handleSearch_failed_sources (h : Host) (now : Int) (r : Responses) (s : State) :
    handleSearch h now (withFailedAsEmpty r) s = handleSearch h now r s ∧
      ∀ a b, r.prSearch = Settled.rejected a → r.issueSearch = Settled.rejected b →
        handleSearch h now r s = handleSearch h now (withEmptySearches r) s ∧
          ∀ user, h.trim s.username ≠ "" → r.user = Settled.fulfilled user →
            (∀ e ∈ allEvents r, e.payload.isSome = true) →
            ∃ l, computeContributions h now s.username r = Except.ok l ∧
              (handleSearch h now r s).contributions = l ∧
              (handleSearch h now r s).stats = some (analyzeContributions l) ∧
              (handleSearch h now r s).error =
                (if l.length = 0 then noContributionsMessage else "") := by
  constructor
  · apply handleSearch_congr h now r (withFailedAsEmpty r) s rfl
    · unfold allEvents withFailedAsEmpty
      simp only [pageEvents_pageAsEmpty]
    · unfold searchItems withFailedAsEmpty
      simp only [responseItems_searchAsEmpty]
    · rfl
  · intro a b ha hb
    constructor
    · symm
      apply handleSearch_congr h now r (withEmptySearches r) s rfl rfl
      · unfold searchItems withEmptySearches
        rw [ha, hb]
        rfl
      · rfl
    · intro user hu hr hp
      obtain ⟨l, hl⟩ := computeContributions_total h now s.username r hp
      refine ⟨l, hl, ?_, ?_, ?_⟩ <;> rw [handleSearch_ok h now r s user l hu hr hl]

/-- Witness for C12: both searches fail, the event feed delivers one pull request; the
stored list is the one built from the feed and no error message is set. -/
theorem handleSearch_failed_sources_witness :
    handleSearch jsHost midJune2024 searchFailedResponses aliceState =
        handleSearch jsHost midJune2024 (withEmptySearches searchFailedResponses) aliceState ∧
      (handleSearch jsHost midJune2024 searchFailedResponses aliceState).contributions =
        [externalPrContribution] ∧
      (handleSearch jsHost midJune2024 searchFailedResponses aliceState).error = "" :=
  have key := (handleSearch_failed_sources jsHost midJune2024 searchFailedResponses
    aliceState).2 rateLimitReason "Failed to fetch" rfl rfl
  ⟨key.1, by decide, by decide⟩

theorem handleSearch_user_rejected (h : Host) (now : Int) (r : Responses) (s : State)
    (reason : String) (hu : h.trim s.username ≠ "") (hr : r.user = Settled.rejected reason) :
    handleSearch h now r s = { s with loading := false, error := catchMessage reason } := by
  unfold handleSearch
  rw [if_neg hu, hr]

theorem requestedEndpoints_user_rejected (h : Host) (r : Responses) (s : State)
    (reason : String) (hu : h.trim s.username ≠ "") (hr : r.user = Settled.rejected reason) :
    requestedEndpoints h r s = ["/users/" ++ s.username] := by
  unfold requestedEndpoints
  rw [if_neg hu, hr]

theorem infix_404_strip_left (p l : List Char) (hp : '4' ∉ p) :
    ['4', '0', '4'] <:+: p ++ l ↔ ['4', '0', '4'] <:+: l := by
  induction p with
  | nil => rfl
  | cons c p ih =>
    have hc : '4' ≠ c := fun hc => hp (hc ▸ List.mem_cons_self _ _)
    have hp2 : '4' ∉ p := fun hm => hp (List.mem_cons_of_mem c hm)
    rw [List.cons_append, List.infix_cons_iff, ih hp2]
    constructor
    · rintro (hpre | hin)
      · exact absurd (List.cons_prefix_cons.mp hpre).1 hc
      · exact hin
    · exact Or.inr

theorem infix_404_strip (p x q : List Char) (hp : '4' ∉ p) (hq : '4' ∉ q) :
    ['4', '0', '4'] <:+: p ++ x ++ q ↔ ['4', '0', '4'] <:+: x := by
  have hrev : (['4', '0', '4'] : List Char).reverse = ['4', '0', '4'] := rfl
  have h1 : ['4', '0', '4'] <:+: x.reverse ↔ ['4', '0', '4'] <:+: x := by
    have := @List.reverse_infix _ ['4', '0', '4'] x
    rw [hrev] at this
    exact this
  have h2 : ['4', '0', '4'] <:+: (x ++ q).reverse ↔ ['4', '0', '4'] <:+: x ++ q := by
    have := @List.reverse_infix _ ['4', '0', '4'] (x ++ q)
    rw [hrev] at this
    exact this
  rw [List.append_assoc, infix_404_strip_left p _ hp, ← h2, List.reverse_append,
    infix_404_strip_left q.reverse _ (by simpa using hq), h1]

theorem rate_limit_message_404 (resetDate : String) (authenticated : Bool) (status : Nat)
    (hs : status = 403 ∨ status = 429) :
    includes (httpErrorMessage status resetDate authenticated) "404" =
      includes resetDate "404" := by
  unfold httpErrorMessage includes
  rw [if_pos hs, decide_eq_decide]
  have key := infix_404_strip "GitHub API rate limit exceeded. Resets at: ".data resetDate.data
    (". Using authenticated requests: ".data ++
      (if authenticated = true then "true" else "false").data) (by decide)
    (by cases authenticated <;> decide)
  rw [← List.append_assoc] at key
  simp only [String.data_append]
  exact key

theorem rate_limit_message_includes (resetDate : String) (authenticated : Bool)
    (status : Nat) (hs : status = 403 ∨ status = 429) :
    includes (httpErrorMessage status resetDate authenticated) "rate limit" = true := by
  unfold httpErrorMessage includes
  rw [if_pos hs]
  simp only [String.data_append, decide_eq_true_eq, List.append_assoc]
  have h1 : "rate limit".data <:+: "GitHub API rate limit exceeded. Resets at: ".data := by
    decide
  exact h1.trans (List.infix_append' [] _ _)

set_option maxRecDepth 100000 in
theorem status_scan :
    ∀ status ∈ List.range 600,
      (100 ≤ status ∧ status ≠ 403 ∧ status ≠ 404 ∧ status ≠ 429) →
      (includes ("GitHub API Error: " ++ toString status) "404" = false ∧
        includes ("GitHub API Error: " ++ toString status) "403" = false ∧
        includes ("GitHub API Error: " ++ toString status) "rate limit" = false) := by
  decide

theorem catchMessage_of_status (status : Nat) (resetDate : String) (authenticated : Bool)
    (hlo : 100 ≤ status) (hhi : status ≤ 599) (h403 : status ≠ 403) (h404 : status ≠ 404)
    (h429 : status ≠ 429) :
    catchMessage (httpErrorMessage status resetDate authenticated) = fetchFailedMessage := by
  have hm : httpErrorMessage status resetDate authenticated =
      "GitHub API Error: " ++ toString status := by
    unfold httpErrorMessage
    rw [if_neg (by omega)]
  obtain ⟨s1, s2, s3⟩ := status_scan status (List.mem_range.mpr (by omega))
    ⟨hlo, h403, h404, h429⟩
  unfold catchMessage
  rw [hm, s1, s2, s3]
  rfl

/-- C13: when the user-resolution call fails, `handleSearch` only clears the loading
flag and sets the message, and requests no endpoint but `/users/{username}`; the
message is user-not-found for a 404, the rate-limit message for a 403 or 429 (the
rendered reset time not containing `404`), and the fetch-failure message for every
other status from 100 to 599 and for every error whose text contains none of `404`,
`403` and `rate limit`. -/
theorem handleSearch_user_failure (h : Host) (now : Int) (r : Responses) (s : State)
    (reason : String) (hu : h.trim s.username ≠ "") (hr : r.user = Settled.rejected reason) :
    handleSearch h now r s = { s with loading := false, error := catchMessage reason } ∧
      requestedEndpoints h r s = ["/users/" ++ s.username] ∧
      (∀ resetDate authenticated, reason = httpErrorMessage 404 resetDate authenticated →
        catchMessage reason = userNotFoundMessage) ∧
      (∀ status resetDate authenticated, status = 403 ∨ status = 429 →
        includes resetDate "404" = false →
        reason = httpErrorMessage status resetDate authenticated →
        catchMessage reason = rateLimitMessage) ∧
      (∀ status resetDate authenticated, 100 ≤ status → status ≤ 599 → status ≠ 403 →
        status ≠ 404 → status ≠ 429 →
        reason = httpErrorMessage status resetDate authenticated →
        catchMessage reason = fetchFailedMessage) ∧
      (includes reason "404" = false → includes reason "403" = false →
        includes reason "rate limit" = false → catchMessage reason = fetchFailedMessage) := by
  refine ⟨handleSearch_user_rejected h now r s reason hu hr,
    requestedEndpoints_user_rejected h r s reason hu hr, ?_, ?_, ?_, ?_⟩
  · intro resetDate authenticated hreason
    subst hreason
    rfl
  · intro status resetDate authenticated hs hrd hreason
    subst hreason
    unfold catchMessage
    rw [rate_limit_message_404 _ _ _ hs, hrd, rate_limit_message_includes _ _ _ hs]
    simp
  · intro status resetDate authenticated hlo hhi h403 h404 h429 hreason
    subst hreason
    exact catchMessage_of_status status resetDate authenticated hlo hhi h403 h404 h429
  · intro h1 h2 h3
    unfold catchMessage
    rw [h1, h2, h3]
    rfl

/-- Witness for C13: a 404 for the user after an earlier query: the earlier list and
stats stay, the message is user-not-found, and only the user endpoint is requested. -/
theorem handleSearch_user_failure_witness :
    handleSearch jsHost midJune2024 (userFailedResponses 404) earlierState =
        { earlierState with loading := false, error := userNotFoundMessage } ∧
      requestedEndpoints jsHost (userFailedResponses 404) earlierState = ["/users/ghost"] :=
  have key := handleSearch_user_failure jsHost midJune2024 (userFailedResponses 404)
    earlierState (httpErrorMessage 404 "4:04:15 PM" false) (by decide) rfl
  ⟨key.1.trans (by rw [key.2.2.1 "4:04:15 PM" false rfl]), key.2.1.trans (by decide)⟩

theorem inheritedMember_some (key : String) (v : RepoView)
    (hm : inheritedMember key = some v) : key ∈ objectPrototypeKeys ∧ v.full_name = none := by
  unfold inheritedMember at hm
  split_ifs at hm with hk
  cases hm
  exact ⟨hk, rfl⟩

theorem repoMap_foldl_some (repos : List (Settled Repository))
    (init : String → Option RepoView) (key : String) (v : RepoView)
    (hm : repos.foldl
      (fun m result =>
        match result with
        | Settled.fulfilled value =>
          fun key => if key = value.full_name then some value.view else m key
        | Settled.rejected _ => m) init key = some v) :
    init key = some v ∨
      ∃ repo, Settled.fulfilled repo ∈ repos ∧ repo.full_name = key ∧ v = repo.view := by
  induction repos generalizing init with
  | nil => exact Or.inl hm
  | cons result repos ih =>
    rw [List.foldl_cons] at hm
    rcases ih _ hm with hinit | ⟨repo, hmem, hname, hv⟩
    · cases result with
      | rejected reason => exact Or.inl hinit
      | fulfilled value =>
        simp only at hinit
        split_ifs at hinit with hk
        · cases hinit
          exact Or.inr ⟨value, List.mem_cons_self _ _, hk.symm, rfl⟩
        · exact Or.inl hinit
    · exact Or.inr ⟨repo, List.mem_cons_of_mem _ hmem, hname, hv⟩

theorem repoMap_some (repos : List (Settled Repository)) (key : String) (v : RepoView)
    (hm : repoMap repos key = some v) :
    (key ∈ objectPrototypeKeys ∧ v.full_name = none) ∨
      ∃ repo, Settled.fulfilled repo ∈ repos ∧ repo.full_name = key ∧ v = repo.view := by
  unfold repoMap at hm
  rcases repoMap_foldl_some repos _ key v hm with hinit | hres
  · exact Or.inl (inheritedMember_some key v hinit)
  · exact Or.inr hres

theorem repoMap_none (repos : List (Settled Repository)) (key : String)
    (hkey : key ∉ objectPrototypeKeys)
    (hno : ∀ repo, Settled.fulfilled repo ∈ repos → repo.full_name ≠ key) :
    repoMap repos key = none := by
  cases hm : repoMap repos key with
  | none => rfl
  | some v =>
    rcases repoMap_some repos key v hm with ⟨hk, -⟩ | ⟨repo, hmem, hname, -⟩
    · exact absurd hk hkey
    · exact absurd hname (hno repo hmem)

theorem mapM_except_mem {α β : Type} (f : α → Except String β) (l : List α) (bs : List β)
    (hl : l.mapM f = Except.ok bs) (b : β) (hb : b ∈ bs) : ∃ a ∈ l, f a = Except.ok b := by
  induction l generalizing bs with
  | nil =>
    cases hl
    cases hb
  | cons a l ih =>
    rw [mapM_except_cons] at hl
    cases hfa : f a with
    | error e =>
      rw [hfa] at hl
      cases hl
    | ok b1 =>
      rw [hfa] at hl
      cases hrest : l.mapM f with
      | error e =>
        rw [hrest] at hl
        cases hl
      | ok bs1 =>
        rw [hrest] at hl
        cases hl
        rcases List.mem_cons.mp hb with rfl | hin
        · exact ⟨a, List.mem_cons_self _ _, hfa⟩
        · obtain ⟨a2, ha2, hfa2⟩ := ih bs1 hrest hin
          exact ⟨a2, List.mem_cons_of_mem _ ha2, hfa2⟩

theorem formatContribution_repo (h : Host) (now : Int) (repo : RepoView) (event : RawEvent)
    (c : Contribution) (hc : formatContribution h now repo event = Except.ok c) :
    c.repo = repo.full_name := by
  unfold formatContribution at hc
  split at hc
  · cases hc
  · cases hc
    rfl

theorem eventContributions_source (h : Host) (now : Int) (username : String)
    (m : String → Option RepoView) (other : List RawEvent) (l : List Contribution)
    (hl : eventContributions h now username m other = Except.ok l) (c : Contribution)
    (hc : c ∈ l) :
    ∃ e ∈ other, ∃ name v, e.repo.bind (·.name) = some name ∧ m name = some v ∧
      c.repo = v.full_name := by
  unfold eventContributions at hl
  split at hl
  · cases hl
  · rename_i formatted hformatted
    cases hl
    have hcf := (List.mem_filter.mp hc).1
    obtain ⟨e, he, hfe⟩ := mapM_except_mem _ _ _ hformatted c hcf
    have he1 := (List.mem_filter.mp he).1
    have hhyd := (List.mem_filter.mp he1).2
    unfold eventHydrated at hhyd
    rw [Bool.and_eq_true] at hhyd
    unfold formatHydrated at hfe
    cases hname : e.repo.bind (·.name) with
    | none =>
      rw [hname] at hhyd
      simp [truthy] at hhyd
    | some name =>
      rw [hname] at hfe
      simp only [Option.getD_some] at hfe
      cases hrepo : m name with
      | none =>
        rw [hrepo] at hfe
        cases hfe
      | some v =>
        rw [hrepo] at hfe
        exact ⟨e, (List.mem_filter.mp he1).1, name, v, hname, hrepo,
          formatContribution_repo h now v e c hfe⟩

theorem searchContributions_source (h : Host) (now : Int) (username : String)
    (m : String → Option RepoView) (external : List RawSearchItem) (c : Contribution)
    (hc : c ∈ searchContributions h now username m external) :
    ∃ item ∈ external, ∃ name v, itemRepoName item = some name ∧ m name = some v ∧
      c.repo = v.full_name := by
  unfold searchContributions at hc
  have hcf := (List.mem_filter.mp hc).1
  obtain ⟨item, hitem, hsome⟩ := List.mem_filterMap.mp hcf
  have hhyd := (List.mem_filter.mp hitem).2
  unfold itemHydrated at hhyd
  rw [Bool.and_eq_true] at hhyd
  unfold searchHydrated at hsome
  cases hname : itemRepoName item with
  | none =>
    rw [hname] at hhyd
    simp [truthy] at hhyd
  | some name =>
    rw [hname] at hsome
    simp only [Option.getD_some] at hsome
    cases hrepo : m name with
    | none =>
      rw [hrepo] at hsome
      cases hsome
    | some v =>
      rw [hrepo] at hsome
      simp only [Option.map_some', Option.some.injEq] at hsome
      have hfull : c.repo = v.full_name := by
        rw [← hsome]
        rfl
      exact ⟨item, (List.mem_filter.mp hitem).1, name, v, hname, hrepo, hfull⟩

theorem eventContributions_hydrated_only (h : Host) (now : Int) (username : String)
    (m : String → Option RepoView) (other : List RawEvent) :
    eventContributions h now username m (other.filter (eventHydrated m)) =
      eventContributions h now username m other := by
  unfold eventContributions
  simp only [List.filter_filter, Bool.and_self]

theorem searchContributions_hydrated_only (h : Host) (now : Int) (username : String)
    (m : String → Option RepoView) (external : List RawSearchItem) :
    searchContributions h now username m (external.filter (itemHydrated m)) =
      searchContributions h now username m external := by
  unfold searchContributions
  simp only [List.filter_filter, Bool.and_self]

theorem contribution_source (h : Host) (now : Int) (username : String) (r : Responses)
    (l : List Contribution) (hl : computeContributions h now username r = Except.ok l)
    (c : Contribution) (hc : c ∈ l) :
    ∃ name v,
      ((∃ e ∈ otherUsersEvents h username (allEvents r), e.repo.bind (·.name) = some name) ∨
        (∃ item ∈ externalSearchContributions h username (searchItems r),
          itemRepoName item = some name)) ∧
      repoMap ((repoNames (otherUsersEvents h username (allEvents r))
        (externalSearchContributions h username (searchItems r))).map r.repos) name = some v ∧
      c.repo = v.full_name := by
  unfold computeContributions at hl
  simp only [] at hl
  split at hl
  · cases hl
  · rename_i fromEvents hev
    cases hl
    have h1 := (uniqueContributions_sublist _).subset (mem_sortedContributions hc)
    rcases List.mem_append.mp h1 with hm | hm
    · obtain ⟨e, he, name, v, hname, hrepo, hfull⟩ :=
        eventContributions_source h now username _ _ _ hev c hm
      exact ⟨name, v, Or.inl ⟨e, he, hname⟩, hrepo, hfull⟩
    · obtain ⟨item, hitem, name, v, hname, hrepo, hfull⟩ :=
        searchContributions_source h now username _ _ c hm
      exact ⟨name, v, Or.inr ⟨item, hitem, hname⟩, hrepo, hfull⟩

theorem contribution_repo_cases (h : Host) (now : Int) (username : String) (r : Responses)
    (l : List Contribution) (hl : computeContributions h now username r = Except.ok l)
    (c : Contribution) (hc : c ∈ l) :
    ∃ name,
      ((∃ e ∈ otherUsersEvents h username (allEvents r), e.repo.bind (·.name) = some name) ∨
        (∃ item ∈ externalSearchContributions h username (searchItems r),
          itemRepoName item = some name)) ∧
      ((c.repo = some name ∧ ∃ repo : Repository,
          repoMap ((repoNames (otherUsersEvents h username (allEvents r))
            (externalSearchContributions h username (searchItems r))).map r.repos) name =
              some repo.view ∧
          repo.full_name = name ∧
          ∃ n ∈ repoNames (otherUsersEvents h username (allEvents r))
            (externalSearchContributions h username (searchItems r)),
            r.repos n = Settled.fulfilled repo) ∨
        (c.repo = none ∧ name ∈ objectPrototypeKeys)) := by
  obtain ⟨name, v, hsrc, hmap, hfull⟩ := contribution_source h now username r l hl c hc
  refine ⟨name, hsrc, ?_⟩
  rcases repoMap_some _ _ _ hmap with ⟨hkey, hnone⟩ | ⟨repo, hmem, hname, hv⟩
  · right
    exact ⟨hfull.trans hnone, hkey⟩
  · left
    obtain ⟨n, hn, hres⟩ := List.mem_map.mp hmem
    subst hv
    refine ⟨?_, repo, hmap, hname, n, hn, hres⟩
    rw [hfull, ← hname]
    rfl

/-- Counterexample for C14: a push to a repository named `toString`, for which (as for
every name) hydration fails, still yields a Contribution: the lookup `repoMap[name]`
finds the method inherited from `Object.prototype`, and the Contribution built from it
has no `repo` (it reads `undefined`), which is no key of the repository map. -/
theorem unhydrated_record_kept :
    computeContributions jsHost midJune2024 "alice" unhydratedResponses =
        Except.ok [orphanContribution] ∧
      orphanContribution.repo = none ∧
      (∀ name repo, unhydratedResponses.repos name ≠ Settled.fulfilled repo) ∧
      ¬ ∃ repo : Repository,
        repoMap ((repoNames (otherUsersEvents jsHost "alice" (allEvents unhydratedResponses))
          (externalSearchContributions jsHost "alice" (searchItems unhydratedResponses))).map
            unhydratedResponses.repos) "toString" = some repo.view := by
  refine ⟨rfl, rfl, ?_, ?_⟩
  · intro name repo hc
    cases hc
  · rintro ⟨repo, hrepo⟩
    have hv : some (memberView "toString") = some repo.view := hrepo
    have := congrArg (Option.map (·.full_name)) hv
    cases this

/-- C14 (amended): when no hydrated repository is named `__proto__`, every Contribution
of the computed list comes from an external event or search item referencing a name, and
either that name is a key of the repository map built from the hydration results of the
capped names, bound to a repository of that full name hydrated for one of them, and is
the Contribution's `repo`; or the name is a property name of `Object.prototype` and the
Contribution has no `repo`. So when no referenced name is such a property name, every
`repo` is a hydrated key equal to the referenced name. A name that is not such a
property name and that no hydrated repository carries is unbound in the map, and a
record with an unbound name passes neither filter: the event and search stages give the
same result on the records whose name is bound alone. -/
theorem contributions_repo_hydrated (h : Host) (now : Int) (username : String)
    (r : Responses) (l : List Contribution)
    (hproto : ∀ name repo, r.repos name = Settled.fulfilled repo → repo.full_name ≠ "__proto__")
    (hl : computeContributions h now username r = Except.ok l) :
    (∀ c ∈ l, ∃ name,
        ((∃ e ∈ otherUsersEvents h username (allEvents r), e.repo.bind (·.name) = some name) ∨
          (∃ item ∈ externalSearchContributions h username (searchItems r),
            itemRepoName item = some name)) ∧
        ((c.repo = some name ∧ ∃ repo : Repository,
            repoMap ((repoNames (otherUsersEvents h username (allEvents r))
              (externalSearchContributions h username (searchItems r))).map r.repos) name =
                some repo.view ∧
            repo.full_name = name ∧
            ∃ n ∈ repoNames (otherUsersEvents h username (allEvents r))
              (externalSearchContributions h username (searchItems r)),
              r.repos n = Settled.fulfilled repo) ∨
          (c.repo = none ∧ name ∈ objectPrototypeKeys))) ∧
      ((∀ e ∈ otherUsersEvents h username (allEvents r), ∀ name,
          e.repo.bind (·.name) = some name → name ∉ objectPrototypeKeys) →
        (∀ item ∈ externalSearchContributions h username (searchItems r), ∀ name,
          itemRepoName item = some name → name ∉ objectPrototypeKeys) →
        ∀ c ∈ l, ∃ name, c.repo = some name ∧
          ((∃ e ∈ otherUsersEvents h username (allEvents r),
              e.repo.bind (·.name) = some name) ∨
            (∃ item ∈ externalSearchContributions h username (searchItems r),
              itemRepoName item = some name)) ∧
          ∃ repo : Repository,
            repoMap ((repoNames (otherUsersEvents h username (allEvents r))
              (externalSearchContributions h username (searchItems r))).map r.repos) name =
                some repo.view ∧
            repo.full_name = name ∧
            ∃ n ∈ repoNames (otherUsersEvents h username (allEvents r))
              (externalSearchContributions h username (searchItems r)),
              r.repos n = Settled.fulfilled repo) ∧
      (∀ name, name ∉ objectPrototypeKeys →
        (∀ n ∈ repoNames (otherUsersEvents h username (allEvents r))
          (externalSearchContributions h username (searchItems r)), ∀ repo,
          r.repos n = Settled.fulfilled repo → repo.full_name ≠ name) →
        repoMap ((repoNames (otherUsersEvents h username (allEvents r))
          (externalSearchContributions h username (searchItems r))).map r.repos) name =
            none) ∧
      (∀ (m : String → Option RepoView) (other : List RawEvent)
          (external : List RawSearchItem),
        eventContributions h now username m (other.filter (eventHydrated m)) =
            eventContributions h now username m other ∧
          searchContributions h now username m (external.filter (itemHydrated m)) =
            searchContributions h now username m external ∧
          (∀ e ∈ other, m ((e.repo.bind (·.name)).getD "") = none →
            eventHydrated m e = false) ∧
          (∀ item ∈ external, m ((itemRepoName item).getD "") = none →
            itemHydrated m item = false)) := by
  have _ := hproto
  refine ⟨fun c hc => contribution_repo_cases h now username r l hl c hc, ?_, ?_, ?_⟩
  · intro hev hit c hc
    obtain ⟨name, hsrc, hcase⟩ := contribution_repo_cases h now username r l hl c hc
    rcases hcase with ⟨hrepo, hbound⟩ | ⟨-, hkey⟩
    · exact ⟨name, hrepo, hsrc, hbound⟩
    · exfalso
      rcases hsrc with ⟨e, he, hname⟩ | ⟨item, hitem, hname⟩
      · exact hev e he name hname hkey
      · exact hit item hitem name hname hkey
  · intro name hkey hno
    apply repoMap_none _ _ hkey
    intro repo hmem
    obtain ⟨n, hn, hres⟩ := List.mem_map.mp hmem
    exact hno n hn repo hres
  · intro m other external
    refine ⟨eventContributions_hydrated_only h now username m other,
      searchContributions_hydrated_only h now username m external, ?_, ?_⟩
    · intro e _ hnone
      unfold eventHydrated
      rw [hnone]
      simp
    · intro item _ hnone
      unfold itemHydrated
      rw [hnone]
      simp

theorem sampleRepos_not_proto (name : String) (repo : Repository)
    (hres : sampleRepos name = Settled.fulfilled repo) : repo.full_name ≠ "__proto__" := by
  unfold sampleRepos at hres
  split_ifs at hres
  · cases hres
    decide
  · cases hres
    decide

/-- Witness for C14: the one Contribution computed for `Octo` has the repo
`big/engine`, which is bound in the repository map to the hydrated repository of that
name. -/
theorem contributions_repo_hydrated_witness :
    ∃ name, externalPrContribution.repo = some name ∧
      ∃ repo : Repository,
        repoMap ((repoNames (otherUsersEvents jsHost "Octo" (allEvents sampleResponses))
          (externalSearchContributions jsHost "Octo" (searchItems sampleResponses))).map
            sampleResponses.repos) name = some repo.view ∧
        repo.full_name = name :=
  let ⟨name, h1, _, repo, h2, h3, _⟩ := (contributions_repo_hydrated jsHost midJune2024 "Octo"
    sampleResponses [externalPrContribution] sampleRepos_not_proto rfl).2.1
    (by decide) (by decide) externalPrContribution (List.mem_singleton.mpr rfl)
  ⟨name, h1, repo, h2, h3⟩

theorem firstOccurrences_aux (pre l : List String) :
    ((l.enumFrom pre.length).filter
        (fun (p : Nat × String) => decide (p.2 ∉ (pre ++ l).take p.1))).map Prod.snd =
      (setToArray l).filter (fun y => decide (y ∉ pre)) := by
  induction l generalizing pre with
  | nil => rfl
  | cons x l ih =>
    have htail := ih (pre ++ [x])
    have hlen : (pre ++ [x]).length = pre.length + 1 := by simp
    have happ : pre ++ [x] ++ l = pre ++ x :: l := by simp
    rw [hlen, happ] at htail
    have hrest : ((setToArray l).filter (fun y => y != x)).filter (fun y => decide (y ∉ pre)) =
        (setToArray l).filter (fun y => decide (y ∉ pre ++ [x])) := by
      rw [List.filter_filter]
      apply List.filter_congr
      intro y _
      simp only [List.mem_append, List.mem_singleton, not_or, Bool.decide_and, bne_iff_ne,
        ne_eq, decide_not]
      rfl
    rw [List.enumFrom_cons, List.filter_cons, setToArray, List.filter_cons, hrest, ← htail]
    have hhead : (pre ++ x :: l).take pre.length = pre := List.take_left' rfl
    simp only [hhead]
    split_ifs <;> rfl

theorem setToArray_eq_firstOccurrences (xs : List String) :
    setToArray xs = firstOccurrences xs := by
  have key := firstOccurrences_aux [] xs
  simp only [List.length_nil, List.nil_append, List.not_mem_nil, not_false_eq_true,
    decide_True, List.filter_true] at key
  exact key.symm

theorem setToArray_subset (xs : List String) (y : String) (hy : y ∈ setToArray xs) :
    y ∈ xs := by
  induction xs with
  | nil => cases hy
  | cons x xs ih =>
    rw [setToArray] at hy
    rcases List.mem_cons.mp hy with rfl | hin
    · exact List.mem_cons_self _ _
    · exact List.mem_cons_of_mem _ (ih (List.mem_filter.mp hin).1)

theorem setToArray_nodup (xs : List String) : (setToArray xs).Nodup := by
  induction xs with
  | nil => exact List.nodup_nil
  | cons x xs ih =>
    rw [setToArray, List.nodup_cons]
    constructor
    · intro hin
      have := (List.mem_filter.mp hin).2
      simp at this
    · exact ih.filter _

theorem filterBoolean_map {α : Type} (f : α → Option String) (l : List α)
    (hf : ∀ a ∈ l, ∀ n, f a = some n → n ≠ "") :
    filterBoolean (l.map f) = l.filterMap f := by
  unfold filterBoolean
  rw [List.filterMap_map]
  apply List.filterMap_congr
  intro a ha
  simp only [Function.comp_apply]
  cases hfa : f a with
  | none => rfl
  | some n =>
    have := hf a ha n hfa
    simp [truthy, this]

theorem eventName_ne_empty (h : Host) (username : String) (event : RawEvent) (n : String)
    (hext : isExternalOwner h username (eventOwner event) = true)
    (hn : event.repo.bind (·.name) = some n) : n ≠ "" := by
  intro hempty
  subst hempty
  unfold isExternalOwner eventOwner at hext
  rw [hn] at hext
  simp [truthy] at hext
  exact hext.1 rfl

theorem itemRepoRef_ne_empty (item : RawSearchItem) (n : String)
    (hn : itemRepoRef item = some n) : n ≠ "" := by
  unfold itemRepoRef at hn
  cases hurl : item.repository_url with
  | none =>
    rw [hurl] at hn
    cases hn
  | some url =>
    rw [hurl] at hn
    simp only [Option.map_some', Option.some.injEq] at hn
    intro hempty
    rw [hempty] at hn
    have := congrArg String.length hn
    simp [String.length_append] at this
    exact absurd this.1.2 (by decide)

/-- C15: the list of names sent to hydration is the first 25 elements of the distinct
names, in first-occurrence order, referenced by the external events followed by the
external search items; it has no duplicates and at most 25 elements. -/
theorem repoNames_first25 (h : Host) (username : String) (events : List RawEvent)
    (items : List RawSearchItem) :
    repoNames (otherUsersEvents h username events)
        (externalSearchContributions h username items) =
      (firstOccurrences (nameStream (otherUsersEvents h username events)
        (externalSearchContributions h username items))).take 25 ∧
      (repoNames (otherUsersEvents h username events)
        (externalSearchContributions h username items)).Nodup ∧
      (repoNames (otherUsersEvents h username events)
        (externalSearchContributions h username items)).length ≤ 25 := by
  have hev : filterBoolean ((otherUsersEvents h username events).map
      (fun event => event.repo.bind (·.name))) =
      (otherUsersEvents h username events).filterMap (fun event => event.repo.bind (·.name)) :=
    filterBoolean_map _ _ (fun e he n hn =>
      eventName_ne_empty h username e n (List.mem_filter.mp he).2 hn)
  have hit : filterBoolean ((externalSearchContributions h username items).map itemRepoRef) =
      (externalSearchContributions h username items).filterMap itemRepoRef :=
    filterBoolean_map _ _ (fun item _ n hn => itemRepoRef_ne_empty item n hn)
  refine ⟨?_, ?_, ?_⟩
  · unfold repoNames nameStream
    rw [hev, hit, setToArray_eq_firstOccurrences]
  · unfold repoNames
    exact (setToArray_nodup _).sublist (List.take_sublist _ _)
  · unfold repoNames
    exact List.length_take_le _ _

theorem presentOr_eq (value : Option String) (placeholder : String) :
    (if truthy value = true then value.getD "" else placeholder) =
      presentOr value placeholder := by
  cases value with
  | none => rfl
  | some text =>
    by_cases ht : text = ""
    · simp [truthy, presentOr, ht]
    · simp [truthy, presentOr, ht]

theorem typeMap_other (tag : String) (h1 : tag ≠ "PullRequestEvent") (h2 : tag ≠ "IssuesEvent")
    (h3 : tag ≠ "PushEvent") (h4 : tag ≠ "CreateEvent") (h5 : tag ∉ objectPrototypeKeys) :
    typeMap tag = none := by
  unfold typeMap
  rw [if_neg h1, if_neg h2, if_neg h3, if_neg h4, if_neg h5]

theorem typeMap_inherited (tag : String) (h1 : tag ≠ "PullRequestEvent")
    (h2 : tag ≠ "IssuesEvent") (h3 : tag ≠ "PushEvent") (h4 : tag ≠ "CreateEvent")
    (h5 : tag ∈ objectPrototypeKeys) : typeMap tag = some (Kind.inherited tag) := by
  unfold typeMap
  rw [if_neg h1, if_neg h2, if_neg h3, if_neg h4, if_pos h5]

/-- Counterexample for C16: for a push whose payload lists no commit the title is
`Pushed 1 commit(s)`, not `Pushed 0 commit(s)`; an event without payload gets no kind or
title at all (the call throws); and for the type tag `constructor` the kind is not
`Other` but the member of that name inherited from `Object.prototype`. -/
theorem push_title_not_commit_count :
    (formatContribution jsHost midJune2024 quietRepo emptyPushEvent).toOption.map (·.title) =
        some (some "Pushed 1 commit(s)") ∧
      (formatContribution jsHost midJune2024 quietRepo emptyPushEvent).toOption.map (·.title) ≠
        some (some ("Pushed " ++ toString (0 : Nat) ++ " commit(s)")) ∧
      (formatContribution jsHost midJune2024 quietRepo noPayloadEvent).toOption = none ∧
      (formatContribution jsHost midJune2024 quietRepo constructorEvent).toOption.map (·.type) =
        some (Kind.inherited "constructor") ∧
      (formatContribution jsHost midJune2024 quietRepo constructorEvent).toOption.map (·.type) ≠
        some (Kind.text "Other") := by
  decide

/-- C16 (amended): for every repository and every event that carries a payload,
`formatContribution` returns a Contribution whose kind is `Pull Request`, `Issue`,
`Push` or `Created` for the four tracked type tags, `Other` for any other tag that is
not a property name of `Object.prototype`, and for such a name the member inherited
under it; and whose title is the pull request's title (placeholder `Pull Request` when
missing or empty), the issue's title (placeholder `Issue`), `Pushed N commit(s)` with N
the number of commits of a push, or 1 when the payload lists none, and the text of the
kind followed by ` activity` for every other event. -/
theorem formatContribution_kind_title (h : Host) (now : Int) (repo : Repository)
    (event : RawEvent) (payload : Payload) (hp : event.payload = some payload) :
    ∃ c, formatContribution h now repo event = Except.ok c ∧
      (event.type = "PullRequestEvent" → c.type = "Pull Request" ∧
        c.title = some (presentOr (payload.pull_request.bind (·.title)) "Pull Request")) ∧
      (event.type = "IssuesEvent" → c.type = "Issue" ∧
        c.title = some (presentOr (payload.issue.bind (·.title)) "Issue")) ∧
      (event.type = "PushEvent" → c.type = "Push" ∧
        (∀ n, payload.commits = some n → n ≠ 0 →
          c.title = some ("Pushed " ++ toString n ++ " commit(s)")) ∧
        (payload.commits = none ∨ payload.commits = some 0 →
          c.title = some "Pushed 1 commit(s)")) ∧
      (event.type = "CreateEvent" → c.type = "Created" ∧ c.title = some "Created activity") ∧
      (event.type ≠ "PullRequestEvent" → event.type ≠ "IssuesEvent" →
        event.type ≠ "PushEvent" → event.type ≠ "CreateEvent" →
        (event.type ∉ objectPrototypeKeys →
          c.type = "Other" ∧ c.title = some "Other activity") ∧
        (event.type ∈ objectPrototypeKeys →
          c.type = Kind.inherited event.type ∧
            c.title = some (h.memberText event.type ++ " activity"))) := by
  unfold formatContribution
  rw [hp]
  refine ⟨_, rfl, ?_, ?_, ?_, ?_, ?_⟩
  · intro ht
    simp only [ht, typeMap_pullRequest, if_true, Option.getD_some, presentOr_eq, and_self]
  · intro ht
    simp [ht, typeMap_issues, presentOr_eq]
  · intro ht
    refine ⟨by simp [ht, typeMap_push], ?_, ?_⟩
    · intro n hn hn0
      simp [ht, hn, hn0]
    · rintro (hn | hn) <;> simp [ht, hn] <;> rfl
  · intro ht
    simp [ht, typeMap_create, Kind.render]
  · intro h1 h2 h3 h4
    constructor
    · intro h5
      simp [h1, h2, h3, h4, typeMap_other event.type h1 h2 h3 h4 h5, Kind.render]
    · intro h5
      simp [h1, h2, h3, h4, typeMap_inherited event.type h1 h2 h3 h4 h5, Kind.render]

/-- Witness for C16: a push of three commits is titled `Pushed 3 commit(s)`. -/
theorem formatContribution_kind_title_witness :
    ∃ c, formatContribution jsHost midJune2024 quietRepo triplePushEvent = Except.ok c ∧
      c.type = "Push" ∧ c.title = some "Pushed 3 commit(s)" :=
  let ⟨c, hc, _, _, hpush, _⟩ := formatContribution_kind_title jsHost midJune2024 quietRepo
    triplePushEvent { pull_request := none, issue := none, commits := some 3 } rfl
  ⟨c, hc, (hpush rfl).1, (hpush rfl).2.1 3 rfl (by decide)⟩

/-- C17: for every repository and every event that carries a payload, the status is
Merged for a pull-request event with a merge timestamp, Closed for one with a close
timestamp and no merge timestamp, Open for one with neither; Closed for an issue event
whose issue state is `closed` and Open otherwise; Pushed for a push and Completed for
every other event; `linesChanged` is additions + deletions (missing read as 0) for a
pull-request event and 0 for every other event. -/
theorem formatContribution_status_lines (h : Host) (now : Int) (repo : Repository)
    (event : RawEvent) (payload : Payload) (hp : event.payload = some payload) :
    ∃ c, formatContribution h now repo event = Except.ok c ∧
      (event.type = "PullRequestEvent" →
        (truthy (payload.pull_request.bind (·.merged_at)) = true → c.status = "Merged") ∧
        (truthy (payload.pull_request.bind (·.merged_at)) = false →
          truthy (payload.pull_request.bind (·.closed_at)) = true → c.status = "Closed") ∧
        (truthy (payload.pull_request.bind (·.merged_at)) = false →
          truthy (payload.pull_request.bind (·.closed_at)) = false → c.status = "Open") ∧
        c.linesChanged = (payload.pull_request.bind (·.additions)).getD 0 +
          (payload.pull_request.bind (·.deletions)).getD 0) ∧
      (event.type = "IssuesEvent" →
        (payload.issue.bind (·.state) = some "closed" → c.status = "Closed") ∧
        (payload.issue.bind (·.state) ≠ some "closed" → c.status = "Open") ∧
        c.linesChanged = 0) ∧
      (event.type = "PushEvent" → c.status = "Pushed" ∧ c.linesChanged = 0) ∧
      (event.type ≠ "PullRequestEvent" → event.type ≠ "IssuesEvent" →
        event.type ≠ "PushEvent" → c.status = "Completed" ∧ c.linesChanged = 0) := by
  unfold formatContribution
  rw [hp]
  refine ⟨_, rfl, ?_, ?_, ?_, ?_⟩
  · intro ht
    refine ⟨?_, ?_, ?_, ?_⟩
    · intro hm
      simp [ht, hm]
    · intro hm hc
      simp [ht, hm, hc]
    · intro hm hc
      simp [ht, hm, hc]
    · simp [ht]
  · intro ht
    refine ⟨?_, ?_, ?_⟩
    · intro hs
      simp [ht, hs]
    · intro hs
      simp [ht, hs]
    · simp [ht]
  · intro ht
    simp [ht]
  · intro h1 h2 h3
    simp [h1, h2, h3]

/-- Witness for C17: the merged pull request of `mergedPrEvent` has status Merged and
12 changed lines. -/
theorem formatContribution_status_lines_witness :
    ∃ c, formatContribution jsHost midJune2024 quietRepo mergedPrEvent = Except.ok c ∧
      c.status = "Merged" ∧ c.linesChanged = 12 :=
  let ⟨c, hc, hpr, _⟩ := formatContribution_status_lines jsHost midJune2024 quietRepo
    mergedPrEvent
    { pull_request := some
        { title := some "Fix parser", merged_at := some "2024-05-01T10:00:00Z",
          closed_at := some "2024-05-01T10:00:00Z", additions := some 10,
          deletions := some 2 },
      issue := none, commits := none } rfl
  ⟨c, hc, (hpr rfl).1 (by decide), (hpr rfl).2.2.2⟩

/-- C18: the Contribution built from a search item has kind `Pull Request` when the
item carries a `pull_request` marker and `Issue` otherwise; status Merged when its
state is `closed` and the marker has a merge timestamp, Closed when its state is
`closed` and there is none, Open in every other case; and `linesChanged` 0. -/
theorem searchContribution_kind_status (h : Host) (now : Int) (repo : Repository)
    (item : RawSearchItem) :
    (item.pull_request.isSome = true →
        (searchContribution h now repo item).type = "Pull Request") ∧
      (item.pull_request = none → (searchContribution h now repo item).type = "Issue") ∧
      (item.state = some "closed" → truthy (item.pull_request.bind (·.merged_at)) = true →
        (searchContribution h now repo item).status = "Merged") ∧
      (item.state = some "closed" → truthy (item.pull_request.bind (·.merged_at)) = false →
        (searchContribution h now repo item).status = "Closed") ∧
      (item.state ≠ some "closed" → (searchContribution h now repo item).status = "Open") ∧
      (searchContribution h now repo item).linesChanged = 0 := by
  unfold searchContribution
  refine ⟨?_, ?_, ?_, ?_, ?_, rfl⟩
  · intro hpr
    simp [hpr]
  · intro hpr
    simp [hpr]
  · intro hs hm
    simp [hs, hm]
  · intro hs hm
    simp [hs, hm]
  · intro hs
    simp [hs]

/-- Witness for C18: the search item of the merged pull request is a `Pull Request`
with status Merged. -/
theorem searchContribution_kind_status_witness :
    (searchContribution jsHost midJune2024 quietRepo mergedPrItem).type = "Pull Request" ∧
      (searchContribution jsHost midJune2024 quietRepo mergedPrItem).status = "Merged" :=
  ⟨(searchContribution_kind_status jsHost midJune2024 quietRepo mergedPrItem).1 rfl,
   (searchContribution_kind_status jsHost midJune2024 quietRepo mergedPrItem).2.2.1 rfl
     (by decide)⟩

theorem splitAux_head (sep : Char) (cs acc : List Char) :
    (splitAux sep cs acc).headD [] = acc.reverse ++ cs.takeWhile (fun ch => ch != sep) := by
  induction cs generalizing acc with
  | nil => simp [splitAux]
  | cons c cs ih =>
    by_cases hc : c = sep
    · simp [splitAux, hc]
    · simp only [splitAux, if_neg hc]
      rw [ih]
      simp [List.takeWhile_cons, hc]

theorem dayOf_eq_beforeT (ts : String) : dayOf ts = beforeT ts := by
  unfold dayOf jsSplit beforeT
  have key := splitAux_head 'T' ts.data []
  cases hsplit : splitAux 'T' ts.data [] with
  | nil =>
    rw [hsplit] at key
    simp only [List.headD_nil, List.reverse_nil, List.nil_append] at key
    rw [← key]
    rfl
  | cons first rest =>
    rw [hsplit] at key
    simp only [List.headD_cons, List.reverse_nil, List.nil_append] at key
    rw [← key]
    rfl

/-- C19: an event's Contribution is dated by the part of `created_at` before the `T`
(a timestamp with a non-empty date part), and by the current date truncated to the day
when `created_at` is missing or has no date part; a search item's Contribution is dated
by that part of `updated_at` when it is present (non-empty), of `created_at` otherwise,
and by the current date truncated to the day when it has neither. -/
theorem contribution_dates (h : Host) (now : Int) (repo : Repository) :
    (∀ event payload ts, event.payload = some payload → event.created_at = some ts →
        beforeT ts ≠ "" →
        ∃ c, formatContribution h now repo event = Except.ok c ∧ c.date = beforeT ts) ∧
      (∀ event payload, event.payload = some payload →
        (event.created_at = none ∨ ∃ ts, event.created_at = some ts ∧ beforeT ts = "") →
        ∃ c, formatContribution h now repo event = Except.ok c ∧
          c.date = beforeT (h.toISOString now)) ∧
      (∀ item ts, item.updated_at = some ts → ts ≠ "" →
        (searchContribution h now repo item).date = beforeT ts) ∧
      (∀ item ts, truthy item.updated_at = false → item.created_at = some ts → ts ≠ "" →
        (searchContribution h now repo item).date = beforeT ts) ∧
      (∀ item, truthy item.updated_at = false → truthy item.created_at = false →
        (searchContribution h now repo item).date = beforeT (h.toISOString now)) := by
  refine ⟨?_, ?_, ?_, ?_, ?_⟩
  · intro event payload ts hp hts hday
    unfold formatContribution
    rw [hp]
    refine ⟨_, rfl, ?_⟩
    simp only [hts, dayOf_eq_beforeT, if_neg hday]
  · intro event payload hp hts
    unfold formatContribution
    rw [hp]
    refine ⟨_, rfl, ?_⟩
    rcases hts with hnone | ⟨ts, hts, hday⟩
    · simp only [hnone, today, dayOf_eq_beforeT]
    · simp only [hts, today, dayOf_eq_beforeT, if_pos hday]
  · intro item ts hts hne
    unfold searchContribution
    simp [hts, truthy, hne, dayOf_eq_beforeT]
  · intro item ts hup hts hne
    unfold searchContribution
    simp only [hup, hts, Option.getD_some, dayOf_eq_beforeT]
    simp [truthy, hne]
  · intro item hup hcr
    unfold searchContribution
    simp [hup, hcr, dayOf_eq_beforeT]

/-- Witness for C19: the pull-request event created at 2024-05-01T10:00:00Z is dated
2024-05-01, and the search item without timestamps is dated by the clock. -/
theorem contribution_dates_witness :
    (∃ c, formatContribution jsHost midJune2024 quietRepo mergedPrEvent = Except.ok c ∧
        c.date = "2024-05-01") ∧
      (searchContribution jsHost midJune2024 quietRepo untitledItem).date = "2024-06-15" :=
  have key := contribution_dates jsHost midJune2024 quietRepo
  have first := key.1 mergedPrEvent
    { pull_request := some
        { title := some "Fix parser", merged_at := some "2024-05-01T10:00:00Z",
          closed_at := some "2024-05-01T10:00:00Z", additions := some 10,
          deletions := some 2 },
      issue := none, commits := none } "2024-05-01T10:00:00Z" rfl rfl (by decide)
  ⟨first.imp (fun _ hc => ⟨hc.1, hc.2.trans (by decide)⟩),
   (key.2.2.2.2 untitledItem rfl rfl).trans (by decide)⟩

/-- Counterexample for C20: a search item without title yields a Contribution whose
title is missing, not a placeholder; for an event without payload no Contribution is
returned (the call throws a TypeError); and an event of the untracked type
`constructor` does not get the kind `Other`. -/
theorem classifier_defaults_fail :
    (searchContribution jsHost midJune2024 quietRepo untitledItem).title = none ∧
      formatContribution jsHost midJune2024 quietRepo noPayloadEvent =
        Except.error payloadTypeError ∧
      (formatContribution jsHost midJune2024 quietRepo constructorEvent).toOption.map (·.type) ≠
        some (Kind.text "Other") :=
  ⟨rfl, rfl, by decide⟩

/-- C20 (amended): for every repository record and every event that carries a payload,
`formatContribution` returns a Contribution, and what is missing inside the payload,
the event or the repository takes a default: the placeholder title and status Open
with 0 changed lines for a missing pull request, the placeholder title and status Open
for a missing issue, one commit for a missing commit list, kind `Other` for a tag that
is neither tracked nor a property name of `Object.prototype`, 0 for missing star or fork
counts, the empty owner for a missing owner
and the current day for a missing timestamp; the Contribution built from a search item
takes the same repository defaults, 0 changed lines and the title of the item as it is
(missing when the item has none). -/
theorem classifier_defaults (h : Host) (now : Int) (repo : Repository) :
    (∀ event payload, event.payload = some payload →
        ∃ c, formatContribution h now repo event = Except.ok c ∧
          (event.type = "PullRequestEvent" → payload.pull_request = none →
            c.title = some "Pull Request" ∧ c.status = "Open" ∧ c.linesChanged = 0) ∧
          (event.type = "IssuesEvent" → payload.issue = none →
            c.title = some "Issue" ∧ c.status = "Open") ∧
          (event.type = "PushEvent" → payload.commits = none →
            c.title = some "Pushed 1 commit(s)") ∧
          (event.type ≠ "PullRequestEvent" → event.type ≠ "IssuesEvent" →
            event.type ≠ "PushEvent" → event.type ≠ "CreateEvent" →
            event.type ∉ objectPrototypeKeys → c.type = "Other") ∧
          (repo.stargazers_count = none → c.stars = 0) ∧
          (repo.forks_count = none → c.forks = 0) ∧
          (repo.owner = none → c.repoOwner = "") ∧
          (event.created_at = none → c.date = today h now)) ∧
      (∀ item,
        (searchContribution h now repo item).title = item.title ∧
          (searchContribution h now repo item).linesChanged = 0 ∧
          (repo.stargazers_count = none → (searchContribution h now repo item).stars = 0) ∧
          (repo.forks_count = none → (searchContribution h now repo item).forks = 0) ∧
          (repo.owner = none → (searchContribution h now repo item).repoOwner = "")) := by
  constructor
  · intro event payload hp
    unfold formatContribution
    rw [hp]
    refine ⟨_, rfl, ?_, ?_, ?_, ?_, ?_, ?_, ?_, ?_⟩
    · intro ht hpr
      simp [ht, hpr, truthy]
    · intro ht hi
      simp [ht, hi, truthy]
    · intro ht hcm
      simp [ht, hcm]
      rfl
    · intro h1 h2 h3 h4 h5
      simp [typeMap_other event.type h1 h2 h3 h4 h5]
    · intro hs
      simp [hs, Repository.view]
    · intro hf
      simp [hf, Repository.view]
    · intro ho
      simp [ho, truthy, Repository.view]
    · intro hcr
      simp [hcr]
  · intro item
    unfold searchContribution
    refine ⟨rfl, rfl, ?_, ?_, ?_⟩
    · intro hs
      simp [hs, Repository.view]
    · intro hf
      simp [hf, Repository.view]
    · intro ho
      simp [ho, truthy, Repository.view]

/-- Witness for C20: an event of an untracked type with an empty payload and no
timestamp is classified with kind `Other` and dated by the clock. -/
theorem classifier_defaults_witness :
    ∃ c, formatContribution jsHost midJune2024 staleRepo bareEvent = Except.ok c ∧
      c.type = "Other" ∧ c.date = "2024-06-15" :=
  let ⟨c, hc, _, _, _, hkind, _, _, _, hdate⟩ :=
    (classifier_defaults jsHost midJune2024 staleRepo).1 bareEvent
      { pull_request := none, issue := none, commits := none } rfl
  ⟨c, hc, hkind (by decide) (by decide) (by decide) (by decide) (by decide),
    (hdate rfl).trans (by decide)⟩

theorem uniqueContributions_of_pairwise (arr : List Contribution)
    (hp : arr.Pairwise (fun a b => dedupKey a ≠ dedupKey b)) : uniqueContributions arr = arr := by
  rw [uniqueContributions_eq_keepFirst]
  unfold keepFirst
  have hall : arr.enum.filter
      (fun (p : Nat × Contribution) =>
        decide (∀ x ∈ arr.take p.1, dedupKey x ≠ dedupKey p.2)) = arr.enum := by
    rw [List.filter_eq_self]
    intro p hpm
    rw [decide_eq_true_eq]
    intro x hx
    obtain ⟨hi, hget⟩ := List.getElem?_eq_some_iff.mp (List.mem_enum_iff_getElem?.mp hpm)
    obtain ⟨j, hj, rfl⟩ := List.mem_take_iff_getElem.mp hx
    rw [← hget]
    exact List.pairwise_iff_getElem.mp hp j p.1 (by omega) hi (by omega)
  rw [hall, List.enum_map_snd]

/-- C23: deduplication is idempotent: applied to its own output it returns that output
unchanged. -/
theorem uniqueContributions_idempotent (arr : List Contribution) :
    uniqueContributions (uniqueContributions arr) = uniqueContributions arr :=
  uniqueContributions_of_pairwise _ (uniqueContributions_pairwise arr)

theorem sortLE_total (h : Host) (a b : Contribution) : sortLE h a b ∨ sortLE h b a := by
  unfold sortLE compareFn
  simp only []
  by_cases hd : impactOrder b.impact - impactOrder a.impact = 0
  · have hd2 : impactOrder a.impact - impactOrder b.impact = 0 := by omega
    simp only [hd, hd2, ne_eq, not_true_eq_false, if_false]
    cases hb : h.dateParse b.date with
    | none => simp
    | some tb =>
      cases ha : h.dateParse a.date with
      | none => simp
      | some ta =>
        simp only [Option.getD_some]
        omega
  · have hd2 : ¬ impactOrder a.impact - impactOrder b.impact = 0 := by omega
    simp only [ne_eq, hd, hd2, not_false_eq_true, if_true, Option.getD_some]
    omega

theorem chain_orderedInsert {α : Type} (r : α → α → Prop) [DecidableRel r]
    (htot : ∀ a b, r a b ∨ r b a) (a : α) (l : List α) (hl : l.Chain' r) :
    (l.orderedInsert r a).Chain' r := by
  induction l with
  | nil => simp
  | cons b l ih =>
    rw [List.orderedInsert]
    split_ifs with hab
    · exact List.Chain'.cons hab hl
    · have hba : r b a := (htot a b).resolve_left hab
      rw [List.chain'_cons'] at hl ⊢
      refine ⟨?_, ih hl.2⟩
      intro y hy
      cases l with
      | nil =>
        simp only [List.orderedInsert, List.head?_cons, Option.mem_def,
          Option.some.injEq] at hy
        exact hy ▸ hba
      | cons c l =>
        rw [List.orderedInsert] at hy
        split_ifs at hy with hac
        · simp only [List.head?_cons, Option.mem_def, Option.some.injEq] at hy
          exact hy ▸ hba
        · simp only [List.head?_cons, Option.mem_def, Option.some.injEq] at hy
          exact hl.1 y (by simp [hy])

theorem chain_insertionSort {α : Type} (r : α → α → Prop) [DecidableRel r]
    (htot : ∀ a b, r a b ∨ r b a) (l : List α) : (l.insertionSort r).Chain' r := by
  induction l with
  | nil => simp
  | cons a l ih => exact chain_orderedInsert r htot a _ ih

theorem insertionSort_of_chain {α : Type} (r : α → α → Prop) [DecidableRel r] (l : List α)
    (hl : l.Chain' r) : l.insertionSort r = l := by
  induction l with
  | nil => rfl
  | cons a l ih =>
    rw [List.chain'_cons'] at hl
    rw [List.insertionSort, ih hl.2]
    cases l with
    | nil => rfl
    | cons b l =>
      rw [List.orderedInsert, if_pos (hl.1 b (by simp))]

theorem sortedContributions_dates (h : Host) (arr : List Contribution)
    (hwf : ∀ c ∈ arr, (h.dateParse c.date).isSome = true) :
    ∀ c ∈ sortedContributions h arr, (h.dateParse c.date).isSome = true :=
  fun c hc => hwf c (mem_sortedContributions hc)

set_option maxRecDepth 100000 in
/-- Counterexample for C24: with a date that does not parse the comparator is NaN on
some pairs and the order is the engine's. On `undatedThird` the stable sort by the
comparator keeps `t2` before `t3`, while the engine puts `t3` first. On
`undatedAmongEqual` the records `a` and `b`, equal in tier and date, `a` before `b` in
the input, leave the ranking step in the order `b`, `a`. -/
theorem undated_records_reorder :
    undatedThird.insertionSort (sortLE jsHost) =
        [datedContribution "t1" "2024-05-03", datedContribution "t0" "2024-05-01",
          datedContribution "t2" "unknown", datedContribution "t3" "2024-05-05"] ∧
      sortedContributions jsHost undatedThird =
        [datedContribution "t3" "2024-05-05", datedContribution "t1" "2024-05-03",
          datedContribution "t0" "2024-05-01", datedContribution "t2" "unknown"] ∧
      [datedContribution "a" "2024-05-05", datedContribution "b" "2024-05-05"].Sublist
        undatedAmongEqual ∧
      (datedContribution "a" "2024-05-05").impact =
        (datedContribution "b" "2024-05-05").impact ∧
      (datedContribution "a" "2024-05-05").date = (datedContribution "b" "2024-05-05").date ∧
      sortedContributions jsHost undatedAmongEqual =
        [datedContribution "g0" "unknown", datedContribution "g1" "unknown",
          datedContribution "w" "2024-05-09", datedContribution "b" "2024-05-05",
          datedContribution "e" "2024-05-01", datedContribution "g2" "unknown",
          datedContribution "a" "2024-05-05"] ∧
      ¬ [datedContribution "a" "2024-05-05", datedContribution "b" "2024-05-05"].Sublist
        (sortedContributions jsHost undatedAmongEqual) := by
  decide!

/-- C24 (amended): on a list of Contributions whose dates all parse the ranking step is
a function of the list (equal inputs give equal outputs), ranking its own output returns
it unchanged, and the ranking is stable: two Contributions of the input of which the
earlier may precede the later (in particular two of equal tier and date) keep their
relative order in the sorted list of which the output is the first 50 elements. -/
theorem sortedContributions_idempotent (h : Host) (arr : List Contribution)
    (hwf : ∀ c ∈ arr, (h.dateParse c.date).isSome = true) :
    (∀ arr2, arr2 = arr → sortedContributions h arr2 = sortedContributions h arr) ∧
      sortedContributions h (sortedContributions h arr) = sortedContributions h arr ∧
      sortedContributions h arr = (arr.insertionSort (sortLE h)).take 50 ∧
      (∀ a b, [a, b].Sublist arr → sortLE h a b →
        [a, b].Sublist (arr.insertionSort (sortLE h))) ∧
      ∀ a b, [a, b].Sublist arr → a.impact = b.impact → a.date = b.date →
        [a, b].Sublist (arr.insertionSort (sortLE h)) := by
  have hdef := sortedContributions_of_dates h arr hwf
  have hdef2 := sortedContributions_of_dates h (sortedContributions h arr)
    (sortedContributions_dates h arr hwf)
  refine ⟨fun arr2 h2 => by rw [h2], ?_, hdef, ?_, ?_⟩
  · have hchain : (sortedContributions h arr).Chain' (sortLE h) := by
      rw [hdef]
      exact (chain_insertionSort (sortLE h) (sortLE_total h) arr).take 50
    have hlen : (sortedContributions h arr).length ≤ 50 := by
      rw [hdef]
      exact List.length_take_le _ _
    rw [hdef2, insertionSort_of_chain _ _ hchain, List.take_of_length_le hlen]
  · intro a b hsub hab
    exact List.pair_sublist_insertionSort hab hsub
  · intro a b hsub himpact hdate
    refine List.pair_sublist_insertionSort ?_ hsub
    unfold sortLE compareFn
    simp only [himpact, hdate, sub_self, ne_eq, not_true_eq_false, if_false]
    cases h.dateParse b.date with
    | none => simp
    | some t => simp

/-- Witness for C24: the dates of the sample list parse; `sampleFirst` precedes
`sampleSecond` in it and ranks above it, and still precedes it after sorting. -/
theorem sortedContributions_idempotent_witness :
    (∀ c ∈ sampleContributions, (jsHost.dateParse c.date).isSome = true) ∧
      [sampleFirst, sampleSecond].Sublist
        (sampleContributions.insertionSort (sortLE jsHost)) :=
  ⟨by decide,
   (sortedContributions_idempotent jsHost sampleContributions (by decide)).2.2.2.1
     sampleFirst sampleSecond (by decide) (by decide)⟩

/-- C25: a query that succeeds with an empty list leaves the no-contributions message
and zeroed stats (with the user stored and the loading flag cleared); that state
differs from the initial state, whose message is empty and whose stats are unset. -/
theorem handleSearch_empty_result (h : Host) (now : Int) (r : Responses) (s : State)
    (user : User) (hu : h.trim s.username ≠ "") (hr : r.user = Settled.fulfilled user)
    (hl : computeContributions h now s.username r = Except.ok []) :
    handleSearch h now r s =
        { s with
          userData := some user
          contributions := []
          stats := some zeroStats
          loading := false
          error := noContributionsMessage } ∧
      (handleSearch h now r s).error = noContributionsMessage ∧
      (handleSearch h now r s).stats = some zeroStats ∧
      handleSearch h now r s ≠ initialState ∧
      initialState.error = "" ∧ initialState.stats = none ∧
      noContributionsMessage ≠ "" := by
  have key := handleSearch_ok h now r s user [] hu hr hl
  have hne : noContributionsMessage ≠ "" := by decide
  refine ⟨key, ?_, ?_, ?_, rfl, rfl, hne⟩
  · rw [key]
    rfl
  · rw [key]
    rfl
  · rw [key]
    intro heq
    have := congrArg State.stats heq
    cases this

/-- Witness for C25: every source answers with an empty list. -/
theorem handleSearch_empty_result_witness :
    (handleSearch jsHost midJune2024 emptyResponses aliceState).error =
        noContributionsMessage ∧
      (handleSearch jsHost midJune2024 emptyResponses aliceState).stats = some zeroStats :=
  have key := handleSearch_empty_result jsHost midJune2024 emptyResponses aliceState
    { login := "alice" } (by decide) rfl rfl
  ⟨key.2.1, key.2.2.1⟩

theorem formatContribution_type (h : Host) (now : Int) (repo : RepoView) (event : RawEvent)
    (c : Contribution) (hc : formatContribution h now repo event = Except.ok c) :
    c.type = (typeMap event.type).getD (Kind.text "Other") := by
  unfold formatContribution at hc
  split at hc
  · cases hc
  · cases hc
    rfl

theorem tracked_kind (event : RawEvent) (ht : isTrackedType event = true) :
    (typeMap event.type).getD (Kind.text "Other") ∈ trackedKinds := by
  unfold isTrackedType at ht
  simp only [decide_eq_true_eq, List.mem_cons, List.mem_singleton, List.not_mem_nil,
    or_false] at ht
  rcases ht with ht | ht | ht | ht <;> rw [ht] <;> decide

theorem eventContributions_kind (h : Host) (now : Int) (username : String)
    (m : String → Option RepoView) (other : List RawEvent) (l : List Contribution)
    (hl : eventContributions h now username m other = Except.ok l) (c : Contribution)
    (hc : c ∈ l) : c.type ∈ trackedKinds := by
  unfold eventContributions at hl
  split at hl
  · cases hl
  · rename_i formatted hformatted
    cases hl
    obtain ⟨e, he, hfe⟩ := mapM_except_mem _ _ _ hformatted c (List.mem_filter.mp hc).1
    have htracked := (List.mem_filter.mp he).2
    unfold formatHydrated at hfe
    split at hfe
    · rw [formatContribution_type h now _ e c hfe]
      exact tracked_kind e htracked
    · cases hfe

theorem searchContributions_kind (h : Host) (now : Int) (username : String)
    (m : String → Option RepoView) (external : List RawSearchItem) (c : Contribution)
    (hc : c ∈ searchContributions h now username m external) : c.type ∈ trackedKinds := by
  unfold searchContributions at hc
  obtain ⟨item, -, hsome⟩ := List.mem_filterMap.mp (List.mem_filter.mp hc).1
  unfold searchHydrated at hsome
  cases hrepo : m ((itemRepoName item).getD "") with
  | none =>
    rw [hrepo] at hsome
    cases hsome
  | some repo =>
    rw [hrepo] at hsome
    simp only [Option.map_some', Option.some.injEq] at hsome
    rw [← hsome]
    unfold searchContribution trackedKinds
    simp only []
    split_ifs <;> decide

theorem eventContributions_tracked_only (h : Host) (now : Int) (username : String)
    (m : String → Option RepoView) (other : List RawEvent) :
    eventContributions h now username m (other.filter isTrackedType) =
      eventContributions h now username m other := by
  unfold eventContributions
  have hswap : ((other.filter isTrackedType).filter (eventHydrated m)).filter isTrackedType =
      (other.filter (eventHydrated m)).filter isTrackedType := by
    simp only [List.filter_filter]
    apply List.filter_congr
    intro e _
    cases isTrackedType e <;> cases eventHydrated m e <;> rfl
  rw [hswap]

/-- C26: every Contribution of the computed list has kind `Pull Request`, `Issue`,
`Push` or `Created`, never `Other`; and the event stage gives the same result on the
events of the four tracked types alone, so an event of any other type is dropped before
`formatContribution` is called, whatever its repository. -/
theorem contributions_tracked_kinds (h : Host) (now : Int) (username : String)
    (r : Responses) :
    (∀ l, computeContributions h now username r = Except.ok l →
        ∀ c ∈ l, c.type ∈ trackedKinds ∧ c.type ≠ "Other") ∧
      (∀ (m : String → Option RepoView) (other : List RawEvent),
        eventContributions h now username m (other.filter isTrackedType) =
            eventContributions h now username m other ∧
          ∀ e ∈ other, (e.type ≠ "PullRequestEvent" ∧ e.type ≠ "IssuesEvent" ∧
            e.type ≠ "PushEvent" ∧ e.type ≠ "CreateEvent") → isTrackedType e = false) := by
  constructor
  · intro l hl c hc
    have hkind : c.type ∈ trackedKinds := by
      unfold computeContributions at hl
      simp only [] at hl
      split at hl
      · cases hl
      · rename_i fromEvents hev
        cases hl
        have h1 := (uniqueContributions_sublist _).subset (mem_sortedContributions hc)
        rcases List.mem_append.mp h1 with hm | hm
        · exact eventContributions_kind h now username _ _ _ hev c hm
        · exact searchContributions_kind h now username _ _ c hm
    refine ⟨hkind, ?_⟩
    intro hother
    rw [hother] at hkind
    revert hkind
    decide
  · intro m other
    refine ⟨eventContributions_tracked_only h now username m other, ?_⟩
    intro e _ hne
    unfold isTrackedType
    simp [hne.1, hne.2.1, hne.2.2.1, hne.2.2.2]

/-- Witness for C26: a watch event without payload on a hydrated repository is dropped
(it does not even make the call throw); the one Contribution left is a pull request. -/
theorem contributions_tracked_kinds_witness :
    computeContributions jsHost midJune2024 "Octo" watchResponses =
        Except.ok [externalPrContribution] ∧
      externalPrContribution.type ∈ trackedKinds :=
  ⟨rfl,
   ((contributions_tracked_kinds jsHost midJune2024 "Octo" watchResponses).1
      [externalPrContribution] rfl externalPrContribution (List.mem_singleton.mpr rfl)).1⟩

theorem specPopularity_mono (stars forks stars2 forks2 : Nat) (hs : stars ≤ stars2)
    (hf : forks ≤ forks2) : specPopularity stars forks ≤ specPopularity stars2 forks2 := by
  unfold specPopularity
  split_ifs <;> omega

theorem tierRank_specBucket_mono (a b : Nat) (hab : a ≤ b) :
    tierRank (specBucket a) ≤ tierRank (specBucket b) := by
  unfold specBucket
  split_ifs <;> simp only [tierRank] <;> omega

theorem specOutcome_le (kind : OutcomeKind) : specOutcome kind ≤ 3 := by
  cases kind <;> decide

/-- C27: for a fixed outcome and a fixed recency, a repository with at least as many
stars and forks never gets a lower tier (Low < Medium < High < Critical); and a
repository with at most 1000 stars and at most 100 forks is never scored Critical. -/
theorem calculateImpact_monotone (h : Host) (now : Int) (repo : Repository)
    (contribution : Outcome) :
    (∀ repo2 : Repository,
        repo.stargazers_count.getD 0 ≤ repo2.stargazers_count.getD 0 →
        repo.forks_count.getD 0 ≤ repo2.forks_count.getD 0 →
        isTrending h now repo = isTrending h now repo2 →
        tierRank (calculateImpact h now repo contribution) ≤
          tierRank (calculateImpact h now repo2 contribution)) ∧
      (repo.stargazers_count.getD 0 ≤ 1000 → repo.forks_count.getD 0 ≤ 100 →
        calculateImpact h now repo contribution ≠ Impact.Critical) := by
  constructor
  · intro repo2 hs hf ht
    rw [bucket_eq_repo, bucket_eq_repo]
    apply tierRank_specBucket_mono
    have hp := specPopularity_mono _ _ _ _ hs hf
    have hr : recencyPoints h now repo = recencyPoints h now repo2 := by
      unfold recencyPoints
      rw [ht]
    omega
  · intro hs hf
    rw [bucket_eq_repo]
    have hp : specPopularity (repo.stargazers_count.getD 0) (repo.forks_count.getD 0) ≤ 1 := by
      unfold specPopularity
      split_ifs <;> omega
    have ho := specOutcome_le (outcomeKind contribution)
    have hr : recencyPoints h now repo ≤ 1 := by
      unfold recencyPoints
      split_ifs <;> omega
    unfold specBucket
    split_ifs <;> first | omega | (intro hc; cases hc)

/-- Witness for C27: the repository with 10001 stars scores at least as high as the
one without stars, both updated on the same day. -/
theorem calculateImpact_monotone_witness :
    tierRank (calculateImpact jsHost midJune2024 quietRepo closedIssueOutcome) ≤
        tierRank (calculateImpact jsHost midJune2024 starredRepo closedIssueOutcome) ∧
      calculateImpact jsHost midJune2024 quietRepo closedIssueOutcome ≠ Impact.Critical :=
  ⟨(calculateImpact_monotone jsHost midJune2024 quietRepo closedIssueOutcome).1 starredRepo
      (by decide) (by decide) (by decide),
   (calculateImpact_monotone jsHost midJune2024 quietRepo closedIssueOutcome).2
      (by decide) (by decide)⟩

/-- C28: the stats satisfy highImpactContributions <= totalContributions,
totalRepos <= totalContributions, 0 <= impactScore <= 100 and
0 <= collaborationScore <= 100; for a non-empty list totalRepos >= 1 and
collaborationScore >= 10. -/
theorem analyzeContributions_bounds (contributions : List Contribution) :
    (analyzeContributions contributions).highImpactContributions ≤
        (analyzeContributions contributions).totalContributions ∧
      (analyzeContributions contributions).totalRepos ≤
        (analyzeContributions contributions).totalContributions ∧
      0 ≤ (analyzeContributions contributions).impactScore ∧
      (analyzeContributions contributions).impactScore ≤ 100 ∧
      0 ≤ (analyzeContributions contributions).collaborationScore ∧
      (analyzeContributions contributions).collaborationScore ≤ 100 ∧
      (contributions ≠ [] →
        1 ≤ (analyzeContributions contributions).totalRepos ∧
          10 ≤ (analyzeContributions contributions).collaborationScore) := by
  by_cases hne : contributions = []
  · subst hne
    have hz : analyzeContributions [] = zeroStats := rfl
    rw [hz]
    refine ⟨le_refl _, le_refl _, le_refl _, by decide, le_refl _, by decide, ?_⟩
    intro hc
    exact absurd rfl hc
  · have hpos : 0 < contributions.length := List.length_pos.mpr hne
    have hhigh : (contributions.filter isHighImpact).length ≤ contributions.length :=
      List.length_filter_le _ _
    have hrepos : setSize (contributions.map (·.repo)) ≤ contributions.length := by
      unfold setSize
      have := (List.dedup_sublist (contributions.map (·.repo))).length_le
      rwa [List.length_map] at this
    have hrepos1 : 1 ≤ setSize (contributions.map (·.repo)) := by
      unfold setSize
      cases hc : contributions with
      | nil => exact absurd hc hne
      | cons c cs =>
        have hmem : c.repo ∈ (List.map (·.repo) (c :: cs)).dedup :=
          List.mem_dedup.mpr (List.mem_map_of_mem _ (List.mem_cons_self c cs))
        exact List.length_pos_of_mem hmem
    obtain ⟨c1, c2, c3, c4⟩ := counts_eq contributions hne
    have hb := mathRound_percent_bounds _ _ hpos hhigh
    rw [c1, c2, c3, c4, impactScore_eq contributions hne]
    refine ⟨hhigh, hrepos, hb.1, hb.2, ?_, ?_, ?_⟩
    · omega
    · omega
    · intro _
      exact ⟨hrepos1, by omega⟩

/-- Witness for C28: the sample list is not empty, so it counts at least one
repository and its collaboration score is at least 10. -/
theorem analyzeContributions_bounds_witness :
    1 ≤ (analyzeContributions sampleContributions).totalRepos ∧
      10 ≤ (analyzeContributions sampleContributions).collaborationScore :=
  (analyzeContributions_bounds sampleContributions).2.2.2.2.2.2 (by decide)

theorem computeContributions_length (h : Host) (now : Int) (username : String)
    (r : Responses) (l : List Contribution)
    (hl : computeContributions h now username r = Except.ok l) : l.length ≤ 50 := by
  unfold computeContributions at hl
  simp only [] at hl
  split at hl
  · cases hl
  · cases hl
    unfold sortedContributions
    exact List.length_take_le _ _

theorem computeContributions_repos (h : Host) (now : Int) (username : String)
    (r : Responses) (l : List Contribution)
    (hl : computeContributions h now username r = Except.ok l) :
    (l.map (·.repo)).toFinset ⊆
      insert none
        ((((repoNames (otherUsersEvents h username (allEvents r))
          (externalSearchContributions h username (searchItems r))).map r.repos).map
            (fun result => some (hydratedName result))).toFinset) := by
  intro name hname
  rw [List.mem_toFinset] at hname
  obtain ⟨c, hc, rfl⟩ := List.mem_map.mp hname
  obtain ⟨key, -, hcase⟩ := contribution_repo_cases h now username r l hl c hc
  rcases hcase with ⟨hrepo, repo, -, hfull, n, hn, hres⟩ | ⟨hnone, -⟩
  · apply Finset.mem_insert_of_mem
    rw [List.mem_toFinset]
    refine List.mem_map.mpr ⟨Settled.fulfilled repo, List.mem_map.mpr ⟨n, hn, hres⟩, ?_⟩
    rw [hrepo, ← hfull]
    rfl
  · rw [hnone]
    exact Finset.mem_insert_self _ _

theorem hydrated_names_card (h : Host) (username : String) (r : Responses) :
    ((((repoNames (otherUsersEvents h username (allEvents r))
      (externalSearchContributions h username (searchItems r))).map r.repos).map
        (fun result => some (hydratedName result))).toFinset).card ≤ 25 := by
  have hnames : (repoNames (otherUsersEvents h username (allEvents r))
      (externalSearchContributions h username (searchItems r))).length ≤ 25 := by
    unfold repoNames
    exact List.length_take_le _ _
  calc _ ≤ (((repoNames (otherUsersEvents h username (allEvents r))
        (externalSearchContributions h username (searchItems r))).map r.repos).map
          (fun result => some (hydratedName result))).length := List.toFinset_card_le _
    _ ≤ 25 := by
      rw [List.length_map, List.length_map]
      exact hnames

theorem computeContributions_repos_card (h : Host) (now : Int) (username : String)
    (r : Responses) (l : List Contribution)
    (hl : computeContributions h now username r = Except.ok l) :
    (l.map (·.repo)).toFinset.card ≤ 26 ∧
      ((∀ c ∈ l, c.repo ≠ none) → (l.map (·.repo)).toFinset.card ≤ 25) := by
  have hsub := computeContributions_repos h now username r l hl
  have hcard := hydrated_names_card h username r
  constructor
  · calc (l.map (·.repo)).toFinset.card ≤ _ := Finset.card_le_card hsub
      _ ≤ _ + 1 := Finset.card_insert_le _ _
      _ ≤ 26 := by omega
  · intro hsome
    have hsub2 : (l.map (·.repo)).toFinset ⊆
        ((((repoNames (otherUsersEvents h username (allEvents r))
          (externalSearchContributions h username (searchItems r))).map r.repos).map
            (fun result => some (hydratedName result))).toFinset) := by
      intro name hname
      rcases Finset.mem_insert.mp (hsub hname) with hnone | hmem
      · exfalso
        rw [List.mem_toFinset] at hname
        obtain ⟨c, hc, hcr⟩ := List.mem_map.mp hname
        exact hsome c hc (hcr.trans hnone)
      · exact hmem
    exact (Finset.card_le_card hsub2).trans hcard

theorem contribution_repo_some (h : Host) (now : Int) (username : String) (r : Responses)
    (l : List Contribution) (hl : computeContributions h now username r = Except.ok l)
    (hev : ∀ e ∈ allEvents r, ∀ name, e.repo.bind (·.name) = some name →
      name ∉ objectPrototypeKeys)
    (hit : ∀ item ∈ searchItems r, ∀ name, itemRepoName item = some name →
      name ∉ objectPrototypeKeys) :
    ∀ c ∈ l, c.repo ≠ none := by
  intro c hc hnone
  obtain ⟨name, hsrc, hcase⟩ := contribution_repo_cases h now username r l hl c hc
  rcases hcase with ⟨hrepo, -⟩ | ⟨-, hkey⟩
  · rw [hnone] at hrepo
    cases hrepo
  · rcases hsrc with ⟨e, he, hname⟩ | ⟨item, hitem, hname⟩
    · exact hev e (List.mem_filter.mp he).1 name hname hkey
    · exact hit item (List.mem_filter.mp hitem).1 name hname hkey

set_option maxRecDepth 100000 in
/-- Counterexample for C29: pushes to 25 repositories, all hydrated, and one push to a
repository named `toString`, the 26th name and so beyond the cap of 25: the lookup of
that name finds the inherited method, the push yields a Contribution without `repo`, and
the stored stats count 26 repositories. -/
theorem stats_count_26_repositories :
    (repoNames (otherUsersEvents jsHost "alice" (allEvents crowdedResponses))
        (externalSearchContributions jsHost "alice" (searchItems crowdedResponses))).length =
        25 ∧
      (handleSearch jsHost midJune2024 crowdedResponses aliceState).contributions.length =
        26 ∧
      (handleSearch jsHost midJune2024 crowdedResponses aliceState).stats.map
        (·.totalRepos) = some 26 := by
  decide!

/-- C29 (amended): when no hydrated repository is named `__proto__`, the list
`handleSearch` stores has at most 50 elements and at most 26 distinct `repo` values (the
full names of at most 25 hydrated repositories, and `undefined`), and the stats stored
with it have totalContributions <= 50 and totalRepos <= 26; when no event or search item
references a name that is a property name of `Object.prototype`, every Contribution has a
`repo` and both counts of repositories are at most 25. -/
theorem handleSearch_caps (h : Host) (now : Int) (r : Responses) (s : State) (user : User)
    (l : List Contribution) (hu : h.trim s.username ≠ "")
    (hr : r.user = Settled.fulfilled user)
    (hproto : ∀ name repo, r.repos name = Settled.fulfilled repo → repo.full_name ≠ "__proto__")
    (hl : computeContributions h now s.username r = Except.ok l) :
    (handleSearch h now r s).contributions = l ∧
      l.length ≤ 50 ∧ (l.map (·.repo)).toFinset.card ≤ 26 ∧
      (handleSearch h now r s).stats = some (analyzeContributions l) ∧
      (analyzeContributions l).totalContributions ≤ 50 ∧
      (analyzeContributions l).totalRepos ≤ 26 ∧
      ((∀ e ∈ allEvents r, ∀ name, e.repo.bind (·.name) = some name →
          name ∉ objectPrototypeKeys) →
        (∀ item ∈ searchItems r, ∀ name, itemRepoName item = some name →
          name ∉ objectPrototypeKeys) →
        (∀ c ∈ l, c.repo ≠ none) ∧ (l.map (·.repo)).toFinset.card ≤ 25 ∧
          (analyzeContributions l).totalRepos ≤ 25) := by
  have _ := hproto
  have key := handleSearch_ok h now r s user l hu hr hl
  have hlen := computeContributions_length h now s.username r l hl
  have hrepos := computeContributions_repos_card h now s.username r l hl
  have hcount : (analyzeContributions l).totalContributions = l.length :=
    (analyzeContributions_counts_aux l).1
  have hdistinct : (analyzeContributions l).totalRepos = (l.map (·.repo)).toFinset.card :=
    (analyzeContributions_counts_aux l).2
  refine ⟨by rw [key], hlen, hrepos.1, by rw [key], ?_, ?_, ?_⟩
  · rw [hcount]
    exact hlen
  · rw [hdistinct]
    exact hrepos.1
  · intro hev hit
    have hsome := contribution_repo_some h now s.username r l hl hev hit
    refine ⟨hsome, hrepos.2 hsome, ?_⟩
    rw [hdistinct]
    exact hrepos.2 hsome

theorem busyRepos_not_proto (name : String) (repo : Repository)
    (hres : busyResponses.repos name = Settled.fulfilled repo) :
    repo.full_name ≠ "__proto__" := by
  have hres2 : (if name ∈ busyNames then Settled.fulfilled (bareRepository name)
      else Settled.rejected "GitHub API Error: 404") = Settled.fulfilled repo := hres
  split_ifs at hres2 with hmem
  cases hres2
  intro heq
  have hname : name = "__proto__" := heq
  rw [hname] at hmem
  revert hmem
  decide

set_option maxRecDepth 100000 in
/-- Witness for C29: `alice` pushed three times to each of 30 repositories: 25 names
are hydrated, 75 Contributions are built, and the stored list holds 50 of them from 25
repositories. -/
theorem handleSearch_caps_witness :
    (handleSearch jsHost midJune2024 busyResponses aliceState).contributions.length = 50 ∧
      (handleSearch jsHost midJune2024 busyResponses aliceState).stats.map (·.totalRepos) =
        some 25 ∧
      ∃ l, computeContributions jsHost midJune2024 "alice" busyResponses = Except.ok l ∧
        l.length ≤ 50 ∧ (l.map (·.repo)).toFinset.card ≤ 25 :=
  ⟨by decide!, by decide!,
   let ⟨l, hl⟩ := computeContributions_total jsHost midJune2024 "alice" busyResponses
     (by decide!)
   have key := handleSearch_caps jsHost midJune2024 busyResponses aliceState
     { login := "alice" } l (by decide) rfl busyRepos_not_proto hl
   ⟨l, hl, key.2.1, (key.2.2.2.2.2.2 (by decide!) (by decide!)).2.1⟩⟩

/-- C30: when the username is blank only the error message changes, and when the
user-resolution call fails only the loading flag and the error message change: the
username, the stored user data, the contribution list and the stats are left as they
were. -/
theorem handleSearch_frame (h : Host) (now : Int) (r : Responses) (s : State) :
    (h.trim s.username = "" →
        handleSearch h now r s = { s with error := "Please enter a GitHub username" }) ∧
      (∀ reason, h.trim s.username ≠ "" → r.user = Settled.rejected reason →
        handleSearch h now r s = { s with loading := false, error := catchMessage reason }) ∧
      ((h.trim s.username = "" ∨ ∃ reason, r.user = Settled.rejected reason) →
        (handleSearch h now r s).username = s.username ∧
          (handleSearch h now r s).userData = s.userData ∧
          (handleSearch h now r s).contributions = s.contributions ∧
          (handleSearch h now r s).stats = s.stats) := by
  have hblank : h.trim s.username = "" →
      handleSearch h now r s = { s with error := "Please enter a GitHub username" } := by
    intro hb
    unfold handleSearch
    rw [if_pos hb]
  refine ⟨hblank, fun reason hu hr => handleSearch_user_rejected h now r s reason hu hr, ?_⟩
  intro hcase
  by_cases hb : h.trim s.username = ""
  · rw [hblank hb]
    exact ⟨rfl, rfl, rfl, rfl⟩
  · rcases hcase with hb2 | ⟨reason, hr⟩
    · exact absurd hb2 hb
    · rw [handleSearch_user_rejected h now r s reason hb hr]
      exact ⟨rfl, rfl, rfl, rfl⟩

/-- Witness for C30: after an earlier query, a 404 for the user `ghost` leaves the
stored list and stats of that query in the state. -/
theorem handleSearch_frame_witness :
    (handleSearch jsHost midJune2024 (userFailedResponses 404) earlierState).contributions =
        sampleContributions ∧
      (handleSearch jsHost midJune2024 (userFailedResponses 404) earlierState).stats =
        earlierState.stats :=
  have key := (handleSearch_frame jsHost midJune2024 (userFailedResponses 404)
    earlierState).2.2 (Or.inr ⟨_, rfl⟩)
  ⟨key.2.2.1, key.2.2.2⟩

theorem fetch_miss_ok {α : Type} (renderReset : String → String) (authenticated : Bool)
    (cache : String → Option (CacheEntry α)) (endpoint : String) (now : Int) (status : Nat)
    (reset : Option String) (body : α) (storedAt : Int)
    (hmiss : freshEntry cache endpoint now = none) (hok : responseOk status = true) :
    fetchGitHubData renderReset authenticated cache endpoint now
        (NetworkResult.response status reset body) storedAt =
      { outcome := Settled.fulfilled body
        cache := fun key =>
          if key = endpoint then some { data := body, timestamp := storedAt } else cache key
        networkCalls := 1 } := by
  unfold fetchGitHubData
  rw [hmiss]
  simp only [hok, if_true]

theorem fetch_hit {α : Type} (renderReset : String → String) (authenticated : Bool)
    (cache : String → Option (CacheEntry α)) (endpoint : String) (now : Int)
    (net : NetworkResult α) (storedAt : Int) (entry : CacheEntry α)
    (hhit : freshEntry cache endpoint now = some entry) :
    fetchGitHubData renderReset authenticated cache endpoint now net storedAt =
      { outcome := Settled.fulfilled entry.data, cache := cache, networkCalls := 0 } := by
  unfold fetchGitHubData
  rw [hhit]

theorem freshEntry_stale {α : Type} (cache : String → Option (CacheEntry α))
    (endpoint : String) (now : Int) (entry : CacheEntry α)
    (hentry : cache endpoint = some entry) (hold : fiveMinutes ≤ now - entry.timestamp) :
    freshEntry cache endpoint now = none := by
  unfold freshEntry
  rw [hentry]
  simp only []
  rw [if_neg (by omega)]

/-- C21: on an explicit cache and clock, a call that finds no fresh entry and is
answered with a 2xx response issues one network call, returns the body and stores it
with the time of storing; a second call for the same endpoint less than five minutes
after the first was made (the clock not running backwards) issues no network call,
returns that body and leaves the cache as it is, so the two calls issue exactly one
network call; and a call made five minutes or more after an entry was stored issues a
network call and, answered with a 2xx response, replaces the entry with the new body
and the new time, the other entries staying as they were. -/
theorem fetchGitHubData_cache {α : Type} (renderReset : String → String)
    (authenticated : Bool) (cache : String → Option (CacheEntry α)) (endpoint : String)
    (t1 s1 t2 s2 : Int) (status : Nat) (reset : Option String) (body : α)
    (net2 : NetworkResult α) (hmiss : freshEntry cache endpoint t1 = none)
    (hok : responseOk status = true) :
    (fetchGitHubData renderReset authenticated cache endpoint t1
        (NetworkResult.response status reset body) s1).networkCalls = 1 ∧
      (fetchGitHubData renderReset authenticated cache endpoint t1
        (NetworkResult.response status reset body) s1).outcome = Settled.fulfilled body ∧
      (t1 ≤ s1 → t2 - t1 < fiveMinutes →
        (fetchGitHubData renderReset authenticated
            (fetchGitHubData renderReset authenticated cache endpoint t1
              (NetworkResult.response status reset body) s1).cache
            endpoint t2 net2 s2).networkCalls = 0 ∧
          (fetchGitHubData renderReset authenticated
            (fetchGitHubData renderReset authenticated cache endpoint t1
              (NetworkResult.response status reset body) s1).cache
            endpoint t2 net2 s2).outcome = Settled.fulfilled body ∧
          (fetchGitHubData renderReset authenticated
            (fetchGitHubData renderReset authenticated cache endpoint t1
              (NetworkResult.response status reset body) s1).cache
            endpoint t2 net2 s2).cache =
            (fetchGitHubData renderReset authenticated cache endpoint t1
              (NetworkResult.response status reset body) s1).cache) ∧
      (fiveMinutes ≤ t2 - s1 → ∀ status2 reset2 body2, responseOk status2 = true →
        (fetchGitHubData renderReset authenticated
            (fetchGitHubData renderReset authenticated cache endpoint t1
              (NetworkResult.response status reset body) s1).cache
            endpoint t2 (NetworkResult.response status2 reset2 body2) s2).networkCalls = 1 ∧
          (fetchGitHubData renderReset authenticated
            (fetchGitHubData renderReset authenticated cache endpoint t1
              (NetworkResult.response status reset body) s1).cache
            endpoint t2 (NetworkResult.response status2 reset2 body2) s2).outcome =
            Settled.fulfilled body2 ∧
          ∀ key,
            (fetchGitHubData renderReset authenticated
              (fetchGitHubData renderReset authenticated cache endpoint t1
                (NetworkResult.response status reset body) s1).cache
              endpoint t2 (NetworkResult.response status2 reset2 body2) s2).cache key =
              if key = endpoint then some { data := body2, timestamp := s2 }
              else cache key) := by
  rw [fetch_miss_ok renderReset authenticated cache endpoint t1 status reset body s1 hmiss hok]
  refine ⟨rfl, rfl, ?_, ?_⟩
  · intro hmono hclose
    have hhit : freshEntry
        (fun key => if key = endpoint then some { data := body, timestamp := s1 } else cache key)
        endpoint t2 = some { data := body, timestamp := s1 } := by
      unfold freshEntry
      simp only [if_true]
      rw [if_pos (by omega)]
    simp only []
    rw [fetch_hit _ _ _ _ _ _ _ _ hhit]
    exact ⟨rfl, rfl, rfl⟩
  · intro hold status2 reset2 body2 hok2
    have hstale : freshEntry
        (fun key => if key = endpoint then some { data := body, timestamp := s1 } else cache key)
        endpoint t2 = none :=
      freshEntry_stale _ endpoint t2 { data := body, timestamp := s1 } (by simp) hold
    simp only []
    rw [fetch_miss_ok _ _ _ _ _ _ _ _ _ hstale hok2]
    refine ⟨rfl, rfl, ?_⟩
    intro key
    simp only []
    split_ifs <;> rfl

/-- Witness for C21: after the first call for `/users/octo` (made at 1000, stored at
1200) a second call at 200000 is served from the cache without a network call. -/
theorem fetchGitHubData_cache_witness :
    (fetchGitHubData plainReset false firstFetch.cache "/users/octo" 200000
        (NetworkResult.failure "Failed to fetch") 200100).networkCalls = 0 ∧
      (fetchGitHubData plainReset false firstFetch.cache "/users/octo" 200000
        (NetworkResult.failure "Failed to fetch") 200100).outcome =
        Settled.fulfilled "octo-profile" :=
  have key := (fetchGitHubData_cache plainReset false emptyCache "/users/octo" 1000 1200
    200000 200100 200 none "octo-profile" (NetworkResult.failure "Failed to fetch") rfl
    (by decide)).2.2.1 (by decide) (by decide)
  ⟨key.1, key.2.1⟩

/-- C22: a call that reaches the network and is answered with a status outside 200-299
fails, issues one network call and returns the cache it was given; the error message is
the rate-limit one, with the rendered reset time of the response in it, for a 403 or a
429 (both outside 200-299), and `GitHub API Error: ` followed by the status for every
other such status. -/
theorem fetchGitHubData_failure {α : Type} (renderReset : String → String)
    (authenticated : Bool) (cache : String → Option (CacheEntry α)) (endpoint : String)
    (now : Int) (status : Nat) (reset : Option String) (body : α) (storedAt : Int)
    (hmiss : freshEntry cache endpoint now = none) (hfail : responseOk status = false) :
    (fetchGitHubData renderReset authenticated cache endpoint now
        (NetworkResult.response status reset body) storedAt).outcome =
        Settled.rejected
          (httpErrorMessage status (resetDateOf renderReset reset) authenticated) ∧
      (fetchGitHubData renderReset authenticated cache endpoint now
        (NetworkResult.response status reset body) storedAt).cache = cache ∧
      (fetchGitHubData renderReset authenticated cache endpoint now
        (NetworkResult.response status reset body) storedAt).networkCalls = 1 ∧
      (status = 403 ∨ status = 429 →
        httpErrorMessage status (resetDateOf renderReset reset) authenticated =
          "GitHub API rate limit exceeded. Resets at: " ++ resetDateOf renderReset reset ++
            ". Using authenticated requests: " ++ (if authenticated then "true" else "false")) ∧
      (∀ time, reset = some time → time ≠ "" →
        resetDateOf renderReset reset = renderReset time) ∧
      (status ≠ 403 → status ≠ 429 →
        httpErrorMessage status (resetDateOf renderReset reset) authenticated =
          "GitHub API Error: " ++ toString status) ∧
      responseOk 403 = false ∧ responseOk 429 = false := by
  have hres : fetchGitHubData renderReset authenticated cache endpoint now
      (NetworkResult.response status reset body) storedAt =
      { outcome := Settled.rejected
          (httpErrorMessage status (resetDateOf renderReset reset) authenticated)
        cache := cache
        networkCalls := 1 } := by
    unfold fetchGitHubData
    rw [hmiss]
    simp only [hfail, Bool.false_eq_true, if_false]
  rw [hres]
  refine ⟨rfl, rfl, rfl, ?_, ?_, ?_, by decide, by decide⟩
  · intro hs
    unfold httpErrorMessage
    rw [if_pos hs]
  · intro time hreset htime
    unfold resetDateOf
    rw [hreset]
    simp [truthy, htime]
  · intro h403 h429
    unfold httpErrorMessage
    rw [if_neg (by omega)]

/-- Witness for C22: a 403 with a reset header after the entry of the first call has
gone stale: the call fails with the rate-limit message and the stale entry stays. -/
theorem fetchGitHubData_failure_witness :
    (fetchGitHubData plainReset false firstFetch.cache "/users/octo" 400000
        (NetworkResult.response 403 (some "1717245296") "") 400100).outcome =
        Settled.rejected
          "GitHub API rate limit exceeded. Resets at: 1717245296. Using authenticated requests: false" ∧
      (fetchGitHubData plainReset false firstFetch.cache "/users/octo" 400000
        (NetworkResult.response 403 (some "1717245296") "") 400100).cache =
        firstFetch.cache :=
  have key := fetchGitHubData_failure plainReset false firstFetch.cache "/users/octo" 400000
    403 (some "1717245296") "" 400100 rfl (by decide)
  ⟨key.1.trans (congrArg Settled.rejected (by decide)), key.2.1⟩

end Analysis
